import Mathlib

/-! # catly: upload validation gateway and object storage

A shallow embedding of the Go packages `api` (files `api/grpc.go`,
`api/http.go`) and `storage` (files `storage/memory.go`, `storage/file.go`,
`storage/errors.go`), and of the choice of the backend in
`cmd/server/main.go`.

Modelling conventions.

* A Go `string` is a Lean `String`; Go's `len(s)` is the length of the UTF-8
  encoding, `String.utf8ByteSize`.  Object names arrive in a proto3 `string`
  field, so they are valid UTF-8.  Scanning a valid UTF-8 string for the
  ASCII bytes `'/'` and `'.'` finds exactly the characters `'/'` and `'.'`,
  so `strings.ContainsRune` and `filepath.Ext` are written over characters.
* A Go `[]byte` is a `List UInt8`.
* Go code with effects is written in state-passing style: an injected
  dependency takes the state it owns and returns its result with the new
  state.
* `Upload` returns `(response, nil)` on every path of the source; the model
  returns the response only.
* The file system is a table from cleaned paths to files and directories,
  with a list of paths the system refuses; `os.OpenFile` with
  `O_CREATE|O_EXCL` is one step on it.
* Calls that run at once are interleavings of their steps, a step being one
  operation on the `sync.Map` or on the file system.
-/

/-- A Go byte slice. -/
abbrev Bytes := List UInt8

/-! ## Package `storage`: errors (storage/errors.go) -/

namespace storage

/-- Go `error` values seen by the program: the four sentinels declared in
`storage/errors.go`, errors made elsewhere (readers, sinks, the operating
system), and `fmt.Errorf("<pfx>%w", inner)` wrappers. -/
inductive GoError where
  | ErrDirectoryPathIsFile
  | ErrFileDoesNotExist
  | ErrFileExists
  | ErrWriteIncomplete
  | other (msg : String)
  | wrap (pfx : String) (inner : GoError)
  deriving DecidableEq, Repr

/-- The `Error()` method: the message of an error value. -/
def GoError.Error : GoError → String
  | .ErrDirectoryPathIsFile => "storage base directory path is a file"
  | .ErrFileDoesNotExist => "the file you requested does not exist"
  | .ErrFileExists => "the file you have uploaded must have a unique name"
  | .ErrWriteIncomplete => "write incomplete"
  | .other msg => msg
  | .wrap pfx inner => pfx ++ inner.Error

end storage

open storage (GoError)

/-! ## Standard-library pieces used by the program -/

namespace io

/-- An `io.Reader`, described by what draining it yields: the bytes it
delivers and how the stream ends (`none`: `io.EOF`; `some e`: a read fails
with `e`). -/
structure Reader where
  data : Bytes
  err : Option GoError
  deriving DecidableEq, Repr

/-- The call `io.ReadAll(r)`: the bytes read, and the error if a read failed. -/
def ReadAll (r : Reader) : Bytes × Option GoError := (r.data, r.err)

/-- An `io.Writer`: the bytes delivered to it so far, how it answers a
`Write(p)` call (the count it reports and the error it reports), and the
number of `Write` calls made on it so far. -/
structure Writer where
  written : Bytes
  behave : Bytes → Nat × Option GoError
  calls : Nat := 0

/-- The call `w.Write(p)`: the sink takes the first `n` bytes of `p`, where
`n` is the count it reports. -/
def Writer.Write (w : Writer) (p : Bytes) : (Nat × Option GoError) × Writer :=
  ((w.behave p),
    { w with written := w.written ++ p.take (w.behave p).1, calls := w.calls + 1 })

end io

namespace bytes

/-- The call `bytes.NewReader(b)`: delivers `b`, then `io.EOF`. -/
def NewReader (b : Bytes) : io.Reader := ⟨b, none⟩

/-- A fresh `bytes.Buffer` (`var b bytes.Buffer`): takes every byte of every
write and never fails. -/
def Buffer : io.Writer := { written := [], behave := fun p => (p.length, none) }

end bytes

/-- Go's `len(s)` for a string: the number of bytes. -/
def len (s : String) : Nat := s.utf8ByteSize

namespace strings

/-- The call `strings.ContainsRune(s, r)`. -/
def ContainsRune (s : String) (r : Char) : Bool := s.data.contains r

end strings

namespace filepath

/-- The loop of `filepath.Ext`, walking the path from its last element
towards the first: `acc` holds the elements already passed. -/
def extLoop : List Char → List Char → List Char
  | [], _ => []
  | c :: rest, acc =>
    if c = '/' then []
    else if c = '.' then '.' :: acc
    else extLoop rest (c :: acc)

/-- The call `filepath.Ext(path)` on a system whose separator is `'/'`: the
suffix beginning at the final dot of the last path element, or `""`. -/
def Ext (path : String) : String := ⟨extLoop path.data.reverse []⟩

end filepath

/-- A value held in a `sync.Map` (a Go `any`): a byte slice, or a value of
some other dynamic type. -/
inductive GoAny where
  | bytes (data : Bytes)
  | nonBytes (tag : Nat)
  deriving DecidableEq, Repr

namespace sync

/-- A `sync.Map` from names to values, as the list of its entries, newest
first; the zero value is the empty map. -/
structure Map where
  entries : List (String × GoAny)
  deriving DecidableEq, Repr

/-- Entry lookup, first match. -/
def lookupEntry : List (String × GoAny) → String → Option GoAny
  | [], _ => none
  | (k, v) :: rest, key => if k = key then some v else lookupEntry rest key

/-- The call `m.Load(key)`: `some v` stands for `(v, true)`, `none` for
`(nil, false)`. -/
def Map.Load (m : Map) (key : String) : Option GoAny := lookupEntry m.entries key

/-- The call `m.Store(key, value)`. -/
def Map.Store (m : Map) (key : String) (value : GoAny) : Map :=
  ⟨(key, value) :: m.entries.filter (fun e => e.1 ≠ key)⟩

/-- The call `m.LoadOrStore(key, value)`: the existing value and `true` when
the key is present, else stores `value` and returns it with `false`. -/
def Map.LoadOrStore (m : Map) (key : String) (value : GoAny) : (GoAny × Bool) × Map :=
  match m.Load key with
  | some actual => ((actual, true), m)
  | none => ((value, false), ⟨(key, value) :: m.entries⟩)

end sync

/-! ## Package `storage`: the in-memory backend (storage/memory.go) -/

namespace storage

/-- The struct `MemoryStore`. -/
structure MemoryStore where
  objects : sync.Map
  deriving DecidableEq, Repr

/-- The function `NewMemoryStore`. -/
def NewMemoryStore : MemoryStore := ⟨⟨[]⟩⟩

/-- The method `MemoryStore.ReadObject` (storage/memory.go, lines 23-51):
the returned error and the sink after the call.  The store is only loaded
from. -/
def MemoryStore.ReadObject (s : MemoryStore) (id : String) (w : io.Writer) :
    Option GoError × io.Writer :=
  -- load the object from the hashmap
  match s.objects.Load id with
  | none => (some .ErrFileDoesNotExist, w)
  | some (.nonBytes _) => (some .ErrFileDoesNotExist, w)
  | some (.bytes data) =>
    -- write the data to the requester's io.Writer
    match w.Write data with
    | ((_, some err), w1) => (some (.wrap "failed to write file data: " err), w1)
    | ((wb, none), w1) =>
      if wb < data.length then (some .ErrWriteIncomplete, w1) else (none, w1)

/-- The method `MemoryStore.WriteObject` (storage/memory.go, lines 53-77),
run without interference from other callers: the returned error and the
store after the call. -/
def MemoryStore.WriteObject (s : MemoryStore) (id : String) (r : io.Reader) :
    Option GoError × MemoryStore :=
  -- check the file does not already exist
  match s.objects.Load id with
  | some _ => (some .ErrFileExists, s)
  | none =>
    -- read all the bytes from the buffer
    match io.ReadAll r with
    | (_, some err) => (some (.wrap "failed to read bytes from request: " err), s)
    | (data, none) =>
      -- attempt to store it, fail if another writer beats us
      match s.objects.LoadOrStore id (.bytes data) with
      | ((_, true), m) => (some .ErrFileExists, ⟨m⟩)
      | ((_, false), m) => (none, ⟨m⟩)

/-- One call on a `MemoryStore`. -/
inductive Call where
  | write (id : String) (r : io.Reader)
  | read (id : String) (w : io.Writer)

/-- Performs one call: the returned error and the store after it. -/
def MemoryStore.call (s : MemoryStore) : Call → Option GoError × MemoryStore
  | .write id r => s.WriteObject id r
  | .read id w => ((s.ReadObject id w).1, s)

/-- Performs the calls in sequence: the store at the end. -/
def MemoryStore.run (s : MemoryStore) : List Call → MemoryStore
  | [] => s
  | c :: cs => MemoryStore.run (s.call c).2 cs

/-- The number of calls in the sequence that are a `WriteObject` for `id`
returning `nil`. -/
def MemoryStore.successfulWrites (s : MemoryStore) (id : String) : List Call → Nat
  | [] => 0
  | .write k r :: cs =>
    (if k = id ∧ (s.WriteObject k r).1 = none then 1 else 0) +
      MemoryStore.successfulWrites (s.WriteObject k r).2 id cs
  | .read k w :: cs => MemoryStore.successfulWrites (s.call (.read k w)).2 id cs

end storage

/-! ## Package `protocol/catly` (generated protobuf types) -/

namespace catly

/-- Modelled from the spec: the enum `ObjectStatus` of the generated package
`protocol/catly`, which is not among the source files; the spec's "status
(ok/err)". -/
inductive ObjectStatus where
  | ObjectOK
  | ObjectERR
  deriving DecidableEq, Repr

/-- Modelled from the spec: the message `UploadObjectRequest` of the generated
package `protocol/catly`; the spec's "object name (string), payload (byte
sequence)". -/
structure UploadObjectRequest where
  Name : String
  Data : Bytes
  deriving DecidableEq, Repr

/-- Modelled from the spec: the message `UploadObjectResponse` of the
generated package `protocol/catly`; the spec's "status (ok/err), and on ok a
constructed externally-visible location string; on err, a reason string".
A field the source leaves out of a composite literal is the empty string. -/
structure UploadObjectResponse where
  Status : ObjectStatus
  Url : String := ""
  Error : String := ""
  deriving DecidableEq, Repr

end catly

/-! ## Package `api`: the upload gateway (api/grpc.go) -/

namespace api

open catly

/-- The type `contentDetectorFunc`, a `func(data []byte) string`; `δ` is the
state the function owns, so that a call to it can be observed. -/
abbrev contentDetectorFunc (δ : Type) := Bytes → δ → String × δ

/-- The interface `WritableStorage`; `σ` is the state of the backend. -/
structure WritableStorage (σ : Type) where
  WriteObject : String → io.Reader → σ → Option GoError × σ

/-- The struct `GRPCResource`. -/
structure GRPCResource (σ δ : Type) where
  address : String
  storage : WritableStorage σ
  contentDetector : contentDetectorFunc δ

/-- The method `GRPCResource.Upload` (api/grpc.go, lines 41-102).
`TypeByExtension` is the standard library's `mime.TypeByExtension`, whose
table depends on the host system; `s` is the storage state and `d` the
detector's state before the call. -/
def GRPCResource.Upload {σ δ : Type} (TypeByExtension : String → String)
    (rs : GRPCResource σ δ) (req : UploadObjectRequest) (s : σ) (d : δ) :
    UploadObjectResponse × σ × δ :=
  -- check the name of the file is present and not too large
  if len req.Name > 256 ∨ len req.Name < 1 then
    ({ Status := .ObjectERR,
       Error := "image name should be between 1 and 256 characters" }, s, d)
  -- check there are no slashes
  else if strings.ContainsRune req.Name '/' then
    ({ Status := .ObjectERR,
       Error := "image name contains invalid characters" }, s, d)
  -- check that data has been provided
  else if req.Data.length < 1 then
    ({ Status := .ObjectERR,
       Error := "image upload contains no valid data" }, s, d)
  else
    -- get a best effort guess at the data's contents
    let det := rs.contentDetector req.Data d
    let mt := det.1
    let d1 := det.2
    if mt ≠ "image/jpeg" ∧ mt ≠ "image/png" ∧ mt ≠ "image/gif" then
      ({ Status := .ObjectERR,
         Error := "uploaded image content of '" ++ mt ++ "' is not supported" }, s, d1)
    else
      -- check that the detected mime type matches the file extension
      let ext := filepath.Ext req.Name
      if mt ≠ TypeByExtension ext then
        ({ Status := .ObjectERR,
           Error := "uploaded image extension '" ++ ext ++
             "' does not match it's content type of '" ++ mt ++ "'" }, s, d1)
      else
        -- write the object to the underlying storage implementation
        match rs.storage.WriteObject req.Name (bytes.NewReader req.Data) s with
        | (some err, s1) => ({ Status := .ObjectERR, Error := err.Error }, s1, d1)
        | (none, s1) =>
          -- generate the URL and return it to the uploader
          ({ Status := .ObjectOK, Url := rs.address ++ req.Name }, s1, d1)

end api


namespace api

open catly

/-- A `MemoryStore` used as the gateway's `WritableStorage`. -/
def memoryStorage : WritableStorage storage.MemoryStore :=
  ⟨fun id r s => s.WriteObject id r⟩

/-- A storage double that accepts every write and appends the name and the
bytes it drained from the reader to its log of calls. -/
def recordingStorage : WritableStorage (List (String × Bytes)) :=
  ⟨fun id r log => (none, log ++ [(id, (io.ReadAll r).1)])⟩

/-- A content detector without effects that counts how often it is called. -/
def countingDetector (f : Bytes → String) : contentDetectorFunc Nat :=
  fun data n => (f data, n + 1)

/-- The five checks of the upload gateway, in the order the spec lists them. -/
inductive Check where
  | nameLength
  | nameCharacters
  | payloadNonEmpty
  | contentAccepted
  | extensionAgrees
  deriving DecidableEq, Repr

/-- The checks in priority order. -/
def Check.order : List Check :=
  [.nameLength, .nameCharacters, .payloadNonEmpty, .contentAccepted, .extensionAgrees]

/-- Whether a check fails for a name, a payload and a sniffed type `mt`, in
the spec's words: the name length is not in 1..256; the name contains `'/'`;
the payload is empty; `mt` is not one of the three accepted types; the media
type of the name's extension differs from `mt`. -/
def Check.fails (TypeByExtension : String → String) (name : String) (data : Bytes)
    (mt : String) : Check → Bool
  | .nameLength => decide (¬ (1 ≤ len name ∧ len name ≤ 256))
  | .nameCharacters => decide ('/' ∈ name.data)
  | .payloadNonEmpty => decide (data = [])
  | .contentAccepted => decide (mt ∉ ["image/jpeg", "image/png", "image/gif"])
  | .extensionAgrees => decide (TypeByExtension (filepath.Ext name) ≠ mt)

/-- The reason reported for a failing check. -/
def Check.reason (name : String) (mt : String) : Check → String
  | .nameLength => "image name should be between 1 and 256 characters"
  | .nameCharacters => "image name contains invalid characters"
  | .payloadNonEmpty => "image upload contains no valid data"
  | .contentAccepted => "uploaded image content of '" ++ mt ++ "' is not supported"
  | .extensionAgrees =>
    "uploaded image extension '" ++ filepath.Ext name ++
      "' does not match it's content type of '" ++ mt ++ "'"

/-- The first check, in priority order, that fails. -/
def firstFailing (TypeByExtension : String → String) (name : String) (data : Bytes)
    (mt : String) : Option Check :=
  Check.order.find? (Check.fails TypeByExtension name data mt)

/-- Whether the content detector has been called by the time a check is
decided: only the last two checks look at the sniffed type. -/
def Check.usesDetector : Check → Bool
  | .contentAccepted => true
  | .extensionAgrees => true
  | _ => false

/-- The rejection response for a reason: status `ObjectERR`, no URL. -/
def rejection (reason : String) : UploadObjectResponse :=
  { Status := .ObjectERR, Error := reason }

/-- The reason given when the name length check fails. -/
def lengthReason : String := "image name should be between 1 and 256 characters"

/-- A gateway as the tests build it: base address `http://127.0.0.1:8080/`, a
detector that answers `image/jpeg` for every payload (counting its calls),
in front of the recording storage double. -/
def sampleResource : GRPCResource (List (String × Bytes)) Nat :=
  { address := "http://127.0.0.1:8080/",
    storage := recordingStorage,
    contentDetector := countingDetector (fun _ => "image/jpeg") }

/-- The same gateway with a detector that answers `application/octet-stream`. -/
def octetResource : GRPCResource (List (String × Bytes)) Nat :=
  { sampleResource with
    contentDetector := countingDetector (fun _ => "application/octet-stream") }

/-- The gateway of the tests in front of a `MemoryStore`. -/
def memoryResource : GRPCResource storage.MemoryStore Nat :=
  { address := "http://127.0.0.1:8080/",
    storage := memoryStorage,
    contentDetector := countingDetector (fun _ => "image/jpeg") }

/-- A name of 104 characters and 304 bytes: 100 times the three-byte
character U+732B, then `.jpg`. -/
def multibyteName : String := String.mk (List.replicate 100 (Char.ofNat 0x732B) ++ ".jpg".data)

/-- A name of 256 one-byte characters ending in `.jpg`. -/
def name256 : String := String.mk (List.replicate 252 'a' ++ ".jpg".data)

/-- A table for `mime.TypeByExtension` with the entries of the three accepted
image types under their usual extensions. -/
def sampleTypeByExtension (ext : String) : String :=
  if ext = ".jpg" then "image/jpeg"
  else if ext = ".jpeg" then "image/jpeg"
  else if ext = ".png" then "image/png"
  else if ext = ".gif" then "image/gif"
  else ""

end api

/-! ## More of the standard library: `errors`, `io.Copy`, `filepath.Join`, `os` -/

namespace errors

/-- The call `errors.Is(err, target)` for a sentinel `target`: `err` is the
target or wraps it, at any depth. -/
def Is : GoError → GoError → Bool
  | .wrap pfx inner, target => decide (GoError.wrap pfx inner = target) || Is inner target
  | err, target => decide (err = target)

end errors

namespace io

/-- The error `io.ErrShortWrite`. -/
def ErrShortWrite : GoError := .other "short write"

/-- The error `io.Copy` reports when a sink returns a count above the number
of bytes it was given. -/
def errInvalidWrite : GoError := .other "invalid write result"

/-- The size of the buffer `io.Copy` reads into. -/
def copyBufferSize : Nat := 32768

/-- The loop of `io.Copy` over the bytes the source still has to deliver:
each round hands the next buffer of at most `copyBufferSize` bytes to
`dst.Write` and stops at a write error or a short count.  `fuel` bounds the
number of rounds. -/
def copyLoop (dst : Writer) : Nat → Bytes → Option GoError × Writer
  | 0, _ => (none, dst)
  | fuel + 1, rest =>
    match rest with
    | [] => (none, dst)
    | _ :: _ =>
      let buf := rest.take copyBufferSize
      let res := dst.Write buf
      let nw := res.1.1
      let ew : Option GoError :=
        if buf.length < nw then
          (match res.1.2 with
            | none => some errInvalidWrite
            | some e => some e)
        else res.1.2
      match ew with
      | some e => (some e, res.2)
      | none =>
        if buf.length ≠ nw then (some ErrShortWrite, res.2)
        else copyLoop res.2 fuel (rest.drop copyBufferSize)

/-- The call `io.Copy(dst, src)` for a sink `dst`: the error returned and
the sink afterwards.  The bytes of `src` go to `dst` buffer by buffer; when
all were taken, the error that ends the source (if not `io.EOF`) is
returned. -/
def Copy (dst : Writer) (src : Reader) : Option GoError × Writer :=
  match copyLoop dst (src.data.length + 1) src.data with
  | (some e, dst1) => (some e, dst1)
  | (none, dst1) => (src.err, dst1)

end io

namespace strings

/-- The call `strings.TrimPrefix(s, p)`. -/
def TrimPrefix (s p : String) : String :=
  if p.data.isPrefixOf s.data then ⟨s.data.drop p.data.length⟩ else s

end strings

namespace filepath

/-- Splits a path at every `'/'`. -/
def splitSep : List Char → List (List Char)
  | [] => [[]]
  | c :: cs =>
    if c = '/' then [] :: splitSep cs
    else
      match splitSep cs with
      | h :: t => (c :: h) :: t
      | [] => [[c]]

/-- One element of a path meets the elements kept so far (last kept element
first): empty and `.` elements are dropped, `..` removes the element before
it, is dropped at the root, and is kept where nothing precedes it. -/
def cleanStep (rooted : Bool) (kept : List String) (elem : String) : List String :=
  if elem = "" ∨ elem = "." then kept
  else if elem = ".." then
    match kept with
    | top :: rest => if top = ".." then ".." :: kept else rest
    | [] => if rooted then [] else [".."]
  else elem :: kept

/-- The call `filepath.Clean(path)` on a system whose separator is `'/'`:
the shortest equivalent path, by the rules of the package documentation. -/
def Clean (path : String) : String :=
  let rooted := decide (path.data.head? = some '/')
  let elems := (splitSep path.data).map String.mk
  let body := String.intercalate "/" (elems.foldl (cleanStep rooted) []).reverse
  if rooted then "/" ++ body
  else if body = "" then "."
  else body

/-- The call `filepath.Join(a, b)`: the non-empty elements joined by `'/'`
and cleaned; `""` when both are empty. -/
def Join (a b : String) : String :=
  if a ≠ "" then Clean (a ++ "/" ++ b)
  else if b ≠ "" then Clean b
  else ""

end filepath

namespace os

/-- The error numbers the model of the file system produces. -/
inductive Errno where
  | ENOENT
  | EEXIST
  | EISDIR
  | ENOTDIR
  | EACCES
  | ENAMETOOLONG
  | ENOSPC
  deriving DecidableEq, Repr

/-- The message of an error number. -/
def Errno.Error : Errno → String
  | .ENOENT => "no such file or directory"
  | .EEXIST => "file exists"
  | .EISDIR => "is a directory"
  | .ENOTDIR => "not a directory"
  | .EACCES => "permission denied"
  | .ENAMETOOLONG => "file name too long"
  | .ENOSPC => "no space left on device"

/-- The error type `*os.PathError`. -/
structure PathError where
  Op : String
  Path : String
  Err : Errno
  deriving DecidableEq, Repr

/-- The `Error()` method of `*os.PathError`. -/
def PathError.Error (e : PathError) : String := e.Op ++ " " ++ e.Path ++ ": " ++ e.Err.Error

/-- A path error as a Go `error` value. -/
def PathError.toError (e : PathError) : GoError := .other e.Error

/-- The test `errors.Is(err, os.ErrNotExist)` on a path error. -/
def PathError.isNotExist (e : PathError) : Bool := decide (e.Err = .ENOENT)

/-- The test `errors.Is(err, os.ErrExist)` on a path error. -/
def PathError.isExist (e : PathError) : Bool := decide (e.Err = .EEXIST)

/-- What a path names. -/
inductive Node where
  | file (data : Bytes)
  | dir
  deriving DecidableEq, Repr

/-- The file system: the nodes by path (the newest entry of a path counts),
and the paths the system refuses to open, with the error number it gives
(permissions, missing parent directories, name limits, full media). -/
structure Disk where
  nodes : List (String × Node)
  deny : String → Option Errno

/-- The node a path names, if any. -/
def Disk.stat (disk : Disk) (name : String) : Option Node :=
  (disk.nodes.find? (fun e => e.1 = name)).map (fun e => e.2)

/-- The flag combinations the program opens files with. -/
inductive Flag where
  | readOnly
  | createExclusive
  deriving DecidableEq, Repr

/-- An open file: the path it was opened under. -/
structure File where
  name : String
  deriving DecidableEq, Repr

/-- The call `os.OpenFile(name, flag, 0644)`, for `O_RDONLY` and for
`O_CREATE|O_EXCL|O_WRONLY`: the open file and the file system afterwards, or
the path error.  The exclusive create fails with `EEXIST` when the path names
anything, and otherwise makes an empty file in one step. -/
def OpenFile (name : String) (flag : Flag) (disk : Disk) : Except PathError (File × Disk) :=
  match disk.deny name with
  | some e => .error ⟨"open", name, e⟩
  | none =>
    match flag, disk.stat name with
    | .readOnly, none => .error ⟨"open", name, .ENOENT⟩
    | .readOnly, some _ => .ok (⟨name⟩, disk)
    | .createExclusive, some _ => .error ⟨"open", name, .EEXIST⟩
    | .createExclusive, none => .ok (⟨name⟩, { disk with nodes := (name, .file []) :: disk.nodes })

/-- An open file as the source of `io.Copy`: a regular file delivers its
bytes; reading a directory fails with `EISDIR`. -/
def File.reader (fd : File) (disk : Disk) : io.Reader :=
  match disk.stat fd.name with
  | some (.file data) => ⟨data, none⟩
  | some .dir => ⟨[], some (PathError.toError ⟨"read", fd.name, .EISDIR⟩)⟩
  | none => ⟨[], none⟩

/-- The call `io.Copy(fd, r)` into a file opened for writing: the file takes
every byte the reader delivers; the error is the one that ends the reader. -/
def File.ReadFrom (fd : File) (r : io.Reader) (disk : Disk) : Option GoError × Disk :=
  match disk.stat fd.name with
  | some (.file data) =>
    (r.err, { disk with nodes := (fd.name, .file (data ++ r.data)) :: disk.nodes })
  | _ => (r.err, disk)

end os

/-! ## Package `storage`: the file backend (storage/file.go) -/

namespace storage

/-- The struct `FileStore`. -/
structure FileStore where
  baseDir : String
  deriving DecidableEq, Repr

/-- The function `NewFileStore` (storage/file.go, lines 21-36): `os.Stat` of
the base directory must succeed and show a directory. -/
def NewFileStore (baseDir : String) (disk : os.Disk) : Except GoError FileStore :=
  match disk.deny baseDir, disk.stat baseDir with
  | some e, _ =>
    .error (.wrap "storage base directory does not exist: "
      (os.PathError.toError ⟨"stat", baseDir, e⟩))
  | none, none =>
    .error (.wrap "storage base directory does not exist: "
      (os.PathError.toError ⟨"stat", baseDir, .ENOENT⟩))
  | none, some (.file _) => .error .ErrDirectoryPathIsFile
  | none, some .dir => .ok ⟨baseDir⟩

/-- The method `FileStore.ReadObject` (storage/file.go, lines 38-66): the
returned error and the sink after the call. -/
def FileStore.ReadObject (s : FileStore) (id : String) (w : io.Writer) (disk : os.Disk) :
    Option GoError × io.Writer :=
  let p := filepath.Join s.baseDir id
  match os.OpenFile p .readOnly disk with
  | .error err =>
    if err.isNotExist then (some .ErrFileDoesNotExist, w)
    else (some (.wrap "failed to read requested file: " err.toError), w)
  | .ok (fd, _) =>
    match io.Copy w (fd.reader disk) with
    | (some err, w1) => (some err, w1)
    | (none, w1) => (none, w1)

/-- The method `FileStore.WriteObject` (storage/file.go, lines 68-97), run
without interference from other callers: the returned error and the file
system after the call. -/
def FileStore.WriteObject (s : FileStore) (id : String) (r : io.Reader) (disk : os.Disk) :
    Option GoError × os.Disk :=
  let p := filepath.Join s.baseDir id
  -- open the file with O_CREATE and O_EXCL
  match os.OpenFile p .createExclusive disk with
  | .error err =>
    if err.isExist then (some .ErrFileExists, disk)
    else (some err.toError, disk)
  | .ok (fd, disk1) =>
    -- copy data from the request's body to the file descriptor
    match fd.ReadFrom r disk1 with
    | (some err, disk2) => (some (.wrap "file upload failed: " err), disk2)
    | (none, disk2) => (none, disk2)

end storage

/-! ## Package `net/http`: requests and response writers -/

/-- The conversion `[]byte(s)`: the UTF-8 bytes of a string. -/
def stringBytes (s : String) : Bytes := s.data.flatMap String.utf8EncodeChar

namespace http

/-- The constant `http.MethodGet`. -/
def MethodGet : String := "GET"

/-- The constant `http.StatusOK`. -/
def StatusOK : Nat := 200

/-- The constant `http.StatusBadRequest`. -/
def StatusBadRequest : Nat := 400

/-- The constant `http.StatusNotFound`. -/
def StatusNotFound : Nat := 404

/-- The constant `http.StatusMethodNotAllowed`. -/
def StatusMethodNotAllowed : Nat := 405

/-- The constant `http.StatusInternalServerError`. -/
def StatusInternalServerError : Nat := 500

/-- The fields of `*http.Request` the handler reads: `r.Method` and
`r.URL.Path`. -/
structure Request where
  Method : String
  Path : String
  deriving DecidableEq, Repr

/-- An `http.ResponseWriter`: the header entries set before the status line
went out, the status code once it went out, and the body as an `io.Writer`
(its bytes, and how the connection answers a write). -/
structure ResponseWriter where
  header : List (String × String)
  code : Option Nat
  sink : io.Writer

/-- The call `w.Header().Set(key, value)`; the headers of the response are
those set before the status line went out. -/
def ResponseWriter.SetHeader (w : ResponseWriter) (key value : String) : ResponseWriter :=
  if w.code.isSome then w
  else { w with header := (key, value) :: w.header.filter (fun e => e.1 ≠ key) }

/-- The call `w.Header().Get(key)` on the response. -/
def ResponseWriter.GetHeader (w : ResponseWriter) (key : String) : String :=
  ((w.header.find? (fun e => e.1 = key)).map (fun e => e.2)).getD ""

/-- The call `w.WriteHeader(code)`: sends the status line once; a later call
changes nothing. -/
def ResponseWriter.WriteHeader (w : ResponseWriter) (code : Nat) : ResponseWriter :=
  if w.code.isSome then w else { w with code := some code }

/-- The call `w.Write(p)`: the first write sends the status line with
`http.StatusOK` if none went out before, then the bytes go to the body. -/
def ResponseWriter.Write (w : ResponseWriter) (p : Bytes) :
    (Nat × Option GoError) × ResponseWriter :=
  ((w.sink.behave p), { w.WriteHeader StatusOK with sink := (w.sink.Write p).2 })

/-- The response writer after code that held it as an `io.Writer` has
finished, leaving the body `out`: if that code called `Write`, the status line
went out at its first call. -/
def ResponseWriter.afterWrites (w : ResponseWriter) (out : io.Writer) : ResponseWriter :=
  if w.sink.calls < out.calls then { w.WriteHeader StatusOK with sink := out }
  else { w with sink := out }

/-- The status of the response once the handler has returned: the code that
went out, or `http.StatusOK` when the handler sent none. -/
def ResponseWriter.status (w : ResponseWriter) : Nat := w.code.getD StatusOK

/-- The body of the response. -/
def ResponseWriter.body (w : ResponseWriter) : Bytes := w.sink.written

/-- The function `httptest.NewRecorder`: nothing sent yet, every write is
taken. -/
def NewRecorder : ResponseWriter := { header := [], code := none, sink := bytes.Buffer }

end http

/-! ## Package `api`: the download handler (api/http.go) -/

namespace api

/-- The interface `ReadableStorage`; `σ` is the state of the backend. -/
structure ReadableStorage (σ : Type) where
  ReadObject : String → io.Writer → σ → Option GoError × io.Writer × σ

/-- The struct `HTTPResource`. -/
structure HTTPResource (σ : Type) where
  storage : ReadableStorage σ

/-- The function `NewHTTPResource`. -/
def NewHTTPResource {σ : Type} (s : ReadableStorage σ) : HTTPResource σ := { storage := s }

/-- The method `HTTPResource.GetObject` (api/http.go, lines 34-103): the
response writer and the storage state after the call.  `TypeByExtension` is
the standard library's `mime.TypeByExtension`.  The request id and the log
lines of the source do not reach the response and are left out. -/
def HTTPResource.GetObject {σ : Type} (TypeByExtension : String → String)
    (rs : HTTPResource σ) (w : http.ResponseWriter) (r : http.Request) (s : σ) :
    http.ResponseWriter × σ :=
  if r.Method ≠ http.MethodGet then
    (((w.WriteHeader http.StatusMethodNotAllowed).Write
      (stringBytes "method not allowed")).2, s)
  else
    let fileID := strings.TrimPrefix r.Path "/"
    -- fail if someone is trying to potentially access different paths
    -- on the filesystem, or the image name is too large
    if strings.ContainsRune fileID '/' ∨ len fileID > 256 then
      (((w.WriteHeader http.StatusBadRequest).Write
        (stringBytes "bad request: image URL is invalid")).2, s)
    else
      -- set the content type, get the object and write it to the response
      let w1 := w.SetHeader "Content-Type" (TypeByExtension (filepath.Ext fileID))
      match rs.storage.ReadObject fileID w1.sink s with
      | (some err, out, s1) =>
        let w2 := w1.afterWrites out
        if errors.Is err .ErrFileDoesNotExist then
          (((w2.WriteHeader http.StatusNotFound).Write (stringBytes "image not found")).2, s1)
        else
          (((w2.WriteHeader http.StatusInternalServerError).Write
            (stringBytes "internal server error")).2, s1)
      | (none, out, s1) => (w1.afterWrites out, s1)

/-- A `MemoryStore` used as the handler's `ReadableStorage`. -/
def memoryReadable : ReadableStorage storage.MemoryStore :=
  ⟨fun id w s => ((s.ReadObject id w).1, (s.ReadObject id w).2, s)⟩

/-- A `FileStore` over a file system used as the handler's `ReadableStorage`. -/
def fileReadable (fs : storage.FileStore) : ReadableStorage os.Disk :=
  ⟨fun id w disk => ((fs.ReadObject id w disk).1, (fs.ReadObject id w disk).2, disk)⟩

/-- A `FileStore` over a file system used as the gateway's `WritableStorage`. -/
def fileStorage (fs : storage.FileStore) : WritableStorage os.Disk :=
  ⟨fun id r disk => fs.WriteObject id r disk⟩

/-- A read-side storage double that finds nothing and appends every name it
is asked for to its log of calls. -/
def recordingReadable : ReadableStorage (List String) :=
  ⟨fun id w log => (some .ErrFileDoesNotExist, w, log ++ [id])⟩

/-- The handler of the tests in front of a `MemoryStore`. -/
def memoryHandler : HTTPResource storage.MemoryStore := NewHTTPResource memoryReadable

end api

/-! ## Sample stores and sinks -/

namespace storage

/-- A file store rooted at `/data`. -/
def sampleFileStore : FileStore := { baseDir := "/data" }

/-- A file system that holds the directory `/data` and nothing else, and
refuses no path. -/
def sampleDisk : os.Disk := { nodes := [("/data", .dir)], deny := fun _ => none }

/-- The file system `sampleDisk` with the file `/data/cat.jpg` holding `meow`. -/
def catDisk : os.Disk :=
  { nodes := [("/data/cat.jpg", .file [109, 101, 111, 119]), ("/data", .dir)],
    deny := fun _ => none }

/-- The file system `sampleDisk` on which `/data/cat.jpg` may not be opened. -/
def readOnlyDisk : os.Disk :=
  { nodes := [("/data", .dir)],
    deny := fun name => if name = "/data/cat.jpg" then some .EACCES else none }

/-- A memory store that holds `meow` under `cat.jpg`. -/
def catStore : MemoryStore := ⟨⟨[("cat.jpg", .bytes [109, 101, 111, 119])]⟩⟩

/-- A reader that delivers two bytes and then fails. -/
def failingReader : io.Reader := { data := [1, 2], err := some (.other "unexpected EOF") }

/-- A sink that takes two bytes of every write and reports no error. -/
def shortSink : io.Writer := { written := [], behave := fun _ => (2, none) }

/-- A sink that takes two bytes of every write and reports an error. -/
def brokenSink : io.Writer :=
  { written := [], behave := fun _ => (2, some (.other "broken pipe")) }

end storage

namespace api

/-- The gateway of the tests in front of the file store rooted at `/data`. -/
def fileResource : GRPCResource os.Disk Nat :=
  { address := "http://127.0.0.1:8080/",
    storage := fileStorage storage.sampleFileStore,
    contentDetector := countingDetector (fun _ => "image/jpeg") }

/-- The download handler in front of the file store rooted at `/data`. -/
def fileHandler : HTTPResource os.Disk := NewHTTPResource (fileReadable storage.sampleFileStore)

/-- A response writer on which nothing was sent yet and whose connection
takes no byte of a write and reports `broken pipe`. -/
def brokenResponse : http.ResponseWriter :=
  { header := [], code := none,
    sink := { written := [], behave := fun _ => (0, some (.other "broken pipe")) } }

end api

/-! ## Concurrent `WriteObject` calls, step by step -/

namespace storage

/-- Where a `MemoryStore.WriteObject` call stands: before the `Load`, after
a `Load` that found nothing, after `io.ReadAll` returned `data`, or returned
with `err`. -/
inductive MemoryWrite where
  | start
  | checked
  | read (data : Bytes)
  | returned (err : Option GoError)
  deriving DecidableEq, Repr

/-- One step of a `MemoryStore.WriteObject` call (storage/memory.go, lines
55, 61 and 67): the `Load`, the `io.ReadAll`, or the `LoadOrStore`; each is
one operation on the `sync.Map` or none. -/
def MemoryStore.stepWrite (s : MemoryStore) (id : String) (r : io.Reader) :
    MemoryWrite → MemoryWrite × MemoryStore
  | .start =>
    match s.objects.Load id with
    | some _ => (.returned (some .ErrFileExists), s)
    | none => (.checked, s)
  | .checked =>
    match io.ReadAll r with
    | (_, some err) =>
      (.returned (some (.wrap "failed to read bytes from request: " err)), s)
    | (data, none) => (.read data, s)
  | .read data =>
    match s.objects.LoadOrStore id (.bytes data) with
    | ((_, true), m) => (.returned (some .ErrFileExists), ⟨m⟩)
    | ((_, false), m) => (.returned none, ⟨m⟩)
  | .returned err => (.returned err, s)

/-- Calls of `WriteObject` running at once on one `MemoryStore`: the store
and the position of each call. -/
structure MemoryRace where
  store : MemoryStore
  calls : Nat → MemoryWrite

/-- The start of a race on the store `s`: every call is before its `Load`. -/
def MemoryRace.init (s : MemoryStore) : MemoryRace := { store := s, calls := fun _ => .start }

/-- The scheduler lets call `i` (of the calls `0 .. K-1`, call `i` writing the
name `id` from `readers i`) take its next step. -/
def MemoryRace.step (id : String) (readers : Nat → io.Reader) (K : Nat) (st : MemoryRace)
    (i : Nat) : MemoryRace :=
  if i < K then
    { store := (st.store.stepWrite id (readers i) (st.calls i)).2,
      calls := Function.update st.calls i (st.store.stepWrite id (readers i) (st.calls i)).1 }
  else st

/-- An interleaving: the calls take steps in the order the schedule names
them. -/
def MemoryRace.run (id : String) (readers : Nat → io.Reader) (K : Nat) :
    MemoryRace → List Nat → MemoryRace
  | st, [] => st
  | st, i :: rest => MemoryRace.run id readers K (st.step id readers K i) rest

/-- What holds at every point of a race of `K` calls for `id` on a store
that did not hold `id`, call `i` carrying `payload i`: either the name is
absent and no call has returned, or one call has returned `nil`, the name
holds its payload, and every other call that returned got `ErrFileExists`. -/
def MemoryRace.Inv (id : String) (payload : Nat → Bytes) (K : Nat) (st : MemoryRace) : Prop :=
  (∀ i, i < K → ∀ d, st.calls i = .read d → d = payload i) ∧
    ((st.store.objects.Load id = none ∧ ∀ i, i < K → ∀ e, st.calls i ≠ .returned e) ∨
      (∃ j, j < K ∧ st.calls j = .returned none ∧
        st.store.objects.Load id = some (.bytes (payload j)) ∧
        ∀ i, i < K → i ≠ j → ∀ e, st.calls i = .returned e → e = some .ErrFileExists))

/-- Where a `FileStore.WriteObject` call stands: before `os.OpenFile`, with
the file open, or returned with `err`. -/
inductive FileWrite where
  | start
  | opened (fd : os.File)
  | returned (err : Option GoError)
  deriving DecidableEq, Repr

/-- One step of a `FileStore.WriteObject` call (storage/file.go, lines 74
and 86): the exclusive `os.OpenFile`, or the `io.Copy` into the open file. -/
def FileStore.stepWrite (fs : FileStore) (id : String) (r : io.Reader) (disk : os.Disk) :
    FileWrite → FileWrite × os.Disk
  | .start =>
    match os.OpenFile (filepath.Join fs.baseDir id) .createExclusive disk with
    | .error err =>
      if err.isExist then (.returned (some .ErrFileExists), disk)
      else (.returned (some err.toError), disk)
    | .ok (fd, disk1) => (.opened fd, disk1)
  | .opened fd =>
    match fd.ReadFrom r disk with
    | (some err, disk2) => (.returned (some (.wrap "file upload failed: " err)), disk2)
    | (none, disk2) => (.returned none, disk2)
  | .returned err => (.returned err, disk)

/-- Calls of `WriteObject` running at once on one `FileStore`: the file
system and the position of each call. -/
structure FileRace where
  disk : os.Disk
  calls : Nat → FileWrite

/-- The start of a race on the file system `disk`. -/
def FileRace.init (disk : os.Disk) : FileRace := { disk := disk, calls := fun _ => .start }

/-- The scheduler lets call `i` take its next step. -/
def FileRace.step (fs : FileStore) (id : String) (readers : Nat → io.Reader) (K : Nat)
    (st : FileRace) (i : Nat) : FileRace :=
  if i < K then
    { disk := (fs.stepWrite id (readers i) st.disk (st.calls i)).2,
      calls := Function.update st.calls i (fs.stepWrite id (readers i) st.disk (st.calls i)).1 }
  else st

/-- An interleaving of the calls' steps. -/
def FileRace.run (fs : FileStore) (id : String) (readers : Nat → io.Reader) (K : Nat) :
    FileRace → List Nat → FileRace
  | st, [] => st
  | st, i :: rest => FileRace.run fs id readers K (st.step fs id readers K i) rest

/-- What holds at every point of a race of `K` calls for `id` on a file
store in which the path `p` of `id` named nothing and is not refused: either
`p` names nothing and every call is at its start, or one call made the file:
it holds the open file with an empty file on disk, or has returned `nil` with
its payload on disk; every other call is at its start or has returned
`ErrFileExists`. -/
def FileRace.Inv (p : String) (payload : Nat → Bytes) (K : Nat) (st : FileRace) : Prop :=
  st.disk.deny p = none ∧
    ((st.disk.stat p = none ∧ ∀ i, i < K → st.calls i = .start) ∨
      (∃ j, j < K ∧
        ((st.calls j = .opened ⟨p⟩ ∧ st.disk.stat p = some (.file [])) ∨
          (st.calls j = .returned none ∧ st.disk.stat p = some (.file (payload j)))) ∧
        ∀ i, i < K → i ≠ j →
          st.calls i = .start ∨ st.calls i = .returned (some .ErrFileExists)))

end storage

/-! ## Package `mime`: the extension table -/

namespace mime

/-- The table `builtinTypesLower` of the standard library's package `mime`:
the types known on a host without a MIME database. -/
def builtinTypesLower : List (String × String) :=
  [(".avif", "image/avif"),
   (".css", "text/css; charset=utf-8"),
   (".gif", "image/gif"),
   (".htm", "text/html; charset=utf-8"),
   (".html", "text/html; charset=utf-8"),
   (".jpeg", "image/jpeg"),
   (".jpg", "image/jpeg"),
   (".js", "text/javascript; charset=utf-8"),
   (".json", "application/json"),
   (".mjs", "text/javascript; charset=utf-8"),
   (".pdf", "application/pdf"),
   (".png", "image/png"),
   (".svg", "image/svg+xml"),
   (".wasm", "application/wasm"),
   (".webp", "image/webp"),
   (".xml", "text/xml; charset=utf-8")]

/-- The type a table holds for an extension, if any. -/
def lookupType (table : List (String × String)) (ext : String) : Option String :=
  (table.find? (fun e => e.1 = ext)).map (fun e => e.2)

/-- Lower-casing of the letters `A` to `Z`, as `TypeByExtension` does for an
extension of ASCII characters. -/
def lowerASCII (ext : String) : String :=
  ⟨ext.data.map (fun c => if 'A' ≤ c ∧ c ≤ 'Z' then Char.ofNat (c.toNat + 32) else c)⟩

/-- The function `mime.TypeByExtension` over the two tables the package
keeps (`types`, keyed as registered, and `typesLower`, keyed in lower case):
the extension is looked up first as it is, then in lower case; without an
entry the result is `""`.  An extension with a character outside ASCII is
lower-cased with `strings.ToLower`, passed as `ToLower`. -/
def TypeByExtension (types typesLower : List (String × String)) (ToLower : String → String)
    (ext : String) : String :=
  match lookupType types ext with
  | some v => v
  | none =>
    if ext.data.any (fun c => decide (128 ≤ c.toNat)) then
      (lookupType typesLower (ToLower ext)).getD ""
    else (lookupType typesLower (lowerASCII ext)).getD ""

/-- The function `mime.TypeByExtension` on a host without a MIME database,
where both tables are `builtinTypesLower`.  `lowerASCII` stands in for
`strings.ToLower`, which is consulted only for extensions with characters
outside ASCII. -/
def builtinTypeByExtension (ext : String) : String :=
  TypeByExtension builtinTypesLower builtinTypesLower lowerASCII ext

end mime

namespace filepath

/-- The elements of the cleaned path, first to last: what `filepath.Clean`
joins with `'/'`. -/
def cleanElems (path : String) : List String :=
  (((splitSep path.data).map String.mk).foldl
    (cleanStep (decide (path.data.head? = some '/'))) []).reverse

end filepath

namespace os

/-- The call `os.MkdirAll(path, perm)`: nothing to do when the path is a
directory, an error when it is a file or refused, else the directory is
made. -/
def MkdirAll (path : String) (disk : Disk) : Except PathError Disk :=
  match disk.deny path with
  | some e => .error ⟨"mkdir", path, e⟩
  | none =>
    match disk.stat path with
    | some .dir => .ok disk
    | some (.file _) => .error ⟨"mkdir", path, .ENOTDIR⟩
    | none => .ok { disk with nodes := (path, .dir) :: disk.nodes }

end os

/-! ## Package `main` of `cmd/server`: the choice of the backend -/

namespace server

/-- The constant `DefaultStoragePath`. -/
def DefaultStoragePath : String := ":memory:"

/-- A value of the interface `storageProvider`: one of the two backends. -/
inductive storageProvider where
  | memory (m : storage.MemoryStore)
  | file (fs : storage.FileStore)
  deriving DecidableEq, Repr

/-- The function `getEnv` (cmd/server/main.go, lines 105-112) over the
environment `env`. -/
def getEnv (env : String → String) (name defaultValue : String) : String :=
  if env name = "" then defaultValue else env name

/-- The `switch storagePath` of `main` (cmd/server/main.go, lines 46-61):
the value of `sp` after it (`none` for the nil interface it is declared
with) and the file system, or the message `check` ends the process with. -/
def selectStorage (storagePath : String) (disk : os.Disk) :
    Except String (Option storageProvider × os.Disk) :=
  if storagePath = DefaultStoragePath then
    .ok (some (.memory storage.NewMemoryStore), disk)
  else if storagePath = "file" then
    match os.MkdirAll storagePath disk with
    | .error err => .error ("failed to create storage directory: " ++ err.Error)
    | .ok disk1 =>
      match storage.NewFileStore storagePath disk1 with
      | .error err => .error ("failed to setup file storage: " ++ err.Error)
      | .ok fs => .ok (some (.file fs), disk1)
  else .ok (none, disk)

/-- The storage path `main` reads from the environment and the provider it
selects for it. -/
def configuredStorage (env : String → String) (disk : os.Disk) :
    Except String (Option storageProvider × os.Disk) :=
  selectStorage (getEnv env "CATLY_STORAGE_PATH" DefaultStoragePath) disk

end server

namespace api

/-- A file system that holds the directories `/` and `/data`. -/
def rootDisk : os.Disk := { nodes := [("/", .dir), ("/data", .dir)], deny := fun _ => none }

end api

/-! ## Progress of racing calls, a file system with a name limit, a call log -/

namespace storage

/-- The number of steps a `MemoryStore.WriteObject` call has behind it; a
call that has returned counts as having taken all three. -/
def MemoryWrite.stage : MemoryWrite → Nat
  | .start => 0
  | .checked => 1
  | .read _ => 2
  | .returned _ => 3

/-- The number of steps a `FileStore.WriteObject` call has behind it; a call
that has returned counts as having taken both. -/
def FileWrite.stage : FileWrite → Nat
  | .start => 0
  | .opened _ => 1
  | .returned _ => 2

/-- A file system that holds the directory `/data` and limits a file name to
255 bytes (`NAME_MAX` of the usual file systems): a path with an element of
more than 255 bytes is refused with `ENAMETOOLONG`. -/
def nameLimitDisk : os.Disk :=
  { nodes := [("/data", .dir)],
    deny := fun name =>
      if (filepath.splitSep name.data).any (fun e => decide (255 < len (String.mk e))) then
        some .ENAMETOOLONG
      else none }

end storage

namespace api

/-- A storage backend wrapped so that every `WriteObject` call appends the
name it was given to a log, and is then passed on. -/
def recordCalls {σ : Type} (st : WritableStorage σ) : WritableStorage (σ × List String) :=
  ⟨fun id r s => ((st.WriteObject id r s.1).1, ((st.WriteObject id r s.1).2, s.2 ++ [id]))⟩

end api

namespace storage

/-- The outcome of a race of `K` calls for `id` with exactly one winner: one
call `j` has returned `nil`, every other call has returned `ErrFileExists`,
and the store holds `payload j` under `id`. -/
def MemoryRace.OneWinner (id : String) (payload : Nat → Bytes) (K : Nat) (st : MemoryRace) :
    Prop :=
  ∃ j, j < K ∧ st.calls j = .returned none ∧
    (∀ i, i < K → i ≠ j → st.calls i = .returned (some .ErrFileExists)) ∧
    st.store.objects.Load id = some (.bytes (payload j))

/-- The outcome of a race on a file store with exactly one winner: one call
`j` has returned `nil`, every other call has returned `ErrFileExists`, and
the file at the path `p` holds `payload j`. -/
def FileRace.OneWinner (p : String) (payload : Nat → Bytes) (K : Nat) (st : FileRace) : Prop :=
  ∃ j, j < K ∧ st.calls j = .returned none ∧
    (∀ i, i < K → i ≠ j → st.calls i = .returned (some .ErrFileExists)) ∧
    st.disk.stat p = some (.file (payload j))

end storage

set_option maxRecDepth 8000

/-! ## The stages of `Upload` -/

namespace api

open catly

section stages

variable {σ δ : Type} (T : String → String) (rs : GRPCResource σ δ)
  (req : UploadObjectRequest) (s : σ) (d : δ)

theorem upload_of_length (h : len req.Name > 256 ∨ len req.Name < 1) :
    rs.Upload T req s d =
      ({ Status := .ObjectERR,
         Error := "image name should be between 1 and 256 characters" }, s, d) := by
  simp only [GRPCResource.Upload, if_pos h]

theorem upload_of_slash (h1 : ¬ (len req.Name > 256 ∨ len req.Name < 1))
    (h2 : strings.ContainsRune req.Name '/' = true) :
    rs.Upload T req s d =
      ({ Status := .ObjectERR, Error := "image name contains invalid characters" }, s, d) := by
  simp only [GRPCResource.Upload, if_neg h1, if_pos h2]

theorem upload_of_no_data (h1 : ¬ (len req.Name > 256 ∨ len req.Name < 1))
    (h2 : ¬ strings.ContainsRune req.Name '/' = true) (h3 : req.Data.length < 1) :
    rs.Upload T req s d =
      ({ Status := .ObjectERR, Error := "image upload contains no valid data" }, s, d) := by
  simp only [GRPCResource.Upload, if_neg h1, if_neg h2, if_pos h3]

theorem upload_of_unsupported (h1 : ¬ (len req.Name > 256 ∨ len req.Name < 1))
    (h2 : ¬ strings.ContainsRune req.Name '/' = true) (h3 : ¬ req.Data.length < 1)
    (h4 : (rs.contentDetector req.Data d).1 ≠ "image/jpeg" ∧
      (rs.contentDetector req.Data d).1 ≠ "image/png" ∧
      (rs.contentDetector req.Data d).1 ≠ "image/gif") :
    rs.Upload T req s d =
      ({ Status := .ObjectERR,
         Error := "uploaded image content of '" ++ (rs.contentDetector req.Data d).1 ++
           "' is not supported" }, s, (rs.contentDetector req.Data d).2) := by
  simp only [GRPCResource.Upload, if_neg h1, if_neg h2, if_neg h3, if_pos h4]

theorem upload_of_mismatch (h1 : ¬ (len req.Name > 256 ∨ len req.Name < 1))
    (h2 : ¬ strings.ContainsRune req.Name '/' = true) (h3 : ¬ req.Data.length < 1)
    (h4 : ¬ ((rs.contentDetector req.Data d).1 ≠ "image/jpeg" ∧
      (rs.contentDetector req.Data d).1 ≠ "image/png" ∧
      (rs.contentDetector req.Data d).1 ≠ "image/gif"))
    (h5 : (rs.contentDetector req.Data d).1 ≠ T (filepath.Ext req.Name)) :
    rs.Upload T req s d =
      ({ Status := .ObjectERR,
         Error := "uploaded image extension '" ++ filepath.Ext req.Name ++
           "' does not match it's content type of '" ++
           (rs.contentDetector req.Data d).1 ++ "'" }, s,
        (rs.contentDetector req.Data d).2) := by
  simp only [GRPCResource.Upload, if_neg h1, if_neg h2, if_neg h3, if_neg h4, if_pos h5]

theorem upload_of_valid (h1 : ¬ (len req.Name > 256 ∨ len req.Name < 1))
    (h2 : ¬ strings.ContainsRune req.Name '/' = true) (h3 : ¬ req.Data.length < 1)
    (h4 : ¬ ((rs.contentDetector req.Data d).1 ≠ "image/jpeg" ∧
      (rs.contentDetector req.Data d).1 ≠ "image/png" ∧
      (rs.contentDetector req.Data d).1 ≠ "image/gif"))
    (h5 : ¬ (rs.contentDetector req.Data d).1 ≠ T (filepath.Ext req.Name)) :
    rs.Upload T req s d =
      match rs.storage.WriteObject req.Name (bytes.NewReader req.Data) s with
      | (some err, s1) =>
        ({ Status := .ObjectERR, Error := err.Error }, s1, (rs.contentDetector req.Data d).2)
      | (none, s1) =>
        ({ Status := .ObjectOK, Url := rs.address ++ req.Name }, s1,
          (rs.contentDetector req.Data d).2) := by
  simp only [GRPCResource.Upload, if_neg h1, if_neg h2, if_neg h3, if_neg h4, if_neg h5]

end stages

/-! ## The checks in the spec's words and the guards of the source -/

section checks

variable (T : String → String) (name : String) (data : Bytes) (mt : String)

theorem fails_nameLength :
    Check.fails T name data mt .nameLength = true ↔ (len name > 256 ∨ len name < 1) := by
  simp only [Check.fails, decide_eq_true_eq]; omega

theorem fails_nameCharacters :
    Check.fails T name data mt .nameCharacters = true ↔
      strings.ContainsRune name '/' = true := by
  simp [Check.fails, strings.ContainsRune]

theorem fails_payloadNonEmpty :
    Check.fails T name data mt .payloadNonEmpty = true ↔ data.length < 1 := by
  cases data <;> simp [Check.fails]

theorem fails_contentAccepted :
    Check.fails T name data mt .contentAccepted = true ↔
      (mt ≠ "image/jpeg" ∧ mt ≠ "image/png" ∧ mt ≠ "image/gif") := by
  simp [Check.fails]

theorem fails_extensionAgrees :
    Check.fails T name data mt .extensionAgrees = true ↔ mt ≠ T (filepath.Ext name) := by
  simp only [Check.fails, decide_eq_true_eq]
  exact ⟨fun h e => h e.symm, fun h e => h e.symm⟩

end checks

/-! ## `Upload` in terms of the first failing check -/

section pipeline

variable {σ δ : Type} (T : String → String) (rs : GRPCResource σ δ)
  (req : UploadObjectRequest) (s : σ) (d : δ)

theorem firstFailing_cases (name : String) (data : Bytes) (mt : String) :
    (Check.fails T name data mt .nameLength = true ∧
        firstFailing T name data mt = some .nameLength) ∨
    (Check.fails T name data mt .nameLength = false ∧
        Check.fails T name data mt .nameCharacters = true ∧
        firstFailing T name data mt = some .nameCharacters) ∨
    (Check.fails T name data mt .nameLength = false ∧
        Check.fails T name data mt .nameCharacters = false ∧
        Check.fails T name data mt .payloadNonEmpty = true ∧
        firstFailing T name data mt = some .payloadNonEmpty) ∨
    (Check.fails T name data mt .nameLength = false ∧
        Check.fails T name data mt .nameCharacters = false ∧
        Check.fails T name data mt .payloadNonEmpty = false ∧
        Check.fails T name data mt .contentAccepted = true ∧
        firstFailing T name data mt = some .contentAccepted) ∨
    (Check.fails T name data mt .nameLength = false ∧
        Check.fails T name data mt .nameCharacters = false ∧
        Check.fails T name data mt .payloadNonEmpty = false ∧
        Check.fails T name data mt .contentAccepted = false ∧
        Check.fails T name data mt .extensionAgrees = true ∧
        firstFailing T name data mt = some .extensionAgrees) ∨
    (Check.fails T name data mt .nameLength = false ∧
        Check.fails T name data mt .nameCharacters = false ∧
        Check.fails T name data mt .payloadNonEmpty = false ∧
        Check.fails T name data mt .contentAccepted = false ∧
        Check.fails T name data mt .extensionAgrees = false ∧
        firstFailing T name data mt = none) := by
  unfold firstFailing Check.order
  cases h1 : Check.fails T name data mt .nameLength <;>
  cases h2 : Check.fails T name data mt .nameCharacters <;>
  cases h3 : Check.fails T name data mt .payloadNonEmpty <;>
  cases h4 : Check.fails T name data mt .contentAccepted <;>
  cases h5 : Check.fails T name data mt .extensionAgrees <;>
  simp [List.find?, h1, h2, h3, h4, h5]

theorem not_of_fails_false {b : Bool} {P : Prop} (e : b = true ↔ P) (h : b = false) : ¬ P :=
  fun hp => by rw [e.mpr hp] at h; cases h

theorem upload_of_firstFailing (c : Check)
    (h : firstFailing T req.Name req.Data (rs.contentDetector req.Data d).1 = some c) :
    rs.Upload T req s d =
      ({ Status := .ObjectERR,
         Error := c.reason req.Name (rs.contentDetector req.Data d).1 }, s,
        if c.usesDetector = true then (rs.contentDetector req.Data d).2 else d) := by
  have e1 := fails_nameLength T req.Name req.Data (rs.contentDetector req.Data d).1
  have e2 := fails_nameCharacters T req.Name req.Data (rs.contentDetector req.Data d).1
  have e3 := fails_payloadNonEmpty T req.Name req.Data (rs.contentDetector req.Data d).1
  have e4 := fails_contentAccepted T req.Name req.Data (rs.contentDetector req.Data d).1
  have e5 := fails_extensionAgrees T req.Name req.Data (rs.contentDetector req.Data d).1
  rcases firstFailing_cases T req.Name req.Data (rs.contentDetector req.Data d).1 with
    ⟨f1, hc⟩ | ⟨f1, f2, hc⟩ | ⟨f1, f2, f3, hc⟩ | ⟨f1, f2, f3, f4, hc⟩ |
    ⟨f1, f2, f3, f4, f5, hc⟩ | ⟨f1, f2, f3, f4, f5, hc⟩
  · obtain rfl : Check.nameLength = c := Option.some.inj (hc.symm.trans h)
    exact upload_of_length T rs req s d (e1.mp f1)
  · obtain rfl : Check.nameCharacters = c := Option.some.inj (hc.symm.trans h)
    exact upload_of_slash T rs req s d (not_of_fails_false e1 f1) (e2.mp f2)
  · obtain rfl : Check.payloadNonEmpty = c := Option.some.inj (hc.symm.trans h)
    exact upload_of_no_data T rs req s d (not_of_fails_false e1 f1)
      (not_of_fails_false e2 f2) (e3.mp f3)
  · obtain rfl : Check.contentAccepted = c := Option.some.inj (hc.symm.trans h)
    exact upload_of_unsupported T rs req s d (not_of_fails_false e1 f1)
      (not_of_fails_false e2 f2) (not_of_fails_false e3 f3) (e4.mp f4)
  · obtain rfl : Check.extensionAgrees = c := Option.some.inj (hc.symm.trans h)
    exact upload_of_mismatch T rs req s d (not_of_fails_false e1 f1)
      (not_of_fails_false e2 f2) (not_of_fails_false e3 f3) (not_of_fails_false e4 f4)
      (e5.mp f5)
  · rw [hc] at h; cases h

theorem upload_of_all_pass
    (h : ∀ c : Check, Check.fails T req.Name req.Data (rs.contentDetector req.Data d).1 c = false) :
    rs.Upload T req s d =
      match rs.storage.WriteObject req.Name (bytes.NewReader req.Data) s with
      | (some err, s1) =>
        ({ Status := .ObjectERR, Error := err.Error }, s1, (rs.contentDetector req.Data d).2)
      | (none, s1) =>
        ({ Status := .ObjectOK, Url := rs.address ++ req.Name }, s1,
          (rs.contentDetector req.Data d).2) :=
  upload_of_valid T rs req s d
    (not_of_fails_false (fails_nameLength T _ _ _) (h .nameLength))
    (not_of_fails_false (fails_nameCharacters T _ _ _) (h .nameCharacters))
    (not_of_fails_false (fails_payloadNonEmpty T _ _ _) (h .payloadNonEmpty))
    (not_of_fails_false (fails_contentAccepted T _ _ _) (h .contentAccepted))
    (not_of_fails_false (fails_extensionAgrees T _ _ _) (h .extensionAgrees))

theorem firstFailing_of_fails (name : String) (data : Bytes) (mt : String) (c : Check)
    (h : Check.fails T name data mt c = true) :
    ∃ c0, firstFailing T name data mt = some c0 := by
  rcases firstFailing_cases T name data mt with
    ⟨_, hc⟩ | ⟨_, _, hc⟩ | ⟨_, _, _, hc⟩ | ⟨_, _, _, _, hc⟩ |
    ⟨_, _, _, _, _, hc⟩ | ⟨f1, f2, f3, f4, f5, _⟩
  · exact ⟨_, hc⟩
  · exact ⟨_, hc⟩
  · exact ⟨_, hc⟩
  · exact ⟨_, hc⟩
  · exact ⟨_, hc⟩
  · cases c <;> simp_all

end pipeline

/-! ## The gateway's contract -/

section contract

variable {σ δ : Type} (T : String → String) (rs : GRPCResource σ δ)
  (req : UploadObjectRequest) (s : σ) (d : δ)

/-- C1: when `c` is the first check, in the order name length, name characters,
payload non-empty, content accepted, extension agreement, that fails for a
request, `Upload` answers `ObjectERR` with the reason of `c`; the storage is
left as it was, and the content detector has been called only when `c` is one
of the two checks that look at the sniffed type. -/
theorem upload_reports_first_failing_check (c : Check)
    (h : firstFailing T req.Name req.Data (rs.contentDetector req.Data d).1 = some c) :
    rs.Upload T req s d =
      ({ Status := .ObjectERR, Url := "",
         Error := c.reason req.Name (rs.contentDetector req.Data d).1 }, s,
        if c.usesDetector = true then (rs.contentDetector req.Data d).2 else d) :=
  upload_of_firstFailing T rs req s d c h

/-- C2: when any of the five checks fails for a request, the storage state
after `Upload` is the state before it for every storage backend (so
`WriteObject` has not run), the status is `ObjectERR` and the URL is empty. -/
theorem upload_rejection_leaves_storage (c : Check)
    (h : Check.fails T req.Name req.Data (rs.contentDetector req.Data d).1 c = true) :
    (rs.Upload T req s d).2.1 = s ∧
      (rs.Upload T req s d).1.Status = .ObjectERR ∧
      (rs.Upload T req s d).1.Url = "" := by
  obtain ⟨c0, h0⟩ := firstFailing_of_fails T req.Name req.Data _ c h
  rw [upload_of_firstFailing T rs req s d c0 h0]
  exact ⟨rfl, rfl, rfl⟩

/-- C3: when all five checks pass and the storage's `WriteObject`, called with
the request's name and a reader over the request's data, returns `nil`,
`Upload` answers `ObjectOK` with an empty error and the URL `address ++ name`;
the reader handed to the storage yields exactly the request's data. -/
theorem upload_success (s1 : σ)
    (h : ∀ c : Check,
      Check.fails T req.Name req.Data (rs.contentDetector req.Data d).1 c = false)
    (hw : rs.storage.WriteObject req.Name (bytes.NewReader req.Data) s = (none, s1)) :
    rs.Upload T req s d =
        ({ Status := .ObjectOK, Url := rs.address ++ req.Name, Error := "" }, s1,
          (rs.contentDetector req.Data d).2) ∧
      io.ReadAll (bytes.NewReader req.Data) = (req.Data, none) := by
  refine ⟨?_, rfl⟩
  rw [upload_of_all_pass T rs req s d h, hw]

end contract

/-- The name of 300 slashes fails the length check and the character check and
gets the length reason; `../../cat.jpg` with no payload fails the character
check and the payload check and gets the invalid-characters reason; `cat.jpg`
with no payload gets the no-data reason and the detector's call count stays
0. -/
theorem upload_reports_first_failing_check_witness :
    (firstFailing sampleTypeByExtension (String.mk (List.replicate 300 '/')) [1] "image/jpeg" =
        some .nameLength ∧
      Check.fails sampleTypeByExtension (String.mk (List.replicate 300 '/')) [1] "image/jpeg"
        .nameCharacters = true ∧
      sampleResource.Upload sampleTypeByExtension
          ⟨String.mk (List.replicate 300 '/'), [1]⟩ [] 0 =
        (rejection "image name should be between 1 and 256 characters", [], 0)) ∧
    (firstFailing sampleTypeByExtension "../../cat.jpg" [] "image/jpeg" =
        some .nameCharacters ∧
      Check.fails sampleTypeByExtension "../../cat.jpg" [] "image/jpeg" .payloadNonEmpty = true ∧
      sampleResource.Upload sampleTypeByExtension ⟨"../../cat.jpg", []⟩ [] 0 =
        (rejection "image name contains invalid characters", [], 0)) ∧
    (firstFailing sampleTypeByExtension "cat.jpg" [] "image/jpeg" = some .payloadNonEmpty ∧
      sampleResource.Upload sampleTypeByExtension ⟨"cat.jpg", []⟩ [] 0 =
        (rejection "image upload contains no valid data", [], 0)) :=
  ⟨⟨by decide, by decide,
      upload_reports_first_failing_check sampleTypeByExtension sampleResource
        ⟨String.mk (List.replicate 300 '/'), [1]⟩ [] 0 .nameLength (by decide)⟩,
    ⟨by decide, by decide,
      upload_reports_first_failing_check sampleTypeByExtension sampleResource
        ⟨"../../cat.jpg", []⟩ [] 0 .nameCharacters (by decide)⟩,
    ⟨by decide,
      upload_reports_first_failing_check sampleTypeByExtension sampleResource
        ⟨"cat.jpg", []⟩ [] 0 .payloadNonEmpty (by decide)⟩⟩

/-- The request `cat.png` with a payload sniffed as `image/jpeg` fails the
extension check: the log of storage calls stays empty. -/
theorem upload_rejection_leaves_storage_witness :
    Check.fails sampleTypeByExtension "cat.png" [255, 216, 255] "image/jpeg"
        .extensionAgrees = true ∧
      (sampleResource.Upload sampleTypeByExtension ⟨"cat.png", [255, 216, 255]⟩ [] 0).2.1 = [] ∧
      (sampleResource.Upload sampleTypeByExtension ⟨"cat.png", [255, 216, 255]⟩ [] 0).1.Status =
        .ObjectERR ∧
      (sampleResource.Upload sampleTypeByExtension ⟨"cat.png", [255, 216, 255]⟩ [] 0).1.Url = "" :=
  ⟨by decide, upload_rejection_leaves_storage sampleTypeByExtension sampleResource
    ⟨"cat.png", [255, 216, 255]⟩ [] 0 .extensionAgrees (by decide)⟩

/-- The request `cat.jpg` of the tests: the URL is
`http://127.0.0.1:8080/cat.jpg` and the storage's log holds the name with
the request's bytes. -/
theorem upload_success_witness :
    sampleResource.Upload sampleTypeByExtension ⟨"cat.jpg", [255, 216, 255]⟩ [] 0 =
        ({ Status := .ObjectOK, Url := "http://127.0.0.1:8080/cat.jpg", Error := "" },
          [("cat.jpg", [255, 216, 255])], 1) ∧
      io.ReadAll (bytes.NewReader [255, 216, 255]) = ([255, 216, 255], none) :=
  upload_success sampleTypeByExtension sampleResource ⟨"cat.jpg", [255, 216, 255]⟩ [] 0
    [("cat.jpg", [255, 216, 255])] (fun c => by cases c <;> decide) (by decide)

end api

/-! ## The in-memory backend -/

namespace storage

theorem lookupEntry_cons_self (es : List (String × GoAny)) (id : String) (v : GoAny) :
    sync.lookupEntry ((id, v) :: es) id = some v := by
  simp [sync.lookupEntry]

theorem lookupEntry_cons_ne (es : List (String × GoAny)) (id k : String) (v : GoAny)
    (h : id ≠ k) : sync.lookupEntry ((id, v) :: es) k = sync.lookupEntry es k := by
  simp [sync.lookupEntry, h]

theorem writeObject_of_present (s : MemoryStore) (id : String) (r : io.Reader) (v : GoAny)
    (h : s.objects.Load id = some v) : s.WriteObject id r = (some .ErrFileExists, s) := by
  simp only [MemoryStore.WriteObject, h]

theorem writeObject_of_read_error (s : MemoryStore) (id : String) (r : io.Reader)
    (e : GoError) (h : s.objects.Load id = none) (hr : r.err = some e) :
    s.WriteObject id r = (some (.wrap "failed to read bytes from request: " e), s) := by
  simp only [MemoryStore.WriteObject, h, io.ReadAll, hr]

theorem writeObject_of_absent (s : MemoryStore) (id : String) (r : io.Reader)
    (h : s.objects.Load id = none) (hr : r.err = none) :
    s.WriteObject id r = (none, ⟨⟨(id, .bytes r.data) :: s.objects.entries⟩⟩) := by
  simp only [MemoryStore.WriteObject, h, io.ReadAll, hr, sync.Map.LoadOrStore]

theorem writeObject_cases (s : MemoryStore) (id : String) (r : io.Reader) :
    (∃ e, s.WriteObject id r = (some e, s)) ∨
      (s.objects.Load id = none ∧
        s.WriteObject id r = (none, ⟨⟨(id, .bytes r.data) :: s.objects.entries⟩⟩)) := by
  cases h : s.objects.Load id with
  | some v => exact Or.inl ⟨_, writeObject_of_present s id r v h⟩
  | none =>
    cases hr : r.err with
    | some e => exact Or.inl ⟨_, writeObject_of_read_error s id r e h hr⟩
    | none => exact Or.inr ⟨rfl, writeObject_of_absent s id r h hr⟩

theorem writeObject_keeps (s : MemoryStore) (id : String) (r : io.Reader) (k : String)
    (v : GoAny) (h : s.objects.Load k = some v) :
    (s.WriteObject id r).2.objects.Load k = some v := by
  rcases writeObject_cases s id r with ⟨e, he⟩ | ⟨habs, hw⟩
  · rw [he]; exact h
  · rw [hw]
    have hne : id ≠ k := by
      rintro rfl
      rw [habs] at h; cases h
    show sync.lookupEntry ((id, .bytes r.data) :: s.objects.entries) k = some v
    rw [lookupEntry_cons_ne _ _ _ _ hne]; exact h

theorem call_keeps (s : MemoryStore) (c : Call) (k : String) (v : GoAny)
    (h : s.objects.Load k = some v) : (s.call c).2.objects.Load k = some v := by
  cases c with
  | write id r => exact writeObject_keeps s id r k v h
  | read id w => exact h

theorem run_keeps (cs : List Call) (s : MemoryStore) (k : String) (v : GoAny)
    (h : s.objects.Load k = some v) : (s.run cs).objects.Load k = some v := by
  induction cs generalizing s with
  | nil => exact h
  | cons c cs ih => exact ih (s.call c).2 (call_keeps s c k v h)

theorem run_append (cs ds : List Call) (s : MemoryStore) :
    s.run (cs ++ ds) = (s.run cs).run ds := by
  induction cs generalizing s with
  | nil => rfl
  | cons c cs ih => exact ih (s.call c).2

theorem successfulWrites_of_present (cs : List Call) (s : MemoryStore) (id : String)
    (v : GoAny) (h : s.objects.Load id = some v) : s.successfulWrites id cs = 0 := by
  induction cs generalizing s with
  | nil => rfl
  | cons c cs ih =>
    cases c with
    | write k r =>
      have hk := ih (s.WriteObject k r).2 (writeObject_keeps s k r id v h)
      simp only [MemoryStore.successfulWrites, hk, Nat.add_zero]
      by_cases e : k = id
      · subst e
        rw [writeObject_of_present s k r v h]
        simp
      · simp [e]
    | read k w =>
      exact ih (s.call (.read k w)).2 (call_keeps s (.read k w) id v h)

theorem successfulWrites_le_one (cs : List Call) (s : MemoryStore) (id : String) :
    s.successfulWrites id cs ≤ 1 := by
  induction cs generalizing s with
  | nil => exact Nat.zero_le 1
  | cons c cs ih =>
    cases c with
    | write k r =>
      simp only [MemoryStore.successfulWrites]
      by_cases e : k = id ∧ (s.WriteObject k r).1 = none
      · obtain ⟨rfl, hok⟩ := e
        rcases writeObject_cases s k r with ⟨e, he⟩ | ⟨_, hw⟩
        · rw [he] at hok; cases hok
        · have hp : (s.WriteObject k r).2.objects.Load k = some (.bytes r.data) := by
            rw [hw]; exact lookupEntry_cons_self _ _ _
          rw [successfulWrites_of_present cs _ k _ hp]
          simp [hok]
      · rw [if_neg e, Nat.zero_add]; exact ih _
    | read k w => exact ih _

theorem readObject_of_bytes (s : MemoryStore) (id : String) (w : io.Writer) (P : Bytes)
    (h : s.objects.Load id = some (.bytes P)) (hw : w.behave P = (P.length, none)) :
    s.ReadObject id w =
      (none, { w with written := w.written ++ P, calls := w.calls + 1 }) := by
  simp [MemoryStore.ReadObject, h, io.Writer.Write, hw]

theorem write_then_read (s : MemoryStore) (N : String) (P : Bytes) (r : io.Reader)
    (w : io.Writer) (habs : s.objects.Load N = none) (hr : io.ReadAll r = (P, none))
    (hw : w.behave P = (P.length, none)) :
    s.WriteObject N r = (none, ⟨⟨(N, .bytes P) :: s.objects.entries⟩⟩) ∧
      (s.WriteObject N r).2.ReadObject N w =
        (none, { w with written := w.written ++ P, calls := w.calls + 1 }) := by
  obtain ⟨data, err⟩ := r
  simp only [io.ReadAll, Prod.mk.injEq] at hr
  obtain ⟨rfl, rfl⟩ := hr
  have h1 := writeObject_of_absent s N ⟨data, none⟩ habs rfl
  refine ⟨h1, ?_⟩
  rw [h1]
  exact readObject_of_bytes _ N w data (lookupEntry_cons_self _ _ _) hw

/-- C4: on a `MemoryStore` in which the name `N` is absent, `WriteObject(N, r)`
with a reader that delivers `P` without failing returns `nil`, and a following
`ReadObject(N, w)` into a sink that takes all of `P` returns `nil` and adds
exactly the bytes `P` to what the sink holds. -/
theorem memory_round_trip (s : MemoryStore) (N : String) (P : Bytes) (r : io.Reader)
    (w : io.Writer) (habs : s.objects.Load N = none) (hr : io.ReadAll r = (P, none))
    (hw : w.behave P = (P.length, none)) :
    (s.WriteObject N r).1 = none ∧
      ((s.WriteObject N r).2.ReadObject N w).1 = none ∧
      ((s.WriteObject N r).2.ReadObject N w).2.written = w.written ++ P := by
  obtain ⟨h1, h2⟩ := write_then_read s N P r w habs hr hw
  rw [h2, h1]
  exact ⟨rfl, rfl, rfl⟩

/-- The test `TestMemoryStorageWriteFile` followed by a read: `meow` written
under `cat.jpg` in a new store is read back into an empty buffer. -/
theorem memory_round_trip_witness :
    NewMemoryStore.objects.Load "cat.jpg" = none ∧
      (NewMemoryStore.WriteObject "cat.jpg" (bytes.NewReader [109, 101, 111, 119])).1 = none ∧
      (((NewMemoryStore.WriteObject "cat.jpg" (bytes.NewReader [109, 101, 111, 119])).2.ReadObject
        "cat.jpg" bytes.Buffer).1 = none) ∧
      ((NewMemoryStore.WriteObject "cat.jpg" (bytes.NewReader [109, 101, 111, 119])).2.ReadObject
        "cat.jpg" bytes.Buffer).2.written = [] ++ [109, 101, 111, 119] :=
  ⟨rfl, memory_round_trip NewMemoryStore "cat.jpg" [109, 101, 111, 119]
    (bytes.NewReader [109, 101, 111, 119]) bytes.Buffer rfl rfl rfl⟩

/-- C5: on a `MemoryStore` in which `N` is absent, a first `WriteObject(N)`
delivering `P1` returns `nil`, a second `WriteObject(N)` with any reader returns
`ErrFileExists`, and a read of `N` after both yields exactly `P1`; an upload of
`N` that passes the five checks, made through a gateway in front of the store
after the first write, is answered `ObjectERR` with the message of
`ErrFileExists` and an empty URL, and leaves the store as it was. -/
theorem memory_second_write_collides (s : MemoryStore) (N : String) (P1 : Bytes)
    (r1 r2 : io.Reader) (w : io.Writer) (habs : s.objects.Load N = none)
    (hr : io.ReadAll r1 = (P1, none)) (hw : w.behave P1 = (P1.length, none)) :
    (s.WriteObject N r1).1 = none ∧
      ((s.WriteObject N r1).2.WriteObject N r2).1 = some .ErrFileExists ∧
      (((s.WriteObject N r1).2.WriteObject N r2).2.ReadObject N w).1 = none ∧
      (((s.WriteObject N r1).2.WriteObject N r2).2.ReadObject N w).2.written =
        w.written ++ P1 ∧
      ∀ (δ : Type) (T : String → String) (rs : api.GRPCResource MemoryStore δ)
        (req : catly.UploadObjectRequest) (d : δ),
        rs.storage = api.memoryStorage → req.Name = N →
        (∀ c : api.Check,
          api.Check.fails T req.Name req.Data (rs.contentDetector req.Data d).1 c = false) →
        (rs.Upload T req (s.WriteObject N r1).2 d).1 =
            { Status := .ObjectERR, Url := "", Error := GoError.ErrFileExists.Error } ∧
          (rs.Upload T req (s.WriteObject N r1).2 d).2.1 = (s.WriteObject N r1).2 := by
  obtain ⟨h1, h2⟩ := write_then_read s N P1 r1 w habs hr hw
  have hp : (s.WriteObject N r1).2.objects.Load N = some (.bytes P1) := by
    rw [h1]; exact lookupEntry_cons_self _ _ _
  have h3 := writeObject_of_present (s.WriteObject N r1).2 N r2 _ hp
  refine ⟨by rw [h1], by rw [h3], by rw [h3, h2], by rw [h3, h2], ?_⟩
  intro δ T rs req d hst hn hpass
  subst hn
  have h4 := writeObject_of_present (s.WriteObject req.Name r1).2 req.Name
    (bytes.NewReader req.Data) _ hp
  have h5 : rs.storage.WriteObject req.Name (bytes.NewReader req.Data)
      (s.WriteObject req.Name r1).2 = (some .ErrFileExists, (s.WriteObject req.Name r1).2) := by
    rw [hst]; exact h4
  rw [api.upload_of_all_pass T rs req _ d hpass, h5]
  exact ⟨rfl, rfl⟩

/-- The test `TestObjectUploadNameConflict`: `cat.jpg` is written with a first
payload, then uploaded through the gateway with a second one. -/
theorem memory_second_write_collides_witness :
    (NewMemoryStore.WriteObject "cat.jpg" (bytes.NewReader [1, 2, 3])).1 = none ∧
      (((NewMemoryStore.WriteObject "cat.jpg" (bytes.NewReader [1, 2, 3])).2.WriteObject
        "cat.jpg" (bytes.NewReader [4, 5])).1 = some .ErrFileExists) ∧
      ((((NewMemoryStore.WriteObject "cat.jpg" (bytes.NewReader [1, 2, 3])).2.WriteObject
        "cat.jpg" (bytes.NewReader [4, 5])).2.ReadObject "cat.jpg" bytes.Buffer).2.written =
          [1, 2, 3]) ∧
      (api.memoryResource.Upload api.sampleTypeByExtension ⟨"cat.jpg", [4, 5]⟩
        (NewMemoryStore.WriteObject "cat.jpg" (bytes.NewReader [1, 2, 3])).2 0).1 =
          { Status := .ObjectERR, Url := "",
            Error := "the file you have uploaded must have a unique name" } :=
  have h := memory_second_write_collides NewMemoryStore "cat.jpg" [1, 2, 3]
    (bytes.NewReader [1, 2, 3]) (bytes.NewReader [4, 5]) bytes.Buffer rfl rfl rfl
  ⟨h.1, h.2.1, h.2.2.2.1,
    (h.2.2.2.2 Nat api.sampleTypeByExtension api.memoryResource ⟨"cat.jpg", [4, 5]⟩ 0 rfl rfl
      (fun c => by cases c <;> decide)).1⟩

/-- C6: for every `MemoryStore` (the empty one included) and every finite
sequence of `WriteObject` and `ReadObject` calls: a payload `P` that a name has
after some calls is the payload it has after any further calls; at most one
`WriteObject` call for a name returns `nil`; `ReadObject` and every
`WriteObject` that returns an error leave the store's map as it was. -/
theorem memory_objects_immutable (s : MemoryStore) :
    (∀ (cs ds : List Call) (id : String) (P : Bytes),
        (s.run cs).objects.Load id = some (.bytes P) →
        (s.run (cs ++ ds)).objects.Load id = some (.bytes P)) ∧
      (∀ (cs : List Call) (id : String), s.successfulWrites id cs ≤ 1) ∧
      (∀ (id : String) (w : io.Writer), (s.call (.read id w)).2 = s) ∧
      (∀ (id : String) (r : io.Reader) (e : GoError),
        (s.WriteObject id r).1 = some e → (s.WriteObject id r).2 = s) := by
  refine ⟨?_, ?_, ?_, ?_⟩
  · intro cs ds id P h
    rw [run_append]
    exact run_keeps ds _ id _ h
  · intro cs id
    exact successfulWrites_le_one cs s id
  · intro id w
    rfl
  · intro id r e h
    rcases writeObject_cases s id r with ⟨e0, he⟩ | ⟨_, hw⟩
    · rw [he]
    · rw [hw] at h; cases h

/-- From the empty store: after `cat.jpg` is written with a first payload, a
write of a second payload and a read do not change what the name holds, and
of the two writes one returned `nil`. -/
theorem memory_objects_immutable_witness :
    (NewMemoryStore.run [.write "cat.jpg" (bytes.NewReader [1, 2, 3])]).objects.Load "cat.jpg" =
        some (.bytes [1, 2, 3]) ∧
      (NewMemoryStore.run ([.write "cat.jpg" (bytes.NewReader [1, 2, 3])] ++
        [.write "cat.jpg" (bytes.NewReader [4, 5]), .read "cat.jpg" bytes.Buffer])).objects.Load
          "cat.jpg" = some (.bytes [1, 2, 3]) ∧
      NewMemoryStore.successfulWrites "cat.jpg"
        [.write "cat.jpg" (bytes.NewReader [1, 2, 3]),
          .write "cat.jpg" (bytes.NewReader [4, 5])] ≤ 1 :=
  ⟨rfl,
    (memory_objects_immutable NewMemoryStore).1 [.write "cat.jpg" (bytes.NewReader [1, 2, 3])]
      [.write "cat.jpg" (bytes.NewReader [4, 5]), .read "cat.jpg" bytes.Buffer] "cat.jpg"
      [1, 2, 3] rfl,
    (memory_objects_immutable NewMemoryStore).2.1 _ "cat.jpg"⟩

end storage

/-! ## The gateway's rejections, check by check -/

namespace api

open catly

theorem length_le_len (name : String) : name.length ≤ len name := by
  have go : ∀ cs : List Char, cs.length ≤ String.utf8ByteSize.go cs := by
    intro cs
    induction cs with
    | nil => simp [String.utf8ByteSize.go]
    | cons c cs ih =>
      simp only [String.utf8ByteSize.go, List.length_cons]
      have := Char.utf8Size_pos c
      omega
  cases name with
  | mk cs => exact go cs

theorem unsupported_ne_lengthReason (mt : String) :
    "uploaded image content of '" ++ mt ++ "' is not supported" ≠ lengthReason := by
  intro h
  have := congrArg String.data h
  simp [lengthReason] at this

theorem mismatch_ne_lengthReason (ext mt : String) :
    "uploaded image extension '" ++ ext ++ "' does not match it's content type of '" ++
      mt ++ "'" ≠ lengthReason := by
  intro h
  have := congrArg String.data h
  simp [lengthReason] at this

theorem reason_ne_lengthReason (name mt : String) (c : Check) (hc : c ≠ .nameLength) :
    c.reason name mt ≠ lengthReason := by
  cases c with
  | nameLength => exact absurd rfl hc
  | nameCharacters =>
    show "image name contains invalid characters" ≠ lengthReason
    decide
  | payloadNonEmpty =>
    show "image upload contains no valid data" ≠ lengthReason
    decide
  | contentAccepted => exact unsupported_ne_lengthReason mt
  | extensionAgrees => exact mismatch_ne_lengthReason _ mt

section rejections

variable {σ δ : Type} (T : String → String) (rs : GRPCResource σ δ)
  (req : UploadObjectRequest) (s : σ) (d : δ)

/-- C7: a request whose name has `len` 0 or more than 256 (in particular a
name of more than 256 characters) is answered `ObjectERR` with the error
`image name should be between 1 and 256 characters`, for every payload,
detector and storage, which are left untouched; for a name whose `len` is in
1..256 (so also 1 and 256) the response carries that error text only if the
storage itself was reached and failed with an error of that very text. -/
theorem upload_name_length_bounds :
    ((len req.Name = 0 ∨ len req.Name > 256 ∨ req.Name.length > 256) →
        rs.Upload T req s d =
          ({ Status := .ObjectERR, Url := "",
             Error := "image name should be between 1 and 256 characters" }, s, d)) ∧
      ((1 ≤ len req.Name ∧ len req.Name ≤ 256) →
        (∀ e, (rs.storage.WriteObject req.Name (bytes.NewReader req.Data) s).1 = some e →
          e.Error ≠ "image name should be between 1 and 256 characters") →
        (rs.Upload T req s d).1.Error ≠
          "image name should be between 1 and 256 characters") := by
  constructor
  · intro h
    apply upload_of_length
    have := length_le_len req.Name
    omega
  · intro hlen hst
    have hnf : Check.fails T req.Name req.Data (rs.contentDetector req.Data d).1
        .nameLength = false := by
      simp only [Check.fails, decide_eq_false_iff_not, not_not]; exact hlen
    rcases firstFailing_cases T req.Name req.Data (rs.contentDetector req.Data d).1 with
      ⟨f1, _⟩ | ⟨_, _, hc⟩ | ⟨_, _, _, hc⟩ | ⟨_, _, _, _, hc⟩ |
      ⟨_, _, _, _, _, hc⟩ | ⟨f1, f2, f3, f4, f5, _⟩
    · rw [hnf] at f1; cases f1
    · rw [upload_of_firstFailing T rs req s d _ hc]
      exact reason_ne_lengthReason req.Name (rs.contentDetector req.Data d).1 .nameCharacters
        (by decide)
    · rw [upload_of_firstFailing T rs req s d _ hc]
      exact reason_ne_lengthReason req.Name (rs.contentDetector req.Data d).1 .payloadNonEmpty
        (by decide)
    · rw [upload_of_firstFailing T rs req s d _ hc]
      exact reason_ne_lengthReason req.Name (rs.contentDetector req.Data d).1 .contentAccepted
        (by decide)
    · rw [upload_of_firstFailing T rs req s d _ hc]
      exact reason_ne_lengthReason req.Name (rs.contentDetector req.Data d).1 .extensionAgrees
        (by decide)
    · have hall : ∀ c : Check,
          Check.fails T req.Name req.Data (rs.contentDetector req.Data d).1 c = false := by
        intro c; cases c <;> assumption
      rw [upload_of_all_pass T rs req s d hall]
      rcases hw : rs.storage.WriteObject req.Name (bytes.NewReader req.Data) s with
        ⟨_ | e, s1⟩
      · show ("" : String) ≠ _
        decide
      · exact hst e (by rw [hw])

/-- C9: a request whose name has `len` in 1..256 and contains `'/'` is
answered `ObjectERR` with the error `image name contains invalid characters`;
the storage state and the detector state are those before the call, so
`WriteObject` has not run. -/
theorem upload_rejects_path_separator (h1 : 1 ≤ len req.Name ∧ len req.Name ≤ 256)
    (h2 : '/' ∈ req.Name.data) :
    rs.Upload T req s d =
      ({ Status := .ObjectERR, Url := "",
         Error := "image name contains invalid characters" }, s, d) := by
  apply upload_of_slash
  · omega
  · simpa [strings.ContainsRune] using h2

/-- C10: a request with a name of `len` in 1..256 without `'/'`, a non-empty
payload and a detector result `mt` outside `image/jpeg`, `image/png`,
`image/gif` is answered `ObjectERR` with the error
`uploaded image content of '<mt>' is not supported`, for every name extension
and every extension table; the storage state is unchanged. -/
theorem upload_rejects_unsupported_content (h1 : 1 ≤ len req.Name ∧ len req.Name ≤ 256)
    (h2 : '/' ∉ req.Name.data) (h3 : req.Data ≠ [])
    (h4 : (rs.contentDetector req.Data d).1 ∉ ["image/jpeg", "image/png", "image/gif"]) :
    rs.Upload T req s d =
      ({ Status := .ObjectERR, Url := "",
         Error := "uploaded image content of '" ++ (rs.contentDetector req.Data d).1 ++
           "' is not supported" }, s, (rs.contentDetector req.Data d).2) := by
  apply upload_of_unsupported
  · omega
  · simpa [strings.ContainsRune] using h2
  · cases hd : req.Data with
    | nil => exact absurd hd h3
    | cons b bs => simp
  · simpa using h4

end rejections

/-- The empty name and a name of 257 bytes get the length reason; the
one-byte name `a` and a 256-byte name ending in `.jpg` do not. -/
theorem upload_name_length_bounds_witness :
    sampleResource.Upload sampleTypeByExtension ⟨"", [1]⟩ [] 0 =
        (rejection "image name should be between 1 and 256 characters", [], 0) ∧
      sampleResource.Upload sampleTypeByExtension
          ⟨String.mk (List.replicate 257 'a'), [1]⟩ [] 0 =
        (rejection "image name should be between 1 and 256 characters", [], 0) ∧
      (len "a" = 1 ∧
        (sampleResource.Upload sampleTypeByExtension ⟨"a", [1]⟩ [] 0).1.Error ≠
          "image name should be between 1 and 256 characters") ∧
      (len name256 = 256 ∧
        (sampleResource.Upload sampleTypeByExtension ⟨name256, [1]⟩ [] 0).1.Error ≠
          "image name should be between 1 and 256 characters") :=
  ⟨(upload_name_length_bounds sampleTypeByExtension sampleResource ⟨"", [1]⟩ [] 0).1
      (Or.inl (by decide)),
    (upload_name_length_bounds sampleTypeByExtension sampleResource
      ⟨String.mk (List.replicate 257 'a'), [1]⟩ [] 0).1 (Or.inr (Or.inl (by decide))),
    ⟨by decide,
      (upload_name_length_bounds sampleTypeByExtension sampleResource ⟨"a", [1]⟩ [] 0).2
        (by decide) (fun e h => by cases h)⟩,
    ⟨by decide,
      (upload_name_length_bounds sampleTypeByExtension sampleResource ⟨name256, [1]⟩ [] 0).2
        (by decide) (fun e h => by cases h)⟩⟩

/-- C8: the name `multibyteName` has 104 characters, none of them `'/'`, and
ends in `.jpg`, yet `Upload` rejects it with the length reason, because
`len` counts its 304 bytes. -/
theorem upload_length_counts_bytes :
    multibyteName.length = 104 ∧ '/' ∉ multibyteName.data ∧ len multibyteName = 304 ∧
      sampleResource.Upload sampleTypeByExtension ⟨multibyteName, [255, 216, 255]⟩ [] 0 =
        ({ Status := .ObjectERR, Url := "",
           Error := "image name should be between 1 and 256 characters" }, [], 0) := by
  refine ⟨by decide, by decide, by decide, ?_⟩
  exact upload_of_length _ _ _ _ _ (Or.inl (by decide))

/-- The test `TestObjectUploadNameInvalidCharacter`: `../../cat.jpg` is
rejected and the log of storage calls stays empty. -/
theorem upload_rejects_path_separator_witness :
    (1 ≤ len "../../cat.jpg" ∧ len "../../cat.jpg" ≤ 256) ∧ '/' ∈ "../../cat.jpg".data ∧
      sampleResource.Upload sampleTypeByExtension ⟨"../../cat.jpg", [255, 216, 255]⟩ [] 0 =
        ({ Status := .ObjectERR, Url := "",
           Error := "image name contains invalid characters" }, [], 0) :=
  ⟨by decide, by decide,
    upload_rejects_path_separator sampleTypeByExtension sampleResource
      ⟨"../../cat.jpg", [255, 216, 255]⟩ [] 0 (by decide) (by decide)⟩

/-- The test `TestObjectUploadUnsupportedContent`: `cat.jpg` with a payload
sniffed as `application/octet-stream`. -/
theorem upload_rejects_unsupported_content_witness :
    octetResource.Upload sampleTypeByExtension ⟨"cat.jpg", [0, 1, 2]⟩ [] 0 =
      ({ Status := .ObjectERR, Url := "",
         Error := "uploaded image content of 'application/octet-stream' is not supported" },
        [], 1) :=
  upload_rejects_unsupported_content sampleTypeByExtension octetResource
    ⟨"cat.jpg", [0, 1, 2]⟩ [] 0 (by decide) (by decide) (by decide) (by decide)

end api

/-! ## Extension agreement -/

namespace api

open catly

/-- C11: for a request with a name of `len` in 1..256 without `'/'`, a
non-empty payload and a detector result `mt` among `image/jpeg`, `image/png`,
`image/gif`: when the type the extension table gives for the name's extension
(the empty string for a missing or unknown extension) differs from `mt`,
`Upload` answers `ObjectERR` with the error
`uploaded image extension '<ext>' does not match it's content type of '<mt>'`
and leaves the storage as it was; when it equals `mt`, the outcome is that of
the storage's `WriteObject` called with the name and the data. -/
theorem upload_extension_agreement {σ δ : Type} (T : String → String)
    (rs : GRPCResource σ δ) (req : UploadObjectRequest) (s : σ) (d : δ)
    (h1 : 1 ≤ len req.Name ∧ len req.Name ≤ 256) (h2 : '/' ∉ req.Name.data)
    (h3 : req.Data ≠ [])
    (h4 : (rs.contentDetector req.Data d).1 ∈ ["image/jpeg", "image/png", "image/gif"]) :
    (T (filepath.Ext req.Name) ≠ (rs.contentDetector req.Data d).1 →
        rs.Upload T req s d =
          ({ Status := .ObjectERR, Url := "",
             Error := "uploaded image extension '" ++ filepath.Ext req.Name ++
               "' does not match it's content type of '" ++
               (rs.contentDetector req.Data d).1 ++ "'" }, s,
            (rs.contentDetector req.Data d).2)) ∧
      (T (filepath.Ext req.Name) = (rs.contentDetector req.Data d).1 →
        rs.Upload T req s d =
          match rs.storage.WriteObject req.Name (bytes.NewReader req.Data) s with
          | (some err, s1) =>
            ({ Status := .ObjectERR, Error := err.Error }, s1,
              (rs.contentDetector req.Data d).2)
          | (none, s1) =>
            ({ Status := .ObjectOK, Url := rs.address ++ req.Name }, s1,
              (rs.contentDetector req.Data d).2)) := by
  have g1 : ¬ (len req.Name > 256 ∨ len req.Name < 1) := by omega
  have g2 : ¬ strings.ContainsRune req.Name '/' = true := by
    simpa [strings.ContainsRune] using h2
  have g3 : ¬ req.Data.length < 1 := by
    cases hd : req.Data with
    | nil => exact absurd hd h3
    | cons b bs => simp
  have g4 : ¬ ((rs.contentDetector req.Data d).1 ≠ "image/jpeg" ∧
      (rs.contentDetector req.Data d).1 ≠ "image/png" ∧
      (rs.contentDetector req.Data d).1 ≠ "image/gif") := by
    simp only [List.mem_cons, List.mem_singleton, List.not_mem_nil, or_false] at h4
    rcases h4 with h | h | h <;> simp [h]
  constructor
  · intro h5
    exact upload_of_mismatch T rs req s d g1 g2 g3 g4 (fun e => h5 e.symm)
  · intro h5
    exact upload_of_valid T rs req s d g1 g2 g3 g4 (fun h => h h5.symm)

/-- The test `TestObjectUploadFileExtensionMismatch` (`cat.png` with a
payload sniffed as `image/jpeg`), and the name `cat` without an extension. -/
theorem upload_extension_agreement_witness :
    sampleResource.Upload sampleTypeByExtension ⟨"cat.png", [255, 216, 255]⟩ [] 0 =
        ({ Status := .ObjectERR, Url := "",
           Error := "uploaded image extension '.png' does not match it's content type of " ++
             "'image/jpeg'" }, [], 1) ∧
      sampleResource.Upload sampleTypeByExtension ⟨"cat", [255, 216, 255]⟩ [] 0 =
        ({ Status := .ObjectERR, Url := "",
           Error := "uploaded image extension '' does not match it's content type of " ++
             "'image/jpeg'" }, [], 1) ∧
      sampleResource.Upload sampleTypeByExtension ⟨"cat.jpg", [255, 216, 255]⟩ [] 0 =
        ({ Status := .ObjectOK, Url := "http://127.0.0.1:8080/cat.jpg", Error := "" },
          [("cat.jpg", [255, 216, 255])], 1) :=
  ⟨(upload_extension_agreement sampleTypeByExtension sampleResource
      ⟨"cat.png", [255, 216, 255]⟩ [] 0 (by decide) (by decide) (by decide) (by decide)).1
      (by decide),
    (upload_extension_agreement sampleTypeByExtension sampleResource
      ⟨"cat", [255, 216, 255]⟩ [] 0 (by decide) (by decide) (by decide) (by decide)).1
      (by decide),
    (upload_extension_agreement sampleTypeByExtension sampleResource
      ⟨"cat.jpg", [255, 216, 255]⟩ [] 0 (by decide) (by decide) (by decide) (by decide)).2
      (by decide)⟩

end api

/-! ## Reads of missing objects, failed writes and short sinks -/

namespace storage

theorem readObject_of_absent (s : MemoryStore) (id : String) (w : io.Writer)
    (h : s.objects.Load id = none) : s.ReadObject id w = (some .ErrFileDoesNotExist, w) := by
  simp only [MemoryStore.ReadObject, h]

theorem run_absent_of_no_success (cs : List Call) (s : MemoryStore) (id : String)
    (h : s.objects.Load id = none) (hc : s.successfulWrites id cs = 0) :
    (s.run cs).objects.Load id = none := by
  induction cs generalizing s with
  | nil => exact h
  | cons c cs ih =>
    cases c with
    | read k w => exact ih s h hc
    | write k r =>
      simp only [MemoryStore.successfulWrites] at hc
      have hrest : (s.WriteObject k r).2.successfulWrites id cs = 0 := by omega
      refine ih (s.WriteObject k r).2 ?_ hrest
      rcases writeObject_cases s k r with ⟨e, he⟩ | ⟨_, hw⟩
      · rw [he]; exact h
      · by_cases hk : k = id
        · have h1 : (s.WriteObject k r).1 = none := by rw [hw]
          rw [if_pos ⟨hk, h1⟩] at hc
          omega
        · rw [hw]
          show sync.lookupEntry ((k, .bytes r.data) :: s.objects.entries) id = none
          rw [lookupEntry_cons_ne _ _ _ _ hk]; exact h

theorem fileReadObject_of_missing (fs : FileStore) (disk : os.Disk) (id : String)
    (w : io.Writer) (h : disk.stat (filepath.Join fs.baseDir id) = none)
    (hd : disk.deny (filepath.Join fs.baseDir id) = none) :
    fs.ReadObject id w disk = (some .ErrFileDoesNotExist, w) := by
  simp [FileStore.ReadObject, os.OpenFile, h, hd, os.PathError.isNotExist]

/-- C12: in a `MemoryStore`, `ReadObject` of a name the map does not hold, in
particular of a name for which no `WriteObject` has returned `nil` since
`NewMemoryStore`, returns exactly `ErrFileDoesNotExist` and leaves the sink
untouched; so does `ReadObject` of a `FileStore` for a name whose joined path
`filepath.Join(baseDir, name)` names nothing in the file system and is not
refused by it. -/
theorem read_missing_object :
    (∀ (cs : List Call) (id : String) (w : io.Writer),
        NewMemoryStore.successfulWrites id cs = 0 →
        (NewMemoryStore.run cs).ReadObject id w = (some .ErrFileDoesNotExist, w)) ∧
      (∀ (s : MemoryStore) (id : String) (w : io.Writer),
        s.objects.Load id = none → s.ReadObject id w = (some .ErrFileDoesNotExist, w)) ∧
      (∀ (fs : FileStore) (disk : os.Disk) (id : String) (w : io.Writer),
        disk.stat (filepath.Join fs.baseDir id) = none →
        disk.deny (filepath.Join fs.baseDir id) = none →
        fs.ReadObject id w disk = (some .ErrFileDoesNotExist, w)) := by
  refine ⟨?_, ?_, ?_⟩
  · intro cs id w hc
    exact readObject_of_absent _ id w (run_absent_of_no_success cs NewMemoryStore id rfl hc)
  · intro s id w h
    exact readObject_of_absent s id w h
  · intro fs disk id w h hd
    exact fileReadObject_of_missing fs disk id w h hd

/-- The tests `TestMemoryStorageReadFileNotExist` and
`TestFileStorageReadFileNotExist`: `invisible-cat.jpg` in a new memory store
(also after another name was written) and in an empty directory. -/
theorem read_missing_object_witness :
    (NewMemoryStore.run [.write "cat.jpg" (bytes.NewReader [1, 2, 3])]).ReadObject
        "invisible-cat.jpg" bytes.Buffer = (some .ErrFileDoesNotExist, bytes.Buffer) ∧
      NewMemoryStore.ReadObject "invisible-cat.jpg" bytes.Buffer =
        (some .ErrFileDoesNotExist, bytes.Buffer) ∧
      sampleFileStore.ReadObject "invisible-cat.jpg" bytes.Buffer sampleDisk =
        (some .ErrFileDoesNotExist, bytes.Buffer) :=
  ⟨read_missing_object.1 [.write "cat.jpg" (bytes.NewReader [1, 2, 3])] "invisible-cat.jpg"
      bytes.Buffer (by decide),
    read_missing_object.2.1 NewMemoryStore "invisible-cat.jpg" bytes.Buffer rfl,
    read_missing_object.2.2 sampleFileStore sampleDisk "invisible-cat.jpg" bytes.Buffer
      (by decide) rfl⟩

/-- C12, as stated, fails for the file backend: in a file store over a
directory into which nothing was ever written, the name `.` is joined to the
base directory itself, which opens, and `ReadObject` returns the read error
of a directory, not `ErrFileDoesNotExist`. -/
theorem read_missing_object_counterexample :
    sampleDisk.nodes = [("/data", .dir)] ∧
      filepath.Join sampleFileStore.baseDir "." = "/data" ∧
      (sampleFileStore.ReadObject "." bytes.Buffer sampleDisk).1 =
        some (.other "read /data: is a directory") ∧
      (sampleFileStore.ReadObject "." bytes.Buffer sampleDisk).1 ≠
        some .ErrFileDoesNotExist := by
  refine ⟨rfl, by decide, by decide, by decide⟩

/-- C13: the file backend keeps what a failed write delivered.  A
`WriteObject` of `cat.jpg` whose reader fails after two bytes returns the
wrapped read error and leaves the file `/data/cat.jpg` with those two bytes;
a later `ReadObject` returns `nil` with the two bytes, and a later
`WriteObject` with a good reader is refused with `ErrFileExists`. -/
theorem file_write_leaves_truncated_object :
    sampleDisk.stat "/data/cat.jpg" = none ∧
      (sampleFileStore.WriteObject "cat.jpg" failingReader sampleDisk).1 =
        some (.wrap "file upload failed: " (.other "unexpected EOF")) ∧
      (sampleFileStore.WriteObject "cat.jpg" failingReader sampleDisk).2.stat "/data/cat.jpg" =
        some (.file [1, 2]) ∧
      (sampleFileStore.ReadObject "cat.jpg" bytes.Buffer
        (sampleFileStore.WriteObject "cat.jpg" failingReader sampleDisk).2).1 = none ∧
      (sampleFileStore.ReadObject "cat.jpg" bytes.Buffer
        (sampleFileStore.WriteObject "cat.jpg" failingReader sampleDisk).2).2.written = [1, 2] ∧
      (sampleFileStore.WriteObject "cat.jpg" (bytes.NewReader [1, 2, 3])
        (sampleFileStore.WriteObject "cat.jpg" failingReader sampleDisk).2).1 =
          some .ErrFileExists := by
  refine ⟨by decide, by decide, by decide, by decide, by decide, by decide⟩

/-- C14: a `WriteObject` on a `MemoryStore` with a reader whose read fails
with `e` returns an error and leaves the store exactly as it was; when the
name was absent, the error is `e` wrapped with
`failed to read bytes from request: `, the name is still absent, and a later
`ReadObject` returns `ErrFileDoesNotExist` without touching the sink. -/
theorem memory_write_atomic_on_failure (s : MemoryStore) (id : String) (r : io.Reader)
    (e : GoError) (w : io.Writer) (hr : (io.ReadAll r).2 = some e) :
    (∃ err, (s.WriteObject id r).1 = some err) ∧
      (s.WriteObject id r).2 = s ∧
      (s.objects.Load id = none →
        (s.WriteObject id r).1 = some (.wrap "failed to read bytes from request: " e) ∧
          errors.Is (.wrap "failed to read bytes from request: " e) e = true ∧
          (s.WriteObject id r).2.objects.Load id = none ∧
          (s.WriteObject id r).2.ReadObject id w = (some .ErrFileDoesNotExist, w)) := by
  have hr1 : r.err = some e := hr
  cases h : s.objects.Load id with
  | some v =>
    rw [writeObject_of_present s id r v h]
    exact ⟨⟨_, rfl⟩, rfl, fun h0 => by cases h0⟩
  | none =>
    rw [writeObject_of_read_error s id r e h hr1]
    refine ⟨⟨_, rfl⟩, rfl, fun _ => ⟨rfl, ?_, h, readObject_of_absent s id w h⟩⟩
    cases e <;> simp [errors.Is]

/-- A write of `cat.jpg` into a new store with a reader that fails after two
bytes. -/
theorem memory_write_atomic_on_failure_witness :
    (io.ReadAll failingReader).2 = some (.other "unexpected EOF") ∧
      (NewMemoryStore.WriteObject "cat.jpg" failingReader).1 =
        some (.wrap "failed to read bytes from request: " (.other "unexpected EOF")) ∧
      (NewMemoryStore.WriteObject "cat.jpg" failingReader).2 = NewMemoryStore ∧
      (NewMemoryStore.WriteObject "cat.jpg" failingReader).2.ReadObject "cat.jpg" bytes.Buffer =
        (some .ErrFileDoesNotExist, bytes.Buffer) :=
  have h := memory_write_atomic_on_failure NewMemoryStore "cat.jpg" failingReader
    (.other "unexpected EOF") bytes.Buffer rfl
  ⟨rfl, (h.2.2 rfl).1, h.2.1, (h.2.2 rfl).2.2.2⟩

/-- C15, amended: for an object `P` held by a `MemoryStore` and a sink that
reports a count below the length of `P`: when the sink reports no error,
`ReadObject` returns `ErrWriteIncomplete`; when the sink reports an error
`e`, `ReadObject` returns `e` wrapped with `failed to write file data: `,
which is not `ErrWriteIncomplete`. -/
theorem memory_read_short_sink (s : MemoryStore) (id : String) (P : Bytes) (w : io.Writer)
    (h : s.objects.Load id = some (.bytes P)) (hshort : (w.behave P).1 < P.length) :
    ((w.behave P).2 = none → (s.ReadObject id w).1 = some .ErrWriteIncomplete) ∧
      (∀ e, (w.behave P).2 = some e →
        (s.ReadObject id w).1 = some (.wrap "failed to write file data: " e) ∧
          (s.ReadObject id w).1 ≠ some .ErrWriteIncomplete) := by
  constructor
  · intro hn
    rcases hb : w.behave P with ⟨n, e⟩
    rw [hb] at hn hshort
    simp only at hn hshort
    subst hn
    simp [MemoryStore.ReadObject, h, io.Writer.Write, hb, hshort]
  · intro e he
    rcases hb : w.behave P with ⟨n, e0⟩
    rw [hb] at he
    simp only at he
    subst he
    simp [MemoryStore.ReadObject, h, io.Writer.Write, hb]

/-- The object `meow` read into a sink that takes two bytes: without an
error from the sink the result is `ErrWriteIncomplete`, with the error
`broken pipe` it is that error, wrapped. -/
theorem memory_read_short_sink_witness :
    catStore.objects.Load "cat.jpg" = some (.bytes [109, 101, 111, 119]) ∧
      (catStore.ReadObject "cat.jpg" shortSink).1 = some .ErrWriteIncomplete ∧
      (catStore.ReadObject "cat.jpg" brokenSink).1 =
        some (.wrap "failed to write file data: " (.other "broken pipe")) :=
  ⟨rfl,
    (memory_read_short_sink catStore "cat.jpg" [109, 101, 111, 119] shortSink rfl
      (by decide)).1 rfl,
    ((memory_read_short_sink catStore "cat.jpg" [109, 101, 111, 119] brokenSink rfl
      (by decide)).2 (.other "broken pipe") rfl).1⟩

/-- C15, as stated, fails: the store holds the four bytes `meow` under
`cat.jpg`, the sink takes two of them and reports the error `broken pipe`
alongside, and `ReadObject` returns the wrapped sink error instead of
`ErrWriteIncomplete`. -/
theorem memory_read_short_sink_counterexample :
    catStore.objects.Load "cat.jpg" = some (.bytes [109, 101, 111, 119]) ∧
      (brokenSink.behave [109, 101, 111, 119]).1 < [109, 101, 111, 119].length ∧
      (catStore.ReadObject "cat.jpg" brokenSink).2.written = [109, 101] ∧
      (catStore.ReadObject "cat.jpg" brokenSink).1 ≠ some .ErrWriteIncomplete := by
  refine ⟨rfl, by decide, by decide, by decide⟩

/-- C16: the file backend does not return `ErrWriteIncomplete`.  The file
`/data/cat.jpg` holds the four bytes `meow`; read into a sink that takes two
bytes of a write and reports no error, `FileStore.ReadObject` returns
`io.ErrShortWrite`, where `MemoryStore.ReadObject` with the same object and
sink returns `ErrWriteIncomplete`; read into a sink that takes two bytes and
reports `broken pipe`, it returns that error. -/
theorem file_read_short_sink :
    catDisk.stat "/data/cat.jpg" = some (.file [109, 101, 111, 119]) ∧
      (sampleFileStore.ReadObject "cat.jpg" shortSink catDisk).2.written = [109, 101] ∧
      (sampleFileStore.ReadObject "cat.jpg" shortSink catDisk).1 = some io.ErrShortWrite ∧
      (sampleFileStore.ReadObject "cat.jpg" shortSink catDisk).1 ≠ some .ErrWriteIncomplete ∧
      (catStore.ReadObject "cat.jpg" shortSink).1 = some .ErrWriteIncomplete ∧
      (sampleFileStore.ReadObject "cat.jpg" brokenSink catDisk).1 =
        some (.other "broken pipe") := by
  refine ⟨by decide, by decide, by decide, by decide, by decide, by decide⟩

end storage

/-! ## Storage errors in the upload response -/

namespace api

open catly

theorem upload_of_storage_error {σ δ : Type} (T : String → String) (rs : GRPCResource σ δ)
    (req : UploadObjectRequest) (s s1 : σ) (d : δ) (e : GoError)
    (h : ∀ c : Check,
      Check.fails T req.Name req.Data (rs.contentDetector req.Data d).1 c = false)
    (hw : rs.storage.WriteObject req.Name (bytes.NewReader req.Data) s = (some e, s1)) :
    (rs.Upload T req s d).1 = { Status := .ObjectERR, Url := "", Error := e.Error } := by
  rw [upload_of_all_pass T rs req s d h, hw]

/-- C17: the upload response carries the text of a storage failure.  On a
file system that refuses to open `/data/cat.jpg`, `FileStore.WriteObject`
returns the path error of `os.OpenFile`, which is not `ErrFileExists`, and
`Upload` puts its message, with the server's path, in the `Error` field; the
download handler, in front of the same store, answers 500 with the fixed body
`internal server error`. -/
theorem upload_exposes_storage_error :
    (storage.sampleFileStore.WriteObject "cat.jpg" (bytes.NewReader [255, 216, 255])
        storage.readOnlyDisk).1 = some (.other "open /data/cat.jpg: permission denied") ∧
      (fileResource.Upload sampleTypeByExtension ⟨"cat.jpg", [255, 216, 255]⟩
        storage.readOnlyDisk 0).1 =
          { Status := .ObjectERR, Url := "",
            Error := "open /data/cat.jpg: permission denied" } ∧
      (fileHandler.GetObject sampleTypeByExtension http.NewRecorder ⟨"GET", "/cat.jpg"⟩
        storage.readOnlyDisk).1.status = 500 ∧
      (fileHandler.GetObject sampleTypeByExtension http.NewRecorder ⟨"GET", "/cat.jpg"⟩
        storage.readOnlyDisk).1.body = stringBytes "internal server error" := by
  refine ⟨by decide, by decide, by decide, by decide⟩

end api

/-! ## The download handler -/

namespace api

theorem setHeader_sink (w : http.ResponseWriter) (k v : String) :
    (w.SetHeader k v).sink = w.sink := by
  unfold http.ResponseWriter.SetHeader
  split <;> rfl

theorem setHeader_code (w : http.ResponseWriter) (k v : String) :
    (w.SetHeader k v).code = w.code := by
  unfold http.ResponseWriter.SetHeader
  split <;> rfl

theorem code_after_reply (w : http.ResponseWriter) (c : Nat) (p : Bytes)
    (hw : w.code = none) : ((w.WriteHeader c).Write p).2.code = some c := by
  simp [http.ResponseWriter.WriteHeader, http.ResponseWriter.Write, hw]

theorem code_after_late_reply (w : http.ResponseWriter) (c c0 : Nat) (p : Bytes)
    (hw : w.code = some c0) : ((w.WriteHeader c).Write p).2.code = some c0 := by
  simp [http.ResponseWriter.WriteHeader, http.ResponseWriter.Write, hw]

theorem afterWrites_code_untouched (w : http.ResponseWriter) (out : io.Writer)
    (h : out.calls ≤ w.sink.calls) : (w.afterWrites out).code = w.code := by
  have h1 : ¬ w.sink.calls < out.calls := by omega
  simp [http.ResponseWriter.afterWrites, h1]

theorem afterWrites_code_written (w : http.ResponseWriter) (out : io.Writer)
    (hw : w.code = none) (h : w.sink.calls < out.calls) :
    (w.afterWrites out).code = some http.StatusOK := by
  simp [http.ResponseWriter.afterWrites, h, http.ResponseWriter.WriteHeader, hw]

section handler

variable {σ : Type} (T : String → String) (rs : HTTPResource σ) (w : http.ResponseWriter)
  (r : http.Request) (s : σ)

theorem getObject_of_bad_method (h : r.Method ≠ http.MethodGet) :
    rs.GetObject T w r s =
      (((w.WriteHeader http.StatusMethodNotAllowed).Write
        (stringBytes "method not allowed")).2, s) := by
  simp only [HTTPResource.GetObject, if_pos h]

theorem getObject_of_bad_name (h : ¬ r.Method ≠ http.MethodGet)
    (h2 : strings.ContainsRune (strings.TrimPrefix r.Path "/") '/' = true ∨
      len (strings.TrimPrefix r.Path "/") > 256) :
    rs.GetObject T w r s =
      (((w.WriteHeader http.StatusBadRequest).Write
        (stringBytes "bad request: image URL is invalid")).2, s) := by
  simp only [HTTPResource.GetObject, if_neg h, if_pos h2]

theorem getObject_of_read_error (h : ¬ r.Method ≠ http.MethodGet)
    (h2 : ¬ (strings.ContainsRune (strings.TrimPrefix r.Path "/") '/' = true ∨
      len (strings.TrimPrefix r.Path "/") > 256))
    (err : GoError) (out : io.Writer) (s1 : σ)
    (hread : rs.storage.ReadObject (strings.TrimPrefix r.Path "/") w.sink s =
      (some err, out, s1)) :
    rs.GetObject T w r s =
      if errors.Is err .ErrFileDoesNotExist = true then
        (((((w.SetHeader "Content-Type"
            (T (filepath.Ext (strings.TrimPrefix r.Path "/")))).afterWrites out).WriteHeader
          http.StatusNotFound).Write (stringBytes "image not found")).2, s1)
      else
        (((((w.SetHeader "Content-Type"
            (T (filepath.Ext (strings.TrimPrefix r.Path "/")))).afterWrites out).WriteHeader
          http.StatusInternalServerError).Write (stringBytes "internal server error")).2, s1) := by
  simp only [HTTPResource.GetObject, if_neg h, if_neg h2, setHeader_sink, hread]

theorem getObject_of_read_ok (h : ¬ r.Method ≠ http.MethodGet)
    (h2 : ¬ (strings.ContainsRune (strings.TrimPrefix r.Path "/") '/' = true ∨
      len (strings.TrimPrefix r.Path "/") > 256))
    (out : io.Writer) (s1 : σ)
    (hread : rs.storage.ReadObject (strings.TrimPrefix r.Path "/") w.sink s =
      (none, out, s1)) :
    rs.GetObject T w r s =
      ((w.SetHeader "Content-Type"
        (T (filepath.Ext (strings.TrimPrefix r.Path "/")))).afterWrites out, s1) := by
  simp only [HTTPResource.GetObject, if_neg h, if_neg h2, setHeader_sink, hread]

/-- C19, amended: on a response on which nothing was sent yet, `GetObject`
sends 405 for a method other than GET; otherwise 400 when the name (the URL
path without one leading `'/'`) contains `'/'` or has more than 256 bytes,
and in both cases the storage state is the one before the call, for every
backend; otherwise, when `ReadObject` returns an error without having called
`Write` on the response, 404 if the error is or wraps `ErrFileDoesNotExist`
and 500 for any other error; when `ReadObject` returns an error after it has
called `Write`, the status is the 200 that went out with that write. -/
theorem get_object_status (hw : w.code = none) :
    (r.Method ≠ http.MethodGet →
        (rs.GetObject T w r s).1.code = some 405 ∧ (rs.GetObject T w r s).2 = s) ∧
      (r.Method = http.MethodGet →
        (strings.ContainsRune (strings.TrimPrefix r.Path "/") '/' = true ∨
          len (strings.TrimPrefix r.Path "/") > 256) →
        (rs.GetObject T w r s).1.code = some 400 ∧ (rs.GetObject T w r s).2 = s) ∧
      (r.Method = http.MethodGet →
        ¬ (strings.ContainsRune (strings.TrimPrefix r.Path "/") '/' = true ∨
          len (strings.TrimPrefix r.Path "/") > 256) →
        ∀ (err : GoError) (out : io.Writer) (s1 : σ),
          rs.storage.ReadObject (strings.TrimPrefix r.Path "/") w.sink s =
            (some err, out, s1) →
          (out.calls ≤ w.sink.calls →
            (rs.GetObject T w r s).1.code =
              some (if errors.Is err .ErrFileDoesNotExist = true then 404 else 500)) ∧
          (w.sink.calls < out.calls → (rs.GetObject T w r s).1.code = some 200)) := by
  refine ⟨?_, ?_, ?_⟩
  · intro hm
    rw [getObject_of_bad_method T rs w r s hm]
    exact ⟨code_after_reply w _ _ hw, rfl⟩
  · intro hm hbad
    rw [getObject_of_bad_name T rs w r s (fun h => h hm) hbad]
    exact ⟨code_after_reply w _ _ hw, rfl⟩
  · intro hm hgood err out s1 hread
    rw [getObject_of_read_error T rs w r s (fun h => h hm) hgood err out s1 hread]
    constructor
    · intro hcalls
      have hc : ((w.SetHeader "Content-Type"
          (T (filepath.Ext (strings.TrimPrefix r.Path "/")))).afterWrites out).code = none := by
        rw [afterWrites_code_untouched _ out (by rw [setHeader_sink]; exact hcalls),
          setHeader_code, hw]
      by_cases he : errors.Is err .ErrFileDoesNotExist = true
      · rw [if_pos he, if_pos he]
        exact code_after_reply _ _ _ hc
      · rw [if_neg he, if_neg he]
        exact code_after_reply _ _ _ hc
    · intro hcalls
      have hc : ((w.SetHeader "Content-Type"
          (T (filepath.Ext (strings.TrimPrefix r.Path "/")))).afterWrites out).code =
            some http.StatusOK :=
        afterWrites_code_written _ out (by rw [setHeader_code, hw])
          (by rw [setHeader_sink]; exact hcalls)
      by_cases he : errors.Is err .ErrFileDoesNotExist = true
      · rw [if_pos he]
        exact code_after_late_reply _ _ _ _ hc
      · rw [if_neg he]
        exact code_after_late_reply _ _ _ _ hc

end handler

/-- The tests of the handler: `POST /cat.jpg` gets 405 and `GET /../../cat.jpg`
400, both without a call to the storage double; `GET /cat.jpg` on an empty
memory store gets 404; `GET /.` on a file store, where the read of the base
directory fails before anything is written, gets 500. -/
theorem get_object_status_witness :
    http.NewRecorder.code = none ∧
      ((NewHTTPResource recordingReadable).GetObject sampleTypeByExtension http.NewRecorder
          ⟨"POST", "/cat.jpg"⟩ []).1.code = some 405 ∧
      ((NewHTTPResource recordingReadable).GetObject sampleTypeByExtension http.NewRecorder
          ⟨"POST", "/cat.jpg"⟩ []).2 = [] ∧
      ((NewHTTPResource recordingReadable).GetObject sampleTypeByExtension http.NewRecorder
          ⟨"GET", "/../../cat.jpg"⟩ []).1.code = some 400 ∧
      ((NewHTTPResource recordingReadable).GetObject sampleTypeByExtension http.NewRecorder
          ⟨"GET", "/../../cat.jpg"⟩ []).2 = [] ∧
      (memoryHandler.GetObject sampleTypeByExtension http.NewRecorder ⟨"GET", "/cat.jpg"⟩
          storage.NewMemoryStore).1.code = some 404 ∧
      (fileHandler.GetObject sampleTypeByExtension http.NewRecorder ⟨"GET", "/."⟩
          storage.sampleDisk).1.code = some 500 :=
  ⟨rfl,
    ((get_object_status sampleTypeByExtension (NewHTTPResource recordingReadable)
      http.NewRecorder ⟨"POST", "/cat.jpg"⟩ [] rfl).1 (by decide)).1,
    ((get_object_status sampleTypeByExtension (NewHTTPResource recordingReadable)
      http.NewRecorder ⟨"POST", "/cat.jpg"⟩ [] rfl).1 (by decide)).2,
    ((get_object_status sampleTypeByExtension (NewHTTPResource recordingReadable)
      http.NewRecorder ⟨"GET", "/../../cat.jpg"⟩ [] rfl).2.1 rfl (Or.inl (by decide))).1,
    ((get_object_status sampleTypeByExtension (NewHTTPResource recordingReadable)
      http.NewRecorder ⟨"GET", "/../../cat.jpg"⟩ [] rfl).2.1 rfl (Or.inl (by decide))).2,
    ((get_object_status sampleTypeByExtension memoryHandler http.NewRecorder
      ⟨"GET", "/cat.jpg"⟩ storage.NewMemoryStore rfl).2.2 rfl (by decide)
      .ErrFileDoesNotExist bytes.Buffer storage.NewMemoryStore rfl).1 (by decide),
    ((get_object_status sampleTypeByExtension fileHandler http.NewRecorder
      ⟨"GET", "/."⟩ storage.sampleDisk rfl).2.2 rfl (by decide)
      (.other "read /data: is a directory") bytes.Buffer storage.sampleDisk
      rfl).1 (by decide)⟩

/-- C19, as stated, fails: the memory store holds `cat.jpg`, the connection
of the response takes no byte and reports `broken pipe`, so `ReadObject`
returns an error that is not `ErrFileDoesNotExist`; it called `Write` first,
the status 200 went out with that call, and the response of `GET /cat.jpg`
has status 200, not 500. -/
theorem get_object_status_counterexample :
    (storage.catStore.ReadObject "cat.jpg" brokenResponse.sink).1 =
        some (.wrap "failed to write file data: " (.other "broken pipe")) ∧
      errors.Is (.wrap "failed to write file data: " (.other "broken pipe"))
        .ErrFileDoesNotExist = false ∧
      (memoryHandler.GetObject sampleTypeByExtension brokenResponse ⟨"GET", "/cat.jpg"⟩
        storage.catStore).1.status = 200 ∧
      (memoryHandler.GetObject sampleTypeByExtension brokenResponse ⟨"GET", "/cat.jpg"⟩
        storage.catStore).1.status ≠ 500 := by
  refine ⟨by decide, by decide, by decide, by decide⟩

end api

namespace api

theorem trimPrefix_slash (N : String) : strings.TrimPrefix ("/" ++ N) "/" = N := by
  have h : ("/" ++ N).data = '/' :: N.data := by
    rw [String.data_append]; rfl
  simp [strings.TrimPrefix, h]

theorem getHeader_setHeader (w : http.ResponseWriter) (k v : String) (hw : w.code = none) :
    (w.SetHeader k v).GetHeader k = v := by
  simp [http.ResponseWriter.SetHeader, http.ResponseWriter.GetHeader, hw]

theorem getObject_of_served {σ : Type} (T : String → String) (rs : HTTPResource σ)
    (w : http.ResponseWriter) (N : String) (s s1 : σ) (out : io.Writer)
    (hslash : '/' ∉ N.data) (hlen : len N ≤ 256) (hw : w.code = none)
    (hread : rs.storage.ReadObject N w.sink s = (none, out, s1)) :
    (rs.GetObject T w ⟨"GET", "/" ++ N⟩ s).1.status = 200 ∧
      (rs.GetObject T w ⟨"GET", "/" ++ N⟩ s).1.body = out.written ∧
      (rs.GetObject T w ⟨"GET", "/" ++ N⟩ s).1.GetHeader "Content-Type" =
        T (filepath.Ext N) ∧
      (rs.GetObject T w ⟨"GET", "/" ++ N⟩ s).2 = s1 := by
  have hm : ¬ (⟨"GET", "/" ++ N⟩ : http.Request).Method ≠ http.MethodGet := fun h => h rfl
  have hgood : ¬ (strings.ContainsRune
      (strings.TrimPrefix (⟨"GET", "/" ++ N⟩ : http.Request).Path "/") '/' = true ∨
      len (strings.TrimPrefix (⟨"GET", "/" ++ N⟩ : http.Request).Path "/") > 256) := by
    show ¬ (strings.ContainsRune (strings.TrimPrefix ("/" ++ N) "/") '/' = true ∨
      len (strings.TrimPrefix ("/" ++ N) "/") > 256)
    rw [trimPrefix_slash]
    rintro (h | h)
    · exact hslash (by simpa [strings.ContainsRune] using h)
    · omega
  have hread1 : rs.storage.ReadObject
      (strings.TrimPrefix (⟨"GET", "/" ++ N⟩ : http.Request).Path "/") w.sink s =
        (none, out, s1) := by
    show rs.storage.ReadObject (strings.TrimPrefix ("/" ++ N) "/") w.sink s = (none, out, s1)
    rw [trimPrefix_slash]; exact hread
  rw [getObject_of_read_ok T rs w _ s hm hgood out s1 hread1]
  show _ ∧ _ ∧ ((w.SetHeader "Content-Type"
      (T (filepath.Ext (strings.TrimPrefix ("/" ++ N) "/")))).afterWrites out).GetHeader
        "Content-Type" = _ ∧ _
  rw [trimPrefix_slash]
  have hh := getHeader_setHeader w "Content-Type" (T (filepath.Ext N)) hw
  have hc := setHeader_code w "Content-Type" (T (filepath.Ext N))
  refine ⟨?_, ?_, ?_, rfl⟩
  · unfold http.ResponseWriter.status http.ResponseWriter.afterWrites
      http.ResponseWriter.WriteHeader
    rw [hc, hw]
    split <;> rfl
  · unfold http.ResponseWriter.body http.ResponseWriter.afterWrites
    split <;> rfl
  · have : ((w.SetHeader "Content-Type" (T (filepath.Ext N))).afterWrites out).header =
        (w.SetHeader "Content-Type" (T (filepath.Ext N))).header := by
      unfold http.ResponseWriter.afterWrites http.ResponseWriter.WriteHeader
      split
      · split <;> rfl
      · rfl
    unfold http.ResponseWriter.GetHeader at hh ⊢
    rw [this]; exact hh

/-- C20: for a `MemoryStore` that holds the payload `P` under a name `N`
without `'/'` and of at most 256 bytes, and a response on which nothing was
sent yet and whose connection takes all of `P`, `GetObject` for `GET` with
the path `"/" ++ N` leaves a response with status 200, the body `P` and a
`Content-Type` header equal to what the extension table gives for the
extension of `N`; the store is unchanged. -/
theorem get_stored_object (T : String → String) (s : storage.MemoryStore) (N : String)
    (P : Bytes) (w : http.ResponseWriter)
    (hstored : s.objects.Load N = some (.bytes P)) (hslash : '/' ∉ N.data)
    (hlen : len N ≤ 256) (hfresh : w.code = none) (hbody : w.body = [])
    (haccept : w.sink.behave P = (P.length, none)) :
    (memoryHandler.GetObject T w ⟨"GET", "/" ++ N⟩ s).1.status = 200 ∧
      (memoryHandler.GetObject T w ⟨"GET", "/" ++ N⟩ s).1.body = P ∧
      (memoryHandler.GetObject T w ⟨"GET", "/" ++ N⟩ s).1.GetHeader "Content-Type" =
        T (filepath.Ext N) ∧
      (memoryHandler.GetObject T w ⟨"GET", "/" ++ N⟩ s).2 = s := by
  have hr := storage.readObject_of_bytes s N w.sink P hstored haccept
  have hread : memoryHandler.storage.ReadObject N w.sink s =
      (none, { w.sink with written := w.sink.written ++ P, calls := w.sink.calls + 1 }, s) := by
    show ((s.ReadObject N w.sink).1, (s.ReadObject N w.sink).2, s) = _
    rw [hr]
  have h := getObject_of_served T memoryHandler w N s s _ hslash hlen hfresh hread
  have hb : w.sink.written = [] := hbody
  refine ⟨h.1, ?_, h.2.2.1, h.2.2.2⟩
  rw [h.2.1]
  show w.sink.written ++ P = P
  rw [hb]; rfl

/-- The test `TestHTTPGetObject`: `GET /cat.jpg` on a store that holds
`cat.jpg`, recorded by a new recorder. -/
theorem get_stored_object_witness :
    storage.catStore.objects.Load "cat.jpg" = some (.bytes [109, 101, 111, 119]) ∧
      (memoryHandler.GetObject sampleTypeByExtension http.NewRecorder ⟨"GET", "/" ++ "cat.jpg"⟩
        storage.catStore).1.status = 200 ∧
      (memoryHandler.GetObject sampleTypeByExtension http.NewRecorder ⟨"GET", "/" ++ "cat.jpg"⟩
        storage.catStore).1.body = [109, 101, 111, 119] ∧
      (memoryHandler.GetObject sampleTypeByExtension http.NewRecorder ⟨"GET", "/" ++ "cat.jpg"⟩
        storage.catStore).1.GetHeader "Content-Type" = "image/jpeg" :=
  have h := get_stored_object sampleTypeByExtension storage.catStore "cat.jpg"
    [109, 101, 111, 119] http.NewRecorder rfl (by decide) (by decide) rfl rfl rfl
  ⟨rfl, h.1, h.2.1, h.2.2.1⟩

end api

/-! ## Concurrent writes -/

namespace storage

theorem memory_steps_sequential (s : MemoryStore) (id : String) (r : io.Reader) :
    ((s.stepWrite id r .start).2.stepWrite id r (s.stepWrite id r .start).1).2.stepWrite id r
        ((s.stepWrite id r .start).2.stepWrite id r (s.stepWrite id r .start).1).1 =
      (.returned (s.WriteObject id r).1, (s.WriteObject id r).2) := by
  obtain ⟨data, err⟩ := r
  cases h : s.objects.Load id with
  | some v => simp [MemoryStore.stepWrite, MemoryStore.WriteObject, h]
  | none =>
    cases err with
    | some e => simp [MemoryStore.stepWrite, MemoryStore.WriteObject, h, io.ReadAll]
    | none =>
      simp [MemoryStore.stepWrite, MemoryStore.WriteObject, h, io.ReadAll,
        sync.Map.LoadOrStore]

theorem file_steps_sequential (fs : FileStore) (id : String) (r : io.Reader) (disk : os.Disk) :
    (fs.stepWrite id r (fs.stepWrite id r disk .start).2 (fs.stepWrite id r disk .start).1) =
      (.returned (fs.WriteObject id r disk).1, (fs.WriteObject id r disk).2) := by
  simp only [FileStore.stepWrite, FileStore.WriteObject]
  cases h : os.OpenFile (filepath.Join fs.baseDir id) .createExclusive disk with
  | error err =>
    by_cases he : err.isExist = true
    · simp [he, FileStore.stepWrite]
    · simp [he, FileStore.stepWrite]
  | ok v =>
    obtain ⟨fd, disk1⟩ := v
    simp only [FileStore.stepWrite]
    cases h2 : fd.ReadFrom r disk1 with
    | mk e disk2 =>
      cases e <;> rfl

theorem memoryRace_step_inv (id : String) (payload : Nat → Bytes) (K : Nat) (st : MemoryRace)
    (i : Nat) (h : MemoryRace.Inv id payload K st) :
    MemoryRace.Inv id payload K
      (st.step id (fun k => bytes.NewReader (payload k)) K i) := by
  unfold MemoryRace.step
  by_cases hi : i < K
  swap
  · rw [if_neg hi]; exact h
  rw [if_pos hi]
  obtain ⟨hread, hAB⟩ := h
  cases hpc : st.calls i with
  | start =>
    rcases hAB with ⟨habs, hnr⟩ | ⟨j, hj, hjw, hload, hoth⟩
    · have e : st.store.stepWrite id (bytes.NewReader (payload i)) .start =
          (.checked, st.store) := by
        simp only [MemoryStore.stepWrite, habs]
      rw [e]
      unfold MemoryRace.Inv
      dsimp only
      refine ⟨?_, Or.inl ⟨habs, ?_⟩⟩
      · intro k hk d hd
        by_cases hki : k = i
        · subst hki; simp at hd
        · rw [Function.update_noteq hki] at hd; exact hread k hk d hd
      · intro k hk e0 he0
        by_cases hki : k = i
        · subst hki; simp at he0
        · rw [Function.update_noteq hki] at he0; exact hnr k hk e0 he0
    · have e : st.store.stepWrite id (bytes.NewReader (payload i)) .start =
          (.returned (some .ErrFileExists), st.store) := by
        simp only [MemoryStore.stepWrite, hload]
      rw [e]
      unfold MemoryRace.Inv
      dsimp only
      have hij : i ≠ j := by
        rintro rfl
        rw [hpc] at hjw; cases hjw
      refine ⟨?_, Or.inr ⟨j, hj, ?_, hload, ?_⟩⟩
      · intro k hk d hd
        by_cases hki : k = i
        · subst hki; simp at hd
        · rw [Function.update_noteq hki] at hd; exact hread k hk d hd
      · show Function.update st.calls i _ j = _
        rw [Function.update_noteq (Ne.symm hij)]; exact hjw
      · intro k hk hkj e0 he0
        by_cases hki : k = i
        · subst hki
          simp only [Function.update_same] at he0
          cases he0; rfl
        · rw [Function.update_noteq hki] at he0; exact hoth k hk hkj e0 he0
  | checked =>
    have e : st.store.stepWrite id (bytes.NewReader (payload i)) .checked =
        (.read (payload i), st.store) := rfl
    rw [e]
    unfold MemoryRace.Inv
    dsimp only
    refine ⟨?_, ?_⟩
    · intro k hk d hd
      by_cases hki : k = i
      · subst hki
        simp only [Function.update_same] at hd
        cases hd; rfl
      · rw [Function.update_noteq hki] at hd; exact hread k hk d hd
    · rcases hAB with ⟨habs, hnr⟩ | ⟨j, hj, hjw, hload, hoth⟩
      · refine Or.inl ⟨habs, ?_⟩
        intro k hk e0 he0
        by_cases hki : k = i
        · subst hki; simp at he0
        · rw [Function.update_noteq hki] at he0; exact hnr k hk e0 he0
      · have hij : i ≠ j := by
          rintro rfl
          rw [hpc] at hjw; cases hjw
        refine Or.inr ⟨j, hj, ?_, hload, ?_⟩
        · show Function.update st.calls i _ j = _
          rw [Function.update_noteq (Ne.symm hij)]; exact hjw
        · intro k hk hkj e0 he0
          by_cases hki : k = i
          · subst hki; simp at he0
          · rw [Function.update_noteq hki] at he0; exact hoth k hk hkj e0 he0
  | read d =>
    have hd : d = payload i := hread i hi d hpc
    subst hd
    rcases hAB with ⟨habs, hnr⟩ | ⟨j, hj, hjw, hload, hoth⟩
    · have e : st.store.stepWrite id (bytes.NewReader (payload i)) (.read (payload i)) =
          (.returned none, ⟨⟨(id, .bytes (payload i)) :: st.store.objects.entries⟩⟩) := by
        simp only [MemoryStore.stepWrite, sync.Map.LoadOrStore, habs]
      rw [e]
      unfold MemoryRace.Inv
      dsimp only
      refine ⟨?_, Or.inr ⟨i, hi, ?_, ?_, ?_⟩⟩
      · intro k hk d hd
        by_cases hki : k = i
        · subst hki; simp at hd
        · rw [Function.update_noteq hki] at hd; exact hread k hk d hd
      · show Function.update st.calls i _ i = _
        rw [Function.update_same]
      · exact lookupEntry_cons_self _ _ _
      · intro k hk hki e0 he0
        rw [Function.update_noteq hki] at he0
        exact absurd he0 (hnr k hk e0)
    · have e : st.store.stepWrite id (bytes.NewReader (payload i)) (.read (payload i)) =
          (.returned (some .ErrFileExists), st.store) := by
        simp only [MemoryStore.stepWrite, sync.Map.LoadOrStore, hload]
      rw [e]
      unfold MemoryRace.Inv
      dsimp only
      have hij : i ≠ j := by
        rintro rfl
        rw [hpc] at hjw; cases hjw
      refine ⟨?_, Or.inr ⟨j, hj, ?_, hload, ?_⟩⟩
      · intro k hk d hd
        by_cases hki : k = i
        · subst hki; simp at hd
        · rw [Function.update_noteq hki] at hd; exact hread k hk d hd
      · show Function.update st.calls i _ j = _
        rw [Function.update_noteq (Ne.symm hij)]; exact hjw
      · intro k hk hkj e0 he0
        by_cases hki : k = i
        · subst hki
          simp only [Function.update_same] at he0
          cases he0; rfl
        · rw [Function.update_noteq hki] at he0; exact hoth k hk hkj e0 he0
  | returned err =>
    have e : st.store.stepWrite id (bytes.NewReader (payload i)) (.returned err) =
        (.returned err, st.store) := rfl
    rw [e]
    have hup : Function.update st.calls i (.returned err) = st.calls := by
      rw [← hpc]; exact Function.update_eq_self i st.calls
    show MemoryRace.Inv id payload K ⟨st.store, Function.update st.calls i (.returned err)⟩
    rw [hup]
    exact ⟨hread, hAB⟩

theorem memoryRace_run_inv (id : String) (payload : Nat → Bytes) (K : Nat) (sched : List Nat)
    (st : MemoryRace) (h : MemoryRace.Inv id payload K st) :
    MemoryRace.Inv id payload K
      (MemoryRace.run id (fun k => bytes.NewReader (payload k)) K st sched) := by
  induction sched generalizing st with
  | nil => exact h
  | cons i rest ih => exact ih _ (memoryRace_step_inv id payload K st i h)

end storage

namespace storage

theorem stat_cons_self (disk : os.Disk) (p : String) (n : os.Node) :
    os.Disk.stat { disk with nodes := (p, n) :: disk.nodes } p = some n := by
  simp [os.Disk.stat, List.find?]

theorem fileRace_step_inv (fs : FileStore) (id : String) (payload : Nat → Bytes) (K : Nat)
    (st : FileRace) (i : Nat)
    (h : FileRace.Inv (filepath.Join fs.baseDir id) payload K st) :
    FileRace.Inv (filepath.Join fs.baseDir id) payload K
      (st.step fs id (fun k => bytes.NewReader (payload k)) K i) := by
  unfold FileRace.step
  by_cases hi : i < K
  swap
  · rw [if_neg hi]; exact h
  rw [if_pos hi]
  obtain ⟨hdeny, hAB⟩ := h
  cases hpc : st.calls i with
  | start =>
    rcases hAB with ⟨habs, hall⟩ | ⟨j, hj, hjw, hoth⟩
    · have e : fs.stepWrite id (bytes.NewReader (payload i)) st.disk .start =
          (.opened ⟨filepath.Join fs.baseDir id⟩,
            { st.disk with
              nodes := (filepath.Join fs.baseDir id, .file []) :: st.disk.nodes }) := by
        simp only [FileStore.stepWrite, os.OpenFile, hdeny, habs]
      rw [e]
      unfold FileRace.Inv
      dsimp only
      refine ⟨hdeny, Or.inr ⟨i, hi, Or.inl ⟨?_, stat_cons_self _ _ _⟩, ?_⟩⟩
      · rw [Function.update_same]
      · intro k hk hki
        rw [Function.update_noteq hki]
        exact Or.inl (hall k hk)
    · have hsome : ∃ n, st.disk.stat (filepath.Join fs.baseDir id) = some n := by
        rcases hjw with ⟨_, hs⟩ | ⟨_, hs⟩
        · exact ⟨_, hs⟩
        · exact ⟨_, hs⟩
      obtain ⟨n, hn⟩ := hsome
      have e : fs.stepWrite id (bytes.NewReader (payload i)) st.disk .start =
          (.returned (some .ErrFileExists), st.disk) := by
        simp [FileStore.stepWrite, os.OpenFile, hdeny, hn, os.PathError.isExist]
      rw [e]
      unfold FileRace.Inv
      dsimp only
      have hij : i ≠ j := by
        rintro rfl
        rcases hjw with ⟨hc, _⟩ | ⟨hc, _⟩ <;> · rw [hpc] at hc; cases hc
      refine ⟨hdeny, Or.inr ⟨j, hj, ?_, ?_⟩⟩
      · rw [Function.update_noteq (Ne.symm hij)]; exact hjw
      · intro k hk hkj
        by_cases hki : k = i
        · subst hki
          rw [Function.update_same]; exact Or.inr rfl
        · rw [Function.update_noteq hki]; exact hoth k hk hkj
  | opened fd =>
    rcases hAB with ⟨_, hall⟩ | ⟨j, hj, hjw, hoth⟩
    · have := hall i hi
      rw [hpc] at this; cases this
    · have hij : i = j := by
        by_contra hne
        rcases hoth i hi hne with hc | hc <;> · rw [hpc] at hc; cases hc
      subst hij
      rcases hjw with ⟨hc, hs⟩ | ⟨hc, _⟩
      swap
      · rw [hpc] at hc; cases hc
      rw [hpc] at hc
      cases hc
      have e : fs.stepWrite id (bytes.NewReader (payload i)) st.disk
          (.opened ⟨filepath.Join fs.baseDir id⟩) =
          (.returned none,
            { st.disk with
              nodes := (filepath.Join fs.baseDir id, .file ([] ++ payload i)) ::
                st.disk.nodes }) := by
        simp only [FileStore.stepWrite, os.File.ReadFrom, hs, bytes.NewReader]
      rw [e]
      unfold FileRace.Inv
      dsimp only
      refine ⟨hdeny, Or.inr ⟨i, hi, Or.inr ⟨?_, ?_⟩, ?_⟩⟩
      · rw [Function.update_same]
      · rw [stat_cons_self, List.nil_append]
      · intro k hk hki
        rw [Function.update_noteq hki]
        exact hoth k hk hki
  | returned err =>
    have e : fs.stepWrite id (bytes.NewReader (payload i)) st.disk (.returned err) =
        (.returned err, st.disk) := rfl
    rw [e]
    have hup : Function.update st.calls i (.returned err) = st.calls := by
      rw [← hpc]; exact Function.update_eq_self i st.calls
    show FileRace.Inv _ payload K ⟨st.disk, Function.update st.calls i (.returned err)⟩
    rw [hup]
    exact ⟨hdeny, hAB⟩

theorem fileRace_run_inv (fs : FileStore) (id : String) (payload : Nat → Bytes) (K : Nat)
    (sched : List Nat) (st : FileRace)
    (h : FileRace.Inv (filepath.Join fs.baseDir id) payload K st) :
    FileRace.Inv (filepath.Join fs.baseDir id) payload K
      (FileRace.run fs id (fun k => bytes.NewReader (payload k)) K st sched) := by
  induction sched generalizing st with
  | nil => exact h
  | cons i rest ih => exact ih _ (fileRace_step_inv fs id payload K st i h)

end storage

/-! ## The empty name at the download handler, the extension table, the choice of backend -/

namespace api

open catly

/-- C21: the download handler lets the empty name through.  For `GET /` the
name is `""`; the handler has no lower bound on its length, calls
`ReadObject("")` on the storage (the double logs the call), and answers what
the storage decides: 404 in front of a memory store, 500 in front of a file
store, where the empty name is joined to the base directory itself.  The
upload gateway rejects the empty name. -/
theorem get_object_passes_empty_name :
    strings.TrimPrefix "/" "/" = "" ∧
      ((NewHTTPResource recordingReadable).GetObject sampleTypeByExtension http.NewRecorder
        ⟨"GET", "/"⟩ []).2 = [""] ∧
      (memoryHandler.GetObject sampleTypeByExtension http.NewRecorder ⟨"GET", "/"⟩
        storage.NewMemoryStore).1.status = 404 ∧
      (fileHandler.GetObject sampleTypeByExtension http.NewRecorder ⟨"GET", "/"⟩
        storage.sampleDisk).1.status = 500 ∧
      (sampleResource.Upload sampleTypeByExtension ⟨"", [255, 216, 255]⟩ [] 0).1 =
        { Status := .ObjectERR, Url := "",
          Error := "image name should be between 1 and 256 characters" } := by
  refine ⟨by decide, by decide, by decide, by decide, by decide⟩

/-- C23, amended: for a request with a valid name, a non-empty payload and a
detector result `mt` among the three accepted types, the agreement check
looks at the name only through `mime.TypeByExtension(filepath.Ext(name))`:
when that differs from `mt` the request is rejected with the
extension-mismatch reason and the storage is untouched; when it equals `mt`
the storage's `WriteObject` runs, whatever the case or spelling of the
extension.  The table of the standard library folds case and knows `.jpeg`:
it gives `.JPG`, `.jpeg` and `.jpg` the type `image/jpeg`, `.PNG` the type
`image/png` and `.GIF` the type `image/gif`. -/
theorem upload_extension_check_uses_table {σ δ : Type} (T : String → String)
    (rs : GRPCResource σ δ) (req : UploadObjectRequest) (s : σ) (d : δ)
    (h1 : 1 ≤ len req.Name ∧ len req.Name ≤ 256) (h2 : '/' ∉ req.Name.data)
    (h3 : req.Data ≠ [])
    (h4 : (rs.contentDetector req.Data d).1 ∈ ["image/jpeg", "image/png", "image/gif"]) :
    (T (filepath.Ext req.Name) ≠ (rs.contentDetector req.Data d).1 →
        (rs.Upload T req s d).1 =
          { Status := .ObjectERR, Url := "",
            Error := "uploaded image extension '" ++ filepath.Ext req.Name ++
              "' does not match it's content type of '" ++
              (rs.contentDetector req.Data d).1 ++ "'" } ∧
          (rs.Upload T req s d).2.1 = s) ∧
      (T (filepath.Ext req.Name) = (rs.contentDetector req.Data d).1 →
        (rs.Upload T req s d).2.1 =
          (rs.storage.WriteObject req.Name (bytes.NewReader req.Data) s).2) ∧
      (mime.builtinTypeByExtension ".JPG" = "image/jpeg" ∧
        mime.builtinTypeByExtension ".jpeg" = "image/jpeg" ∧
        mime.builtinTypeByExtension ".jpg" = "image/jpeg" ∧
        mime.builtinTypeByExtension ".PNG" = "image/png" ∧
        mime.builtinTypeByExtension ".GIF" = "image/gif") := by
  have g1 : ¬ (len req.Name > 256 ∨ len req.Name < 1) := by omega
  have g2 : ¬ strings.ContainsRune req.Name '/' = true := by
    simpa [strings.ContainsRune] using h2
  have g3 : ¬ req.Data.length < 1 := by
    cases hd : req.Data with
    | nil => exact absurd hd h3
    | cons b bs => simp
  have g4 : ¬ ((rs.contentDetector req.Data d).1 ≠ "image/jpeg" ∧
      (rs.contentDetector req.Data d).1 ≠ "image/png" ∧
      (rs.contentDetector req.Data d).1 ≠ "image/gif") := by
    simp only [List.mem_cons, List.mem_singleton, List.not_mem_nil, or_false] at h4
    rcases h4 with h | h | h <;> simp [h]
  refine ⟨?_, ?_, by decide, by decide, by decide, by decide, by decide⟩
  · intro h5
    rw [upload_of_mismatch T rs req s d g1 g2 g3 g4 (fun e => h5 e.symm)]
    exact ⟨rfl, rfl⟩
  · intro h5
    rw [upload_of_valid T rs req s d g1 g2 g3 g4 (fun h => h h5.symm)]
    rcases rs.storage.WriteObject req.Name (bytes.NewReader req.Data) s with ⟨_ | e, s1⟩ <;> rfl

/-- With the table of the standard library and a payload sniffed as
`image/jpeg`: `cat.JPG` reaches the storage, `cat.jpe`, an extension the
table does not know, is rejected. -/
theorem upload_extension_check_uses_table_witness :
    mime.builtinTypeByExtension (filepath.Ext "cat.JPG") = "image/jpeg" ∧
      (sampleResource.Upload mime.builtinTypeByExtension ⟨"cat.JPG", [255, 216, 255]⟩ [] 0).2.1 =
        [("cat.JPG", [255, 216, 255])] ∧
      mime.builtinTypeByExtension (filepath.Ext "cat.jpe") = "" ∧
      (sampleResource.Upload mime.builtinTypeByExtension ⟨"cat.jpe", [255, 216, 255]⟩ [] 0).1 =
        { Status := .ObjectERR, Url := "",
          Error := "uploaded image extension '.jpe' does not match it's content type of " ++
            "'image/jpeg'" } :=
  ⟨by decide,
    (upload_extension_check_uses_table mime.builtinTypeByExtension sampleResource
      ⟨"cat.JPG", [255, 216, 255]⟩ [] 0 (by decide) (by decide) (by decide)
      (by decide)).2.1 (by decide),
    by decide,
    ((upload_extension_check_uses_table mime.builtinTypeByExtension sampleResource
      ⟨"cat.jpe", [255, 216, 255]⟩ [] 0 (by decide) (by decide) (by decide)
      (by decide)).1 (by decide)).1⟩

/-- C23, as stated, fails: with the table of the standard library and a
payload sniffed as `image/jpeg`, the names `cat.JPG` and `cat.jpeg` are not
rejected; `Upload` answers `ObjectOK` and the object is stored. -/
theorem upload_extension_check_uses_table_counterexample :
    sampleResource.Upload mime.builtinTypeByExtension ⟨"cat.JPG", [255, 216, 255]⟩ [] 0 =
        ({ Status := .ObjectOK, Url := "http://127.0.0.1:8080/cat.JPG", Error := "" },
          [("cat.JPG", [255, 216, 255])], 1) ∧
      sampleResource.Upload mime.builtinTypeByExtension ⟨"cat.jpeg", [255, 216, 255]⟩ [] 0 =
        ({ Status := .ObjectOK, Url := "http://127.0.0.1:8080/cat.jpeg", Error := "" },
          [("cat.jpeg", [255, 216, 255])], 1) := by
  refine ⟨by decide, by decide⟩

end api

namespace server

/-- C24: the server selects no backend for a directory path.  The storage
path `:memory:` (also an unset `CATLY_STORAGE_PATH`) gives the memory store
and the literal path `file` gives a file store rooted at `file`; for any
other value, such as the existing directory `/data`, no case of the switch
applies and the provider stays nil. -/
theorem storage_selection_misses_paths :
    selectStorage ":memory:" storage.sampleDisk =
        .ok (some (.memory storage.NewMemoryStore), storage.sampleDisk) ∧
      configuredStorage (fun _ => "") storage.sampleDisk =
        .ok (some (.memory storage.NewMemoryStore), storage.sampleDisk) ∧
      (selectStorage "file" storage.sampleDisk).toOption.map (fun r => r.1) =
        some (some (.file ⟨"file"⟩)) ∧
      storage.NewFileStore "/data" storage.sampleDisk = .ok ⟨"/data"⟩ ∧
      selectStorage "/data" storage.sampleDisk = .ok (none, storage.sampleDisk) ∧
      configuredStorage (fun name => if name = "CATLY_STORAGE_PATH" then "/data" else "")
        storage.sampleDisk = .ok (none, storage.sampleDisk) := by
  refine ⟨rfl, rfl, by decide, rfl, rfl, rfl⟩

end server

/-! ## Joining a name to the base directory -/

namespace filepath

theorem splitSep_ne_nil (xs : List Char) : splitSep xs ≠ [] := by
  induction xs with
  | nil => simp [splitSep]
  | cons c cs ih =>
    unfold splitSep
    by_cases hc : c = '/'
    · simp [hc]
    · rw [if_neg hc]
      cases h : splitSep cs with
      | nil => simp
      | cons a t => simp

theorem splitSep_append_sep (xs ys : List Char) :
    splitSep (xs ++ '/' :: ys) = splitSep xs ++ splitSep ys := by
  induction xs with
  | nil => simp [splitSep]
  | cons c cs ih =>
    by_cases hc : c = '/'
    · simp [splitSep, hc, ih]
    · cases h : splitSep cs with
      | nil => exact absurd h (splitSep_ne_nil cs)
      | cons a t =>
        have ih2 : splitSep (cs ++ '/' :: ys) = a :: (t ++ splitSep ys) := by
          rw [ih, h]; rfl
        show splitSep (c :: (cs ++ '/' :: ys)) = splitSep (c :: cs) ++ splitSep ys
        simp only [splitSep, if_neg hc, ih2, h, List.cons_append]

theorem splitSep_of_no_sep (ys : List Char) (h : '/' ∉ ys) : splitSep ys = [ys] := by
  induction ys with
  | nil => rfl
  | cons c cs ih =>
    have hc : c ≠ '/' := fun e => h (by simp [e])
    have hcs : '/' ∉ cs := fun e => h (by simp [e])
    simp only [splitSep, if_neg hc, ih hcs]

theorem intercalate_go_append (acc sep : String) (xs : List String) (n : String) :
    String.intercalate.go acc sep (xs ++ [n]) = String.intercalate.go acc sep xs ++ sep ++ n := by
  induction xs generalizing acc with
  | nil => simp [String.intercalate.go]
  | cons a t ih => simp [String.intercalate.go, ih]

theorem intercalate_append_one (sep : String) (xs : List String) (n : String)
    (h : xs ≠ []) :
    String.intercalate sep (xs ++ [n]) = String.intercalate sep xs ++ sep ++ n := by
  cases xs with
  | nil => exact absurd rfl h
  | cons a t =>
    simp only [List.cons_append, String.intercalate]
    exact intercalate_go_append a sep t n

theorem clean_eq (path : String) :
    Clean path =
      if decide (path.data.head? = some '/') = true then
        "/" ++ String.intercalate "/" (cleanElems path)
      else if String.intercalate "/" (cleanElems path) = "" then "."
      else String.intercalate "/" (cleanElems path) := rfl

theorem cleanStep_plain (rooted : Bool) (kept : List String) (N : String)
    (h0 : N ≠ "") (h1 : N ≠ ".") (h2 : N ≠ "..") : cleanStep rooted kept N = N :: kept := by
  simp [cleanStep, h0, h1, h2]

theorem data_join (B N : String) : (B ++ "/" ++ N).data = B.data ++ '/' :: N.data := by
  simp [String.data_append]

theorem head_join (B N : String) (hB : B ≠ "") :
    (B ++ "/" ++ N).data.head? = B.data.head? := by
  rw [data_join]
  cases hb : B.data with
  | nil =>
    exfalso; apply hB
    cases B with
    | mk cs => simp only at hb; subst hb; rfl
  | cons c cs => rfl

theorem cleanElems_join (B N : String) (hB : B ≠ "") (hs : '/' ∉ N.data)
    (h0 : N ≠ "") (h1 : N ≠ ".") (h2 : N ≠ "..") :
    cleanElems (B ++ "/" ++ N) = cleanElems B ++ [N] := by
  unfold cleanElems
  rw [head_join B N hB, data_join, splitSep_append_sep, splitSep_of_no_sep N.data hs]
  simp only [List.map_append, List.map_cons, List.map_nil, List.foldl_append, List.foldl_cons,
    List.foldl_nil]
  rw [cleanStep_plain _ _ _ h0 h1 h2]
  simp

theorem join_ne_empty (x N : String) : x ++ "/" ++ N ≠ "" := by
  intro h
  have := congrArg String.data h
  simp [String.data_append] at this

theorem join_child (B N : String) (hB : B ≠ "") (hs : '/' ∉ N.data)
    (h0 : N ≠ "") (h1 : N ≠ ".") (h2 : N ≠ "..")
    (hclean : Clean B = B) (hroot : B ≠ "/") (hdot : B ≠ ".") :
    Join B N = B ++ "/" ++ N := by
  have hj : Join B N = Clean (B ++ "/" ++ N) := by
    unfold Join; rw [if_pos hB]
  rw [hj, clean_eq, head_join B N hB, cleanElems_join B N hB hs h0 h1 h2]
  rw [clean_eq] at hclean
  by_cases hr : decide (B.data.head? = some '/') = true
  · rw [if_pos hr] at hclean ⊢
    by_cases he : cleanElems B = []
    · rw [he] at hclean
      exact absurd hclean.symm hroot
    · rw [intercalate_append_one "/" _ N he]
      conv_rhs => rw [← hclean]
      simp [String.append_assoc]
  · rw [if_neg hr] at hclean ⊢
    by_cases he : cleanElems B = []
    · rw [he] at hclean
      exact absurd hclean.symm hdot
    · rw [intercalate_append_one "/" _ N he]
      by_cases hb : String.intercalate "/" (cleanElems B) = ""
      · rw [if_pos hb] at hclean
        exact absurd hclean.symm hdot
      · rw [if_neg hb] at hclean
        rw [if_neg (join_ne_empty _ N), hclean]

end filepath

namespace storage

theorem fileWriteObject_creates (fs : FileStore) (N : String) (r : io.Reader) (disk : os.Disk)
    (h : disk.stat (filepath.Join fs.baseDir N) = none)
    (hd : disk.deny (filepath.Join fs.baseDir N) = none) :
    (fs.WriteObject N r disk).2.stat (filepath.Join fs.baseDir N) = some (.file r.data) := by
  have h1 := stat_cons_self disk (filepath.Join fs.baseDir N) (.file [])
  simp only [FileStore.WriteObject, os.OpenFile, hd, h, os.File.ReadFrom, h1]
  cases r.err <;> simp [os.Disk.stat, List.find?]

end storage

/-! ## Concurrent writes: every call returns, and one wins -/

namespace storage

theorem memoryStepWrite_stage (s : MemoryStore) (id : String) (r : io.Reader)
    (pc : MemoryWrite) : min 3 (pc.stage + 1) ≤ (s.stepWrite id r pc).1.stage := by
  cases pc with
  | start =>
    simp only [MemoryStore.stepWrite]
    cases s.objects.Load id <;> simp [MemoryWrite.stage]
  | checked =>
    obtain ⟨data, err⟩ := r
    cases err <;> simp [MemoryStore.stepWrite, io.ReadAll, MemoryWrite.stage]
  | read d =>
    simp only [MemoryStore.stepWrite, sync.Map.LoadOrStore]
    cases s.objects.Load id <;> simp [MemoryWrite.stage]
  | returned e => simp [MemoryStore.stepWrite, MemoryWrite.stage]

theorem memoryRace_step_stage (id : String) (readers : Nat → io.Reader) (K : Nat)
    (st : MemoryRace) (i j : Nat) (hj : j < K) :
    min 3 ((st.calls j).stage + (if i = j then 1 else 0)) ≤
      ((st.step id readers K i).calls j).stage := by
  unfold MemoryRace.step
  by_cases hi : i < K
  · rw [if_pos hi]
    by_cases hij : i = j
    · subst hij
      simp only [Function.update_same, if_true]
      exact memoryStepWrite_stage st.store id (readers i) (st.calls i)
    · simp only [if_neg hij, Nat.add_zero]
      rw [Function.update_noteq (Ne.symm hij)]
      exact Nat.min_le_right _ _
  · rw [if_neg hi]
    have hij : i ≠ j := fun e => hi (e ▸ hj)
    simp only [if_neg hij, Nat.add_zero]
    exact Nat.min_le_right _ _

theorem memoryRace_run_stage (id : String) (readers : Nat → io.Reader) (K : Nat)
    (sched : List Nat) (st : MemoryRace) (j : Nat) (hj : j < K) :
    min 3 ((st.calls j).stage + sched.count j) ≤
      ((MemoryRace.run id readers K st sched).calls j).stage := by
  induction sched generalizing st with
  | nil => exact Nat.min_le_right _ _
  | cons i rest ih =>
    have h1 := memoryRace_step_stage id readers K st i j hj
    have h2 := ih (st.step id readers K i)
    show _ ≤ ((MemoryRace.run id readers K (st.step id readers K i) rest).calls j).stage
    rw [List.count_cons]
    by_cases hij : i = j
    · subst hij
      simp only [if_true, beq_self_eq_true] at h1 ⊢
      omega
    · have hb : (i == j) = false := by simpa using hij
      simp only [if_neg hij, hb, Nat.add_zero] at h1 ⊢
      simp only [Bool.false_eq_true, if_false, Nat.add_zero]
      omega

theorem memoryWrite_returned_of_stage (pc : MemoryWrite) (h : 3 ≤ pc.stage) :
    ∃ e, pc = .returned e := by
  cases pc with
  | returned e => exact ⟨e, rfl⟩
  | start => simp [MemoryWrite.stage] at h
  | checked => simp [MemoryWrite.stage] at h
  | read d => simp [MemoryWrite.stage] at h

theorem memoryRace_returns (id : String) (readers : Nat → io.Reader) (K : Nat)
    (sched : List Nat) (st : MemoryRace) (j : Nat) (hj : j < K) (hc : 3 ≤ sched.count j) :
    ∃ e, (MemoryRace.run id readers K st sched).calls j = .returned e := by
  apply memoryWrite_returned_of_stage
  have h := memoryRace_run_stage id readers K sched st j hj
  omega

theorem fileStepWrite_stage (fs : FileStore) (id : String) (r : io.Reader) (disk : os.Disk)
    (pc : FileWrite) : min 2 (pc.stage + 1) ≤ (fs.stepWrite id r disk pc).1.stage := by
  cases pc with
  | start =>
    simp only [FileStore.stepWrite]
    cases os.OpenFile (filepath.Join fs.baseDir id) .createExclusive disk with
    | error err =>
      by_cases he : err.isExist = true <;> simp [he, FileWrite.stage]
    | ok v => simp [FileWrite.stage]
  | opened fd =>
    simp only [FileStore.stepWrite]
    rcases fd.ReadFrom r disk with ⟨_ | e, disk2⟩ <;> simp [FileWrite.stage]
  | returned e => simp [FileStore.stepWrite, FileWrite.stage]

theorem fileRace_step_stage (fs : FileStore) (id : String) (readers : Nat → io.Reader)
    (K : Nat) (st : FileRace) (i j : Nat) (hj : j < K) :
    min 2 ((st.calls j).stage + (if i = j then 1 else 0)) ≤
      ((st.step fs id readers K i).calls j).stage := by
  unfold FileRace.step
  by_cases hi : i < K
  · rw [if_pos hi]
    by_cases hij : i = j
    · subst hij
      simp only [Function.update_same, if_true]
      exact fileStepWrite_stage fs id (readers i) st.disk (st.calls i)
    · simp only [if_neg hij, Nat.add_zero]
      rw [Function.update_noteq (Ne.symm hij)]
      exact Nat.min_le_right _ _
  · rw [if_neg hi]
    have hij : i ≠ j := fun e => hi (e ▸ hj)
    simp only [if_neg hij, Nat.add_zero]
    exact Nat.min_le_right _ _

theorem fileRace_run_stage (fs : FileStore) (id : String) (readers : Nat → io.Reader)
    (K : Nat) (sched : List Nat) (st : FileRace) (j : Nat) (hj : j < K) :
    min 2 ((st.calls j).stage + sched.count j) ≤
      ((FileRace.run fs id readers K st sched).calls j).stage := by
  induction sched generalizing st with
  | nil => exact Nat.min_le_right _ _
  | cons i rest ih =>
    have h1 := fileRace_step_stage fs id readers K st i j hj
    have h2 := ih (st.step fs id readers K i)
    show _ ≤ ((FileRace.run fs id readers K (st.step fs id readers K i) rest).calls j).stage
    rw [List.count_cons]
    by_cases hij : i = j
    · subst hij
      simp only [if_true, beq_self_eq_true] at h1 ⊢
      omega
    · have hb : (i == j) = false := by simpa using hij
      simp only [if_neg hij, hb, Nat.add_zero] at h1 ⊢
      simp only [Bool.false_eq_true, if_false, Nat.add_zero]
      omega

theorem fileWrite_returned_of_stage (pc : FileWrite) (h : 2 ≤ pc.stage) :
    ∃ e, pc = .returned e := by
  cases pc with
  | returned e => exact ⟨e, rfl⟩
  | start => simp [FileWrite.stage] at h
  | opened fd => simp [FileWrite.stage] at h

theorem fileRace_returns (fs : FileStore) (id : String) (readers : Nat → io.Reader) (K : Nat)
    (sched : List Nat) (st : FileRace) (j : Nat) (hj : j < K) (hc : 2 ≤ sched.count j) :
    ∃ e, (FileRace.run fs id readers K st sched).calls j = .returned e := by
  apply fileWrite_returned_of_stage
  have h := fileRace_run_stage fs id readers K sched st j hj
  omega

end storage

namespace storage

theorem memoryRace_winner (id : String) (K : Nat) (payload : Nat → Bytes) (sched : List Nat)
    (hK : 1 ≤ K) (s : MemoryStore) (habs : s.objects.Load id = none)
    (hdone : ∀ i, i < K → ∃ e,
      (MemoryRace.run id (fun k => bytes.NewReader (payload k)) K (MemoryRace.init s)
        sched).calls i = .returned e) :
    MemoryRace.OneWinner id payload K
      (MemoryRace.run id (fun k => bytes.NewReader (payload k)) K (MemoryRace.init s) sched) := by
  have hinit : MemoryRace.Inv id payload K (MemoryRace.init s) :=
    ⟨fun i _ d hd => (by cases hd), Or.inl ⟨habs, fun i _ e he => (by cases he)⟩⟩
  obtain ⟨_, hAB⟩ := memoryRace_run_inv id payload K sched _ hinit
  rcases hAB with ⟨_, hnr⟩ | ⟨j, hj, hjw, hload, hoth⟩
  · obtain ⟨e, he⟩ := hdone 0 (by omega)
    exact absurd he (hnr 0 (by omega) e)
  · refine ⟨j, hj, hjw, ?_, hload⟩
    intro i hi hij
    obtain ⟨e, he⟩ := hdone i hi
    rw [he, hoth i hi hij e he]

theorem fileRace_winner (id : String) (K : Nat) (payload : Nat → Bytes) (sched : List Nat)
    (hK : 1 ≤ K) (fs : FileStore) (disk : os.Disk)
    (habs : disk.stat (filepath.Join fs.baseDir id) = none)
    (hdeny : disk.deny (filepath.Join fs.baseDir id) = none)
    (hdone : ∀ i, i < K → ∃ e,
      (FileRace.run fs id (fun k => bytes.NewReader (payload k)) K (FileRace.init disk)
        sched).calls i = .returned e) :
    FileRace.OneWinner (filepath.Join fs.baseDir id) payload K
      (FileRace.run fs id (fun k => bytes.NewReader (payload k)) K (FileRace.init disk)
        sched) := by
  have hinit : FileRace.Inv (filepath.Join fs.baseDir id) payload K (FileRace.init disk) :=
    ⟨hdeny, Or.inl ⟨habs, fun i _ => rfl⟩⟩
  obtain ⟨_, hAB⟩ := fileRace_run_inv fs id payload K sched _ hinit
  rcases hAB with ⟨_, hall⟩ | ⟨j, hj, hjw, hoth⟩
  · obtain ⟨e, he⟩ := hdone 0 (by omega)
    rw [hall 0 (by omega)] at he
    cases he
  · obtain ⟨ej, hej⟩ := hdone j hj
    rcases hjw with ⟨hc, _⟩ | ⟨hc, hs⟩
    · rw [hc] at hej; cases hej
    · refine ⟨j, hj, hc, ?_, hs⟩
      intro i hi hij
      obtain ⟨e, he⟩ := hdone i hi
      rcases hoth i hi hij with h0 | h0
      · rw [h0] at he; cases he
      · exact h0

/-- C18, amended: `K >= 1` calls of `WriteObject` for one name, call `i`
carrying `payload i` in a reader that does not fail, run at once under any
schedule of their steps (in a `MemoryStore` the `Load`, the `io.ReadAll` and
the `LoadOrStore` of a call; in a `FileStore` the exclusive `os.OpenFile` and
the copy) on a store in which the name is absent (in a `FileStore`: the joined
path names nothing and the file system does not refuse it).  Under every
schedule that gives each call its steps (three in a `MemoryStore`, two in a
`FileStore`) every call returns, exactly one call `j` returns `nil`, every
other call returns `ErrFileExists`, and the store holds `payload j` under the
name; the same outcome holds under every schedule at whose end every call has
returned. -/
theorem concurrent_writes_one_winner (id : String) (K : Nat) (payload : Nat → Bytes)
    (sched : List Nat) (hK : 1 ≤ K) :
    (∀ s : MemoryStore, s.objects.Load id = none →
        ((∀ i, i < K → 3 ≤ sched.count i) →
          (∀ i, i < K → ∃ e,
            (MemoryRace.run id (fun k => bytes.NewReader (payload k)) K (MemoryRace.init s)
              sched).calls i = .returned e) ∧
          MemoryRace.OneWinner id payload K
            (MemoryRace.run id (fun k => bytes.NewReader (payload k)) K (MemoryRace.init s)
              sched)) ∧
        ((∀ i, i < K → ∃ e,
            (MemoryRace.run id (fun k => bytes.NewReader (payload k)) K (MemoryRace.init s)
              sched).calls i = .returned e) →
          MemoryRace.OneWinner id payload K
            (MemoryRace.run id (fun k => bytes.NewReader (payload k)) K (MemoryRace.init s)
              sched))) ∧
      (∀ (fs : FileStore) (disk : os.Disk),
        disk.stat (filepath.Join fs.baseDir id) = none →
        disk.deny (filepath.Join fs.baseDir id) = none →
        ((∀ i, i < K → 2 ≤ sched.count i) →
          (∀ i, i < K → ∃ e,
            (FileRace.run fs id (fun k => bytes.NewReader (payload k)) K (FileRace.init disk)
              sched).calls i = .returned e) ∧
          FileRace.OneWinner (filepath.Join fs.baseDir id) payload K
            (FileRace.run fs id (fun k => bytes.NewReader (payload k)) K (FileRace.init disk)
              sched)) ∧
        ((∀ i, i < K → ∃ e,
            (FileRace.run fs id (fun k => bytes.NewReader (payload k)) K (FileRace.init disk)
              sched).calls i = .returned e) →
          FileRace.OneWinner (filepath.Join fs.baseDir id) payload K
            (FileRace.run fs id (fun k => bytes.NewReader (payload k)) K (FileRace.init disk)
              sched))) := by
  constructor
  · intro s habs
    refine ⟨fun hc => ?_, fun hdone => memoryRace_winner id K payload sched hK s habs hdone⟩
    have hdone : ∀ i, i < K → ∃ e,
        (MemoryRace.run id (fun k => bytes.NewReader (payload k)) K (MemoryRace.init s)
          sched).calls i = .returned e :=
      fun i hi => memoryRace_returns id _ K sched _ i hi (hc i hi)
    exact ⟨hdone, memoryRace_winner id K payload sched hK s habs hdone⟩
  · intro fs disk habs hdeny
    refine ⟨fun hc => ?_,
      fun hdone => fileRace_winner id K payload sched hK fs disk habs hdeny hdone⟩
    have hdone : ∀ i, i < K → ∃ e,
        (FileRace.run fs id (fun k => bytes.NewReader (payload k)) K (FileRace.init disk)
          sched).calls i = .returned e :=
      fun i hi => fileRace_returns fs id _ K sched _ i hi (hc i hi)
    exact ⟨hdone, fileRace_winner id K payload sched hK fs disk habs hdeny hdone⟩

/-- Two calls for `cat.jpg` with the payloads `[1]` and `[2]` on a new memory
store, their steps interleaved so that both pass the `Load` before either
stores: call 1 stores first and wins, call 0 gets `ErrFileExists`; and the
same two calls on the file store, where call 1 opens the file first. -/
theorem concurrent_writes_one_winner_witness :
    (MemoryRace.run "cat.jpg" (fun k => bytes.NewReader [UInt8.ofNat (k + 1)]) 2
        (MemoryRace.init NewMemoryStore) [0, 1, 0, 1, 1, 0]).calls 1 = .returned none ∧
      (MemoryRace.run "cat.jpg" (fun k => bytes.NewReader [UInt8.ofNat (k + 1)]) 2
        (MemoryRace.init NewMemoryStore) [0, 1, 0, 1, 1, 0]).calls 0 =
          .returned (some .ErrFileExists) ∧
      (FileRace.run sampleFileStore "cat.jpg" (fun k => bytes.NewReader [UInt8.ofNat (k + 1)]) 2
        (FileRace.init sampleDisk) [1, 0, 1, 0]).calls 1 = .returned none ∧
      (FileRace.run sampleFileStore "cat.jpg" (fun k => bytes.NewReader [UInt8.ofNat (k + 1)]) 2
        (FileRace.init sampleDisk) [1, 0, 1, 0]).calls 0 = .returned (some .ErrFileExists) ∧
      MemoryRace.OneWinner "cat.jpg" (fun k => [UInt8.ofNat (k + 1)]) 2
        (MemoryRace.run "cat.jpg" (fun k => bytes.NewReader [UInt8.ofNat (k + 1)]) 2
          (MemoryRace.init NewMemoryStore) [0, 1, 0, 1, 1, 0]) ∧
      FileRace.OneWinner (filepath.Join sampleFileStore.baseDir "cat.jpg")
        (fun k => [UInt8.ofNat (k + 1)]) 2
        (FileRace.run sampleFileStore "cat.jpg"
          (fun k => bytes.NewReader [UInt8.ofNat (k + 1)]) 2
          (FileRace.init sampleDisk) [1, 0, 1, 0]) :=
  ⟨by decide, by decide, by decide, by decide,
    (((concurrent_writes_one_winner "cat.jpg" 2 (fun k => [UInt8.ofNat (k + 1)])
      [0, 1, 0, 1, 1, 0] (by decide)).1 NewMemoryStore rfl).1
      (fun i hi => by
        have h : i = 0 ∨ i = 1 := by omega
        rcases h with rfl | rfl <;> decide)).2,
    (((concurrent_writes_one_winner "cat.jpg" 2 (fun k => [UInt8.ofNat (k + 1)])
      [1, 0, 1, 0] (by decide)).2 sampleFileStore sampleDisk (by decide) rfl).1
      (fun i hi => by
        have h : i = 0 ∨ i = 1 := by omega
        rcases h with rfl | rfl <;> decide)).2⟩

/-- C18, as stated, fails for the file backend: the name of 256 bytes, which
the gateway admits, is absent from the store, but its path exceeds the name
limit of the file system; both of two concurrent calls return the error of
`os.OpenFile` and none returns `nil`. -/
theorem concurrent_writes_one_winner_counterexample :
    len api.name256 = 256 ∧
      nameLimitDisk.stat (filepath.Join sampleFileStore.baseDir api.name256) = none ∧
      (FileRace.run sampleFileStore api.name256 (fun k => bytes.NewReader [UInt8.ofNat (k + 1)])
        2 (FileRace.init nameLimitDisk) [0, 1, 0, 1]).calls 0 =
          .returned (some (os.PathError.toError
            ⟨"open", filepath.Join sampleFileStore.baseDir api.name256, .ENAMETOOLONG⟩)) ∧
      (FileRace.run sampleFileStore api.name256 (fun k => bytes.NewReader [UInt8.ofNat (k + 1)])
        2 (FileRace.init nameLimitDisk) [0, 1, 0, 1]).calls 1 =
          .returned (some (os.PathError.toError
            ⟨"open", filepath.Join sampleFileStore.baseDir api.name256, .ENAMETOOLONG⟩)) ∧
      ¬ FileRace.OneWinner (filepath.Join sampleFileStore.baseDir api.name256)
        (fun k => [UInt8.ofNat (k + 1)]) 2
        (FileRace.run sampleFileStore api.name256
          (fun k => bytes.NewReader [UInt8.ofNat (k + 1)]) 2
          (FileRace.init nameLimitDisk) [0, 1, 0, 1]) := by
  have h0 : (FileRace.run sampleFileStore api.name256
      (fun k => bytes.NewReader [UInt8.ofNat (k + 1)]) 2
      (FileRace.init nameLimitDisk) [0, 1, 0, 1]).calls 0 =
        .returned (some (os.PathError.toError
          ⟨"open", filepath.Join sampleFileStore.baseDir api.name256, .ENAMETOOLONG⟩)) := by
    decide
  have h1 : (FileRace.run sampleFileStore api.name256
      (fun k => bytes.NewReader [UInt8.ofNat (k + 1)]) 2
      (FileRace.init nameLimitDisk) [0, 1, 0, 1]).calls 1 =
        .returned (some (os.PathError.toError
          ⟨"open", filepath.Join sampleFileStore.baseDir api.name256, .ENAMETOOLONG⟩)) := by
    decide
  refine ⟨by decide, by decide, h0, h1, ?_⟩
  rintro ⟨j, hj, hw, _⟩
  have h : j = 0 ∨ j = 1 := by omega
  rcases h with rfl | rfl
  · rw [h0] at hw; cases hw
  · rw [h1] at hw; cases hw

end storage

/-! ## What `filepath.Join` does to names that are not ordinary segments -/

namespace filepath

theorem clean_congr (P Q : String) (hh : P.data.head? = Q.data.head?)
    (he : cleanElems P = cleanElems Q) : Clean P = Clean Q := by
  rw [clean_eq, clean_eq, hh, he]

theorem join_eq_clean (B N : String) (hB : B ≠ "") : Join B N = Clean (B ++ "/" ++ N) := by
  unfold Join
  rw [if_pos hB]

theorem cleanElems_join_skip (B N : String) (hB : B ≠ "") (hN : N = "" ∨ N = ".") :
    cleanElems (B ++ "/" ++ N) = cleanElems B := by
  have hs : '/' ∉ N.data := by
    rcases hN with rfl | rfl <;> decide
  unfold cleanElems
  rw [head_join B N hB, data_join, splitSep_append_sep, splitSep_of_no_sep N.data hs]
  simp only [List.map_append, List.map_cons, List.map_nil, List.foldl_append, List.foldl_cons,
    List.foldl_nil]
  have : cleanStep (decide (B.data.head? = some '/'))
      (List.foldl (cleanStep (decide (B.data.head? = some '/'))) []
        (List.map String.mk (splitSep B.data))) (String.mk N.data) =
      List.foldl (cleanStep (decide (B.data.head? = some '/'))) []
        (List.map String.mk (splitSep B.data)) := by
    rcases hN with rfl | rfl <;> simp [cleanStep]
  rw [this]

theorem join_skip (B N : String) (hB : B ≠ "") (hclean : Clean B = B)
    (hN : N = "" ∨ N = ".") : Join B N = B := by
  rw [join_eq_clean B N hB,
    clean_congr _ B (head_join B N hB) (cleanElems_join_skip B N hB hN), hclean]

theorem cleanStep_rooted_keeps (kept : List String) (x : String)
    (h : ∀ e ∈ kept, e ≠ "..") : ∀ e ∈ cleanStep true kept x, e ≠ ".." := by
  unfold cleanStep
  by_cases h1 : x = "" ∨ x = "."
  · rw [if_pos h1]; exact h
  · rw [if_neg h1]
    by_cases h2 : x = ".."
    · rw [if_pos h2]
      cases kept with
      | nil => simp
      | cons top rest =>
        have ht : top ≠ ".." := h top (by simp)
        simp only [if_neg ht]
        intro e he
        exact h e (by simp [he])
    · rw [if_neg h2]
      intro e he
      rcases List.mem_cons.mp he with rfl | he
      · exact h2
      · exact h e he

theorem foldl_rooted_keeps (xs : List String) (kept : List String)
    (h : ∀ e ∈ kept, e ≠ "..") : ∀ e ∈ xs.foldl (cleanStep true) kept, e ≠ ".." := by
  induction xs generalizing kept with
  | nil => exact h
  | cons x rest ih => exact ih _ (cleanStep_rooted_keeps kept x h)

theorem cleanElems_join_dotdot (B : String) (hroot : B.data.head? = some '/') :
    cleanElems (B ++ "/" ++ "..") = (cleanElems B).dropLast := by
  have hB : B ≠ "" := by
    rintro rfl
    simp at hroot
  have hs : '/' ∉ ("..").data := by decide
  unfold cleanElems
  rw [head_join B ".." hB, data_join, splitSep_append_sep, splitSep_of_no_sep _ hs, hroot]
  simp only [List.map_append, List.map_cons, List.map_nil, List.foldl_append, List.foldl_cons,
    List.foldl_nil, decide_True]
  have hk := foldl_rooted_keeps (List.map String.mk (splitSep B.data)) []
    (fun e he => by simp at he)
  cases hkept : List.foldl (cleanStep true) [] (List.map String.mk (splitSep B.data)) with
  | nil => simp [cleanStep]
  | cons top rest =>
    rw [hkept] at hk
    have ht : top ≠ ".." := hk top (by simp)
    have e : cleanStep true (top :: rest) (String.mk ("..").data) = rest := by
      simp [cleanStep, ht]
    rw [e]
    simp

theorem join_dotdot (B : String) (hroot : B.data.head? = some '/') :
    Join B ".." = "/" ++ String.intercalate "/" (cleanElems B).dropLast := by
  have hB : B ≠ "" := by
    rintro rfl
    simp at hroot
  rw [join_eq_clean B ".." hB, clean_eq, head_join B ".." hB, hroot,
    cleanElems_join_dotdot B hroot]
  simp

theorem clean_rooted (B : String) (hroot : B.data.head? = some '/') :
    Clean B = "/" ++ String.intercalate "/" (cleanElems B) := by
  rw [clean_eq, hroot]
  simp

theorem cleanElems_join_inner (B X R : String) (hB : B ≠ "") (hs : '/' ∉ X.data)
    (h0 : X ≠ "") (h1 : X ≠ ".") (h2 : X ≠ "..") :
    cleanElems (B ++ "/" ++ (X ++ "/" ++ (".." ++ "/" ++ R))) = cleanElems (B ++ "/" ++ R) := by
  have hdd : '/' ∉ ("..").data := by decide
  unfold cleanElems
  rw [head_join B _ hB, head_join B R hB, data_join, data_join, data_join, data_join,
    splitSep_append_sep, splitSep_append_sep, splitSep_append_sep, splitSep_append_sep,
    splitSep_of_no_sep X.data hs, splitSep_of_no_sep _ hdd]
  simp only [List.map_append, List.map_cons, List.map_nil, List.foldl_append, List.foldl_cons,
    List.foldl_nil]
  rw [cleanStep_plain _ _ _ h0 h1 h2]
  have e : ∀ (rooted : Bool) (kept : List String),
      cleanStep rooted (String.mk X.data :: kept) (String.mk ("..").data) = kept := by
    intro rooted kept
    have hx : (String.mk X.data) ≠ ".." := h2
    simp [cleanStep, hx]
  rw [e]

theorem join_inner (B X R : String) (hB : B ≠ "") (hs : '/' ∉ X.data)
    (h0 : X ≠ "") (h1 : X ≠ ".") (h2 : X ≠ "..") :
    Join B (X ++ "/" ++ (".." ++ "/" ++ R)) = Join B R := by
  rw [join_eq_clean B _ hB, join_eq_clean B R hB]
  exact clean_congr _ _ (by rw [head_join B _ hB, head_join B R hB])
    (cleanElems_join_inner B X R hB hs h0 h1 h2)

end filepath

namespace storage

theorem fileReadObject_of_file (fs : FileStore) (N : String) (w : io.Writer) (disk : os.Disk)
    (data : Bytes) (h : disk.stat (filepath.Join fs.baseDir N) = some (.file data))
    (hd : disk.deny (filepath.Join fs.baseDir N) = none) :
    fs.ReadObject N w disk = io.Copy w ⟨data, none⟩ := by
  simp only [FileStore.ReadObject, os.OpenFile, hd, h, os.File.reader]
  rcases io.Copy w ⟨data, none⟩ with ⟨_ | e, w1⟩ <;> rfl

theorem fileReadObject_of_refused (fs : FileStore) (N : String) (w : io.Writer)
    (disk : os.Disk) (e : os.Errno) (hd : disk.deny (filepath.Join fs.baseDir N) = some e)
    (he : e ≠ .ENOENT) :
    fs.ReadObject N w disk =
      (some (.wrap "failed to read requested file: "
        (.other ("open" ++ " " ++ filepath.Join fs.baseDir N ++ ": " ++ e.Error))), w) := by
  simp [FileStore.ReadObject, os.OpenFile, hd, os.PathError.isNotExist, he,
    os.PathError.toError, os.PathError.Error]

theorem fileWriteObject_of_refused (fs : FileStore) (N : String) (r : io.Reader)
    (disk : os.Disk) (e : os.Errno) (hd : disk.deny (filepath.Join fs.baseDir N) = some e)
    (he : e ≠ .EEXIST) :
    fs.WriteObject N r disk =
      (some (.other ("open" ++ " " ++ filepath.Join fs.baseDir N ++ ": " ++ e.Error)), disk) := by
  simp [FileStore.WriteObject, os.OpenFile, hd, os.PathError.isExist, he,
    os.PathError.toError, os.PathError.Error]

/-- C22, amended: for every base directory and every name, the path
`FileStore.ReadObject` and `FileStore.WriteObject` open is
`filepath.Join(baseDir, name)`, the cleaned join: a read delivers the file at
that path, a write to an absent path makes the file at that path, an open
that the file system refuses reports that path, and two names with the same
joined path are the same object to both methods.  For a base directory `B`
that is clean and neither `/` nor `.`, and a name `N` that is one ordinary
segment (not empty, not `.`, not `..`, without `'/'`), the joined path is `B`,
a separator, then `N` verbatim.  Other names are normalised: for every
non-empty clean `B` the names `.` and `""` give `B` itself; for every `B` that
begins with `/` the name `..` gives the path of the elements of `B` without
the last, its parent; and for every non-empty `B` an ordinary segment followed
by `..` inside a name is resolved away. -/
theorem file_store_opens_joined_path :
    (∀ (fs : FileStore) (N : String) (w : io.Writer) (disk : os.Disk) (data : Bytes),
        disk.stat (filepath.Join fs.baseDir N) = some (.file data) →
        disk.deny (filepath.Join fs.baseDir N) = none →
        fs.ReadObject N w disk = io.Copy w ⟨data, none⟩) ∧
      (∀ (fs : FileStore) (N : String) (r : io.Reader) (disk : os.Disk),
        disk.stat (filepath.Join fs.baseDir N) = none →
        disk.deny (filepath.Join fs.baseDir N) = none →
        (fs.WriteObject N r disk).2.stat (filepath.Join fs.baseDir N) = some (.file r.data)) ∧
      (∀ (fs : FileStore) (N : String) (w : io.Writer) (r : io.Reader) (disk : os.Disk)
        (e : os.Errno),
        disk.deny (filepath.Join fs.baseDir N) = some e → e ≠ .ENOENT → e ≠ .EEXIST →
        fs.ReadObject N w disk =
            (some (.wrap "failed to read requested file: "
              (.other ("open" ++ " " ++ filepath.Join fs.baseDir N ++ ": " ++ e.Error))), w) ∧
          fs.WriteObject N r disk =
            (some (.other ("open" ++ " " ++ filepath.Join fs.baseDir N ++ ": " ++ e.Error)),
              disk)) ∧
      (∀ (fs : FileStore) (N N' : String),
        filepath.Join fs.baseDir N = filepath.Join fs.baseDir N' →
        (∀ (w : io.Writer) (disk : os.Disk), fs.ReadObject N w disk = fs.ReadObject N' w disk) ∧
          (∀ (r : io.Reader) (disk : os.Disk),
            fs.WriteObject N r disk = fs.WriteObject N' r disk)) ∧
      (∀ (B N : String), B ≠ "" → filepath.Clean B = B → B ≠ "/" → B ≠ "." →
        N ≠ "" → N ≠ "." → N ≠ ".." → '/' ∉ N.data →
        filepath.Join B N = B ++ "/" ++ N) ∧
      (∀ (B : String), B ≠ "" → filepath.Clean B = B →
        filepath.Join B "." = B ∧ filepath.Join B "" = B) ∧
      (∀ (B : String), B.data.head? = some '/' →
        filepath.Clean B = "/" ++ String.intercalate "/" (filepath.cleanElems B) ∧
          filepath.Join B ".." =
            "/" ++ String.intercalate "/" (filepath.cleanElems B).dropLast) ∧
      (∀ (B X R : String), B ≠ "" → X ≠ "" → X ≠ "." → X ≠ ".." → '/' ∉ X.data →
        filepath.Join B (X ++ "/" ++ (".." ++ "/" ++ R)) = filepath.Join B R) := by
  refine ⟨?_, ?_, ?_, ?_, ?_, ?_, ?_, ?_⟩
  · intro fs N w disk data h hd
    exact fileReadObject_of_file fs N w disk data h hd
  · intro fs N r disk h hd
    exact fileWriteObject_creates fs N r disk h hd
  · intro fs N w r disk e hd h1 h2
    exact ⟨fileReadObject_of_refused fs N w disk e hd h1,
      fileWriteObject_of_refused fs N r disk e hd h2⟩
  · intro fs N N' h
    constructor
    · intro w disk
      simp only [FileStore.ReadObject, h]
    · intro r disk
      simp only [FileStore.WriteObject, h]
  · intro B N hB hclean hroot hdot h0 h1 h2 hs
    exact filepath.join_child B N hB hs h0 h1 h2 hclean hroot hdot
  · intro B hB hclean
    exact ⟨filepath.join_skip B "." hB hclean (Or.inr rfl),
      filepath.join_skip B "" hB hclean (Or.inl rfl)⟩
  · intro B hroot
    exact ⟨filepath.clean_rooted B hroot, filepath.join_dotdot B hroot⟩
  · intro B X R hB h0 h1 h2 hs
    exact filepath.join_inner B X R hB hs h0 h1 h2

/-- In the file store rooted at `/data`: the read of `cat.jpg` delivers the
file `/data/cat.jpg`, the write of `cat.jpg` makes it, a refused open names
it; the joined path of `cat.jpg` is the base directory, a separator and the
name; `.` gives `/data`, `..` gives `/`, and `x/../cat.jpg` is `cat.jpg`. -/
theorem file_store_opens_joined_path_witness :
    filepath.Join sampleFileStore.baseDir "cat.jpg" = "/data/cat.jpg" ∧
      sampleFileStore.ReadObject "cat.jpg" bytes.Buffer catDisk =
        io.Copy bytes.Buffer ⟨[109, 101, 111, 119], none⟩ ∧
      (sampleFileStore.WriteObject "cat.jpg" (bytes.NewReader [1, 2, 3]) sampleDisk).2.stat
        (filepath.Join sampleFileStore.baseDir "cat.jpg") = some (.file [1, 2, 3]) ∧
      (sampleFileStore.WriteObject "cat.jpg" (bytes.NewReader [1, 2, 3]) readOnlyDisk).1 =
        some (.other "open /data/cat.jpg: permission denied") ∧
      filepath.Join "/data" "cat.jpg" = "/data" ++ "/" ++ "cat.jpg" ∧
      filepath.Join "/data" "." = "/data" ∧
      filepath.Join "/data" ".." = "/" ∧
      filepath.Join "/data" ("x" ++ "/" ++ (".." ++ "/" ++ "cat.jpg")) =
        filepath.Join "/data" "cat.jpg" :=
  ⟨by decide,
    file_store_opens_joined_path.1 sampleFileStore "cat.jpg" bytes.Buffer catDisk
      [109, 101, 111, 119] (by decide) rfl,
    file_store_opens_joined_path.2.1 sampleFileStore "cat.jpg" (bytes.NewReader [1, 2, 3])
      sampleDisk (by decide) rfl,
    congrArg Prod.fst
      ((file_store_opens_joined_path.2.2.1 sampleFileStore "cat.jpg" bytes.Buffer
        (bytes.NewReader [1, 2, 3]) readOnlyDisk .EACCES (by decide) (by decide)
        (by decide)).2),
    file_store_opens_joined_path.2.2.2.2.1 "/data" "cat.jpg" (by decide) (by decide)
      (by decide) (by decide) (by decide) (by decide) (by decide) (by decide),
    (file_store_opens_joined_path.2.2.2.2.2.1 "/data" (by decide) (by decide)).1,
    (file_store_opens_joined_path.2.2.2.2.2.2.1 "/data" (by decide)).2.trans (by decide),
    file_store_opens_joined_path.2.2.2.2.2.2.2 "/data" "x" "cat.jpg" (by decide) (by decide)
      (by decide) (by decide) (by decide)⟩

/-- C22, as stated, fails: for the base directory `/data` the name `..` is
not opened as `/data/..` but as `/`, the parent of the base directory (the
read fails with the error of reading the directory `/`), and the name `.` is
opened as `/data` itself (an exclusive create there finds the directory and
returns `ErrFileExists`). -/
theorem file_store_opens_joined_path_counterexample :
    filepath.Join sampleFileStore.baseDir ".." = "/" ∧
      filepath.Join sampleFileStore.baseDir ".." ≠ "/data" ++ "/" ++ ".." ∧
      (sampleFileStore.ReadObject ".." bytes.Buffer api.rootDisk).1 =
        some (.other "read /: is a directory") ∧
      filepath.Join sampleFileStore.baseDir "." = "/data" ∧
      filepath.Join sampleFileStore.baseDir "." ≠ "/data" ++ "/" ++ "." ∧
      (sampleFileStore.WriteObject "." (bytes.NewReader [1, 2, 3]) api.rootDisk).1 =
        some .ErrFileExists := by
  refine ⟨by decide, by decide, by decide, by decide, by decide, by decide⟩

end storage

/-! ## The names `Upload` hands to the storage -/

namespace storage

theorem stat_cons_ne (disk : os.Disk) (p q : String) (n : os.Node) (h : q ≠ p) :
    os.Disk.stat { disk with nodes := (p, n) :: disk.nodes } q = disk.stat q := by
  have hp : ¬ p = q := fun e => h e.symm
  simp [os.Disk.stat, List.find?, hp]

theorem fileWriteObject_frame (fs : FileStore) (N : String) (r : io.Reader) (disk : os.Disk)
    (q : String) (hq : q ≠ filepath.Join fs.baseDir N) :
    (fs.WriteObject N r disk).2.stat q = disk.stat q := by
  simp only [FileStore.WriteObject, os.OpenFile]
  cases hd : disk.deny (filepath.Join fs.baseDir N) with
  | some e =>
    by_cases he : (os.PathError.isExist ⟨"open", filepath.Join fs.baseDir N, e⟩) = true <;>
      simp [he]
  | none =>
    cases hs : disk.stat (filepath.Join fs.baseDir N) with
    | some n => simp [os.PathError.isExist]
    | none =>
      have hp : ¬ filepath.Join fs.baseDir N = q := fun e => hq e.symm
      simp only [os.File.ReadFrom, stat_cons_self]
      cases r.err <;> simp [os.Disk.stat, List.find?, hp]

end storage

namespace api

open catly

theorem upload_state_of_all_pass {σ δ : Type} (T : String → String) (rs : GRPCResource σ δ)
    (req : UploadObjectRequest) (s : σ) (d : δ)
    (h : ∀ c : Check,
      Check.fails T req.Name req.Data (rs.contentDetector req.Data d).1 c = false) :
    (rs.Upload T req s d).2.1 =
      (rs.storage.WriteObject req.Name (bytes.NewReader req.Data) s).2 := by
  rw [upload_of_all_pass T rs req s d h]
  rcases rs.storage.WriteObject req.Name (bytes.NewReader req.Data) s with ⟨_ | e, s1⟩ <;> rfl

theorem upload_rejects_or_stores {σ δ : Type} (T : String → String) (rs : GRPCResource σ δ)
    (req : UploadObjectRequest) (s : σ) (d : δ) :
    (rs.Upload T req s d).2.1 = s ∨
      ((∀ c : Check,
          Check.fails T req.Name req.Data (rs.contentDetector req.Data d).1 c = false) ∧
        (rs.Upload T req s d).2.1 =
          (rs.storage.WriteObject req.Name (bytes.NewReader req.Data) s).2) := by
  rcases firstFailing_cases T req.Name req.Data (rs.contentDetector req.Data d).1 with
    ⟨_, hc⟩ | ⟨_, _, hc⟩ | ⟨_, _, _, hc⟩ | ⟨_, _, _, _, hc⟩ |
    ⟨_, _, _, _, _, hc⟩ | ⟨f1, f2, f3, f4, f5, _⟩
  · left; rw [upload_of_firstFailing T rs req s d _ hc]
  · left; rw [upload_of_firstFailing T rs req s d _ hc]
  · left; rw [upload_of_firstFailing T rs req s d _ hc]
  · left; rw [upload_of_firstFailing T rs req s d _ hc]
  · left; rw [upload_of_firstFailing T rs req s d _ hc]
  · right
    have hall : ∀ c : Check,
        Check.fails T req.Name req.Data (rs.contentDetector req.Data d).1 c = false := by
      intro c; cases c <;> assumption
    exact ⟨hall, upload_state_of_all_pass T rs req s d hall⟩

theorem safe_of_pass (T : String → String) (name : String) (data : Bytes) (mt : String)
    (hT : T "." ∉ ["image/jpeg", "image/png", "image/gif"])
    (hpass : ∀ c : Check, Check.fails T name data mt c = false) :
    '/' ∉ name.data ∧ name ≠ "." ∧ name ≠ ".." ∧ name ≠ "" := by
  have p1 := hpass .nameLength
  have p2 := hpass .nameCharacters
  have p4 := hpass .contentAccepted
  have p5 := hpass .extensionAgrees
  simp only [Check.fails, decide_eq_false_iff_not, not_not] at p1 p2 p4 p5
  have hext : ∀ n : String, filepath.Ext n = "." → name ≠ n := by
    intro n hn e
    rw [e, hn] at p5
    rw [p5] at hT
    exact hT p4
  refine ⟨p2, hext "." (by decide), hext ".." (by decide), ?_⟩
  intro e
  rw [e] at p1
  exact absurd p1.1 (by decide)

/-- C25: with an extension table that gives the extension `.` none of the
three accepted types (the table of the standard library has no entry for
it), for every detector, every backend and every request: `Upload` calls the
backend's `WriteObject` at most once, with the request's name, and it does so
exactly when the five checks pass; a name it hands over contains no `'/'`,
is not `.`, not `..` and not empty, and the path it is joined to under a base
directory `B` has the elements of the cleaned `B` followed by the name as the
last element (for a clean `B` other than `/` and `.`: `B`, a separator, then
the name).  In front of a file store with such a base directory, the only
path whose node an `Upload` can change is that direct child. -/
theorem upload_names_are_safe_segments {σ δ : Type} (T : String → String)
    (st : WritableStorage σ) (address : String) (det : contentDetectorFunc δ)
    (req : UploadObjectRequest) (s : σ) (log : List String) (d : δ)
    (hT : T "." ∉ ["image/jpeg", "image/png", "image/gif"]) :
    ((∀ c : Check, Check.fails T req.Name req.Data (det req.Data d).1 c = false) →
        (GRPCResource.Upload T ⟨address, recordCalls st, det⟩ req (s, log) d).2.1.2 =
          log ++ [req.Name]) ∧
      ((GRPCResource.Upload T ⟨address, recordCalls st, det⟩ req (s, log) d).2.1.2 = log ∨
        ((GRPCResource.Upload T ⟨address, recordCalls st, det⟩ req (s, log) d).2.1.2 =
            log ++ [req.Name] ∧
          '/' ∉ req.Name.data ∧ req.Name ≠ "." ∧ req.Name ≠ ".." ∧ req.Name ≠ "" ∧
          (∀ B : String, B ≠ "" →
            filepath.Join B req.Name = filepath.Clean (B ++ "/" ++ req.Name) ∧
              filepath.cleanElems (B ++ "/" ++ req.Name) =
                filepath.cleanElems B ++ [req.Name]) ∧
          (∀ B : String, B ≠ "" → filepath.Clean B = B → B ≠ "/" → B ≠ "." →
            filepath.Join B req.Name = B ++ "/" ++ req.Name))) ∧
      (∀ (fs : storage.FileStore) (disk : os.Disk) (q : String),
        fs.baseDir ≠ "" → filepath.Clean fs.baseDir = fs.baseDir →
        fs.baseDir ≠ "/" → fs.baseDir ≠ "." →
        (GRPCResource.Upload T ⟨address, fileStorage fs, det⟩ req disk d).2.1.stat q ≠
          disk.stat q →
        q = fs.baseDir ++ "/" ++ req.Name ∧ '/' ∉ req.Name.data ∧ req.Name ≠ "." ∧
          req.Name ≠ ".." ∧ req.Name ≠ "") := by
  refine ⟨?_, ?_, ?_⟩
  · intro hpass
    rw [upload_state_of_all_pass T ⟨address, recordCalls st, det⟩ req (s, log) d hpass]
    rfl
  · rcases upload_rejects_or_stores T ⟨address, recordCalls st, det⟩ req (s, log) d with
      h | ⟨hpass, h⟩
    · left; rw [h]
    · right
      obtain ⟨hs, h1, h2, h0⟩ := safe_of_pass T req.Name req.Data _ hT hpass
      refine ⟨?_, hs, h1, h2, h0, ?_, ?_⟩
      · rw [h]; rfl
      · intro B hB
        exact ⟨filepath.join_eq_clean B req.Name hB,
          filepath.cleanElems_join B req.Name hB hs h0 h1 h2⟩
      · intro B hB hclean hroot hdot
        exact filepath.join_child B req.Name hB hs h0 h1 h2 hclean hroot hdot
  · intro fs disk q hB hclean hroot hdot hq
    rcases upload_rejects_or_stores T ⟨address, fileStorage fs, det⟩ req disk d with
      h | ⟨hpass, h⟩
    · rw [h] at hq; exact absurd rfl hq
    · obtain ⟨hs, h1, h2, h0⟩ := safe_of_pass T req.Name req.Data _ hT hpass
      refine ⟨?_, hs, h1, h2, h0⟩
      rw [← filepath.join_child fs.baseDir req.Name hB hs h0 h1 h2 hclean hroot hdot]
      by_contra hne
      apply hq
      rw [h]
      exact storage.fileWriteObject_frame fs req.Name (bytes.NewReader req.Data) disk q hne

/-- With the table of the standard library: the upload of `cat.jpg` is
handed to the backend under that name, and in front of the file store rooted
at `/data` the file is made at `/data/cat.jpg`; the upload of `..` is
rejected and no call reaches the backend. -/
theorem upload_names_are_safe_segments_witness :
    mime.builtinTypeByExtension "." ∉ ["image/jpeg", "image/png", "image/gif"] ∧
      (GRPCResource.Upload mime.builtinTypeByExtension
        ⟨"http://127.0.0.1:8080/", recordCalls recordingStorage,
          countingDetector (fun _ => "image/jpeg")⟩
        ⟨"cat.jpg", [255, 216, 255]⟩ ([], []) 0).2.1.2 = [] ++ ["cat.jpg"] ∧
      (GRPCResource.Upload mime.builtinTypeByExtension
        ⟨"http://127.0.0.1:8080/", recordCalls recordingStorage,
          countingDetector (fun _ => "image/jpeg")⟩
        ⟨"..", [255, 216, 255]⟩ ([], []) 0).2.1.2 = [] ∧
      (fileResource.Upload mime.builtinTypeByExtension ⟨"cat.jpg", [255, 216, 255]⟩
        storage.sampleDisk 0).2.1.stat "/data/cat.jpg" = some (.file [255, 216, 255]) ∧
      "/data/cat.jpg" = storage.sampleFileStore.baseDir ++ "/" ++ "cat.jpg" :=
  ⟨by decide,
    (upload_names_are_safe_segments mime.builtinTypeByExtension recordingStorage
      "http://127.0.0.1:8080/" (countingDetector (fun _ => "image/jpeg"))
      ⟨"cat.jpg", [255, 216, 255]⟩ [] [] 0 (by decide)).1 (fun c => by cases c <;> decide),
    by decide,
    by decide,
    ((upload_names_are_safe_segments mime.builtinTypeByExtension recordingStorage
      "http://127.0.0.1:8080/" (countingDetector (fun _ => "image/jpeg"))
      ⟨"cat.jpg", [255, 216, 255]⟩ [] [] 0 (by decide)).2.2 storage.sampleFileStore
      storage.sampleDisk "/data/cat.jpg" (by decide) (by decide) (by decide) (by decide)
      (by decide)).1⟩

end api
